import Mathlib

/-! # OTLP trace sanitizers: batch tool, gateway and browser scripts

A shallow embedding of the sanitizing code of the repository:

* `src/fix-otlp-traces.js` (batch tool): `UNSIGNED_INT_FIELDS`, `sanitizeValue`, `processFile`;
* `src/jaeger-otlp-fixer.js` (gateway): `UNSIGNED_INT_FIELDS`, `sanitizeObject`, the request
  handler of `http.createServer`;
* `src/auto-fix-otlp.js`, `src/jaeger-ui-fix.user.js` (browser scripts): `unsignedFields`.

In-place mutation of a parsed document is rendered as a function from the document before the
call to the document after it.  A document produced by `JSON.parse` is a tree without sharing,
so the state after a traversal is determined by the tree alone.
-/

/-! ## Data model -/

/-- A value produced by `JSON.parse`.  A number is held as the rational its literal denotes: the
sanitizers only ever compare a number with `0` and store the constant `0`.  An object is the list
of its own enumerable properties in enumeration order. -/
inductive Json where
  | null
  | bool (b : Bool)
  | num (n : ℚ)
  | str (s : String)
  | arr (items : List Json)
  | obj (props : List (String × Json))

mutual
/-- Equality of two values is decidable. -/
def Json.decEq : (a b : Json) → Decidable (a = b)
  | .null, .null => isTrue rfl
  | .bool x, .bool y =>
    if h : x = y then isTrue (by rw [h]) else isFalse (by intro e; cases e; exact h rfl)
  | .num x, .num y =>
    if h : x = y then isTrue (by rw [h]) else isFalse (by intro e; cases e; exact h rfl)
  | .str x, .str y =>
    if h : x = y then isTrue (by rw [h]) else isFalse (by intro e; cases e; exact h rfl)
  | .arr xs, .arr ys =>
    match Json.decEqItems xs ys with
    | isTrue h => isTrue (by rw [h])
    | isFalse h => isFalse (by intro e; cases e; exact h rfl)
  | .obj ps, .obj qs =>
    match Json.decEqProps ps qs with
    | isTrue h => isTrue (by rw [h])
    | isFalse h => isFalse (by intro e; cases e; exact h rfl)
  | .null, .bool _ => isFalse (by intro e; cases e)
  | .null, .num _ => isFalse (by intro e; cases e)
  | .null, .str _ => isFalse (by intro e; cases e)
  | .null, .arr _ => isFalse (by intro e; cases e)
  | .null, .obj _ => isFalse (by intro e; cases e)
  | .bool _, .null => isFalse (by intro e; cases e)
  | .bool _, .num _ => isFalse (by intro e; cases e)
  | .bool _, .str _ => isFalse (by intro e; cases e)
  | .bool _, .arr _ => isFalse (by intro e; cases e)
  | .bool _, .obj _ => isFalse (by intro e; cases e)
  | .num _, .null => isFalse (by intro e; cases e)
  | .num _, .bool _ => isFalse (by intro e; cases e)
  | .num _, .str _ => isFalse (by intro e; cases e)
  | .num _, .arr _ => isFalse (by intro e; cases e)
  | .num _, .obj _ => isFalse (by intro e; cases e)
  | .str _, .null => isFalse (by intro e; cases e)
  | .str _, .bool _ => isFalse (by intro e; cases e)
  | .str _, .num _ => isFalse (by intro e; cases e)
  | .str _, .arr _ => isFalse (by intro e; cases e)
  | .str _, .obj _ => isFalse (by intro e; cases e)
  | .arr _, .null => isFalse (by intro e; cases e)
  | .arr _, .bool _ => isFalse (by intro e; cases e)
  | .arr _, .num _ => isFalse (by intro e; cases e)
  | .arr _, .str _ => isFalse (by intro e; cases e)
  | .arr _, .obj _ => isFalse (by intro e; cases e)
  | .obj _, .null => isFalse (by intro e; cases e)
  | .obj _, .bool _ => isFalse (by intro e; cases e)
  | .obj _, .num _ => isFalse (by intro e; cases e)
  | .obj _, .str _ => isFalse (by intro e; cases e)
  | .obj _, .arr _ => isFalse (by intro e; cases e)
/-- Equality of two lists of values is decidable. -/
def Json.decEqItems : (xs ys : List Json) → Decidable (xs = ys)
  | [], [] => isTrue rfl
  | [], _ :: _ => isFalse (by intro e; cases e)
  | _ :: _, [] => isFalse (by intro e; cases e)
  | x :: xs, y :: ys =>
    match Json.decEq x y, Json.decEqItems xs ys with
    | isTrue h, isTrue t => isTrue (by rw [h, t])
    | isFalse h, _ => isFalse (by intro e; cases e; exact h rfl)
    | _, isFalse t => isFalse (by intro e; cases e; exact t rfl)
/-- Equality of two lists of properties is decidable. -/
def Json.decEqProps : (ps qs : List (String × Json)) → Decidable (ps = qs)
  | [], [] => isTrue rfl
  | [], _ :: _ => isFalse (by intro e; cases e)
  | _ :: _, [] => isFalse (by intro e; cases e)
  | (k, v) :: ps, (l, w) :: qs =>
    if hk : k = l then
      match Json.decEq v w, Json.decEqProps ps qs with
      | isTrue h, isTrue t => isTrue (by rw [hk, h, t])
      | isFalse h, _ => isFalse (by intro e; cases e; exact h rfl)
      | _, isFalse t => isFalse (by intro e; cases e; exact t rfl)
    else isFalse (by intro e; cases e; exact hk rfl)
end

instance : DecidableEq Json := Json.decEq

/-- The kinds of value a position of a document can hold. -/
inductive Kind where
  | null | bool | num | str | arr | obj
  deriving DecidableEq, Repr

namespace Json

/-- The kind of a value. -/
def kind : Json → Kind
  | .null => .null
  | .bool _ => .bool
  | .num _ => .num
  | .str _ => .str
  | .arr _ => .arr
  | .obj _ => .obj

/-- Expression `typeof value === 'number'`. -/
def isNumber : Json → Bool
  | .num _ => true
  | _ => false

/-- A value that is neither an object nor an array. -/
def isScalar : Json → Bool
  | .arr _ => false
  | .obj _ => false
  | _ => true

/-- Expression `typeof value === 'number' && value < 0`. -/
def isNegativeNumber : Json → Bool
  | .num n => decide (n < 0)
  | _ => false

end Json

/-- One step down a document: a property name of an object or an index of an array. -/
inductive Step where
  | key (k : String)
  | index (i : Nat)

namespace Json

/-- The property `k` of an object: `obj[k]`. -/
def prop : List (String × Json) → String → Option Json
  | [], _ => none
  | (k', v) :: rest, k => if k' = k then some v else prop rest k

/-- The value one step below a value, when there is one. -/
def child : Json → Step → Option Json
  | .obj props, .key k => prop props k
  | .arr items, .index i => items.get? i
  | _, _ => none

/-- The value at the end of a path, when the path exists in the document. -/
def getPath : Json → List Step → Option Json
  | v, [] => some v
  | v, s :: p =>
    match child v s with
    | some w => getPath w p
    | none => none

end Json

/-- Method `table.includes(key)` of an array of strings: `Array.prototype.includes` compares
strings by equality. -/
def arrayIncludes (table : List String) (key : String) : Bool :=
  table.any (fun name => decide (name = key))

/-- Method `name.toLowerCase()` on the ASCII letters, as Node applies it to header names. -/
def toLowerCase (name : String) : String :=
  String.mk (name.data.map Char.toLower)

/-! ## `src/fix-otlp-traces.js`: the batch tool's sanitizer -/

namespace FixOtlpTraces

/-- The table `UNSIGNED_INT_FIELDS` of `fix-otlp-traces.js` (lines 15-20). -/
def UNSIGNED_INT_FIELDS : List String :=
  ["droppedAttributesCount", "droppedEventsCount", "droppedLinksCount", "droppedLabelsCount"]

mutual
/-- Function `sanitizeValue(obj)` (lines 22-44): the document after the call.  A value that is falsy or
not of type `object` is left alone (line 23); an array is enumerated by `for ... in` over its
indices, an object over its property names. -/
def sanitizeValue : Json → Json
  | .arr items => .arr (overIndices items)
  | .obj props => .obj (overKeys props)
  | v => v
/-- The `for ... in` loop over the indices of an array: an index (`"0"`, `"1"`, ...) is not a
name of the table, so only the second `if` (lines 36-42) can act on an element. -/
def overIndices : List Json → List Json
  | [] => []
  | value :: rest => descend value :: overIndices rest
/-- The `for ... in` loop over the properties of an object.  The first `if` (lines 30-33) stores
`0`; it fires only on a number, on which the second `if` does nothing. -/
def overKeys : List (String × Json) → List (String × Json)
  | [] => []
  | (key, value) :: rest =>
    (key, if arrayIncludes UNSIGNED_INT_FIELDS key && value.isNegativeNumber then Json.num 0
          else descend value) :: overKeys rest
/-- The second `if` of the loop body (lines 36-42): an array has `sanitizeValue` run on each
item, an object has `sanitizeValue` run on itself, anything else is left alone. -/
def descend : Json → Json
  | .arr items => .arr (forEachItem items)
  | .obj props => .obj (overKeys props)
  | v => v
/-- Statement `value.forEach(item => sanitizeValue(item))` (line 38). -/
def forEachItem : List Json → List Json
  | [] => []
  | item :: rest => sanitizeValue item :: forEachItem rest
end

end FixOtlpTraces

/-! ## `src/jaeger-otlp-fixer.js`: the gateway's sanitizer -/

namespace JaegerOtlpFixer

/-- The table `UNSIGNED_INT_FIELDS` of `jaeger-otlp-fixer.js` (lines 14-19). -/
def UNSIGNED_INT_FIELDS : List String :=
  ["droppedAttributesCount", "droppedEventsCount", "droppedLinksCount", "droppedLabelsCount"]

mutual
/-- Function `sanitizeObject(obj)` (lines 26-47): the document after the call. -/
def sanitizeObject : Json → Json
  | .arr items => .arr (overIndices items)
  | .obj props => .obj (overKeys props)
  | v => v
/-- Statement `Object.keys(obj).forEach` over the indices of an array: only the second `if`
(lines 39-45) can act on an element. -/
def overIndices : List Json → List Json
  | [] => []
  | value :: rest => descend value :: overIndices rest
/-- Statement `Object.keys(obj).forEach` over the properties of an object (lines 29-46). -/
def overKeys : List (String × Json) → List (String × Json)
  | [] => []
  | (key, value) :: rest =>
    (key, if arrayIncludes UNSIGNED_INT_FIELDS key && value.isNegativeNumber then Json.num 0
          else descend value) :: overKeys rest
/-- The second `if` of the callback (lines 39-45). -/
def descend : Json → Json
  | .arr items => .arr (forEachItem items)
  | .obj props => .obj (overKeys props)
  | v => v
/-- Statement `value.forEach(item => sanitizeObject(item))` (line 41). -/
def forEachItem : List Json → List Json
  | [] => []
  | item :: rest => sanitizeObject item :: forEachItem rest
end

end JaegerOtlpFixer

/-! ## The browser scripts' tables -/

namespace AutoFixOtlp

/-- The table `unsignedFields` of `auto-fix-otlp.js` (lines 37-42). -/
def unsignedFields : List String :=
  ["droppedAttributesCount", "droppedEventsCount", "droppedLinksCount", "droppedLabelsCount"]

end AutoFixOtlp

namespace JaegerUiFix

/-- The table `unsignedFields` of `jaeger-ui-fix.user.js` (lines 52-57). -/
def unsignedFields : List String :=
  ["droppedAttributesCount", "droppedEventsCount", "droppedLinksCount", "droppedLabelsCount"]

end JaegerUiFix

/-! ## The host platform

`JSON`, `zlib`, `Buffer`, `fs`, `process.env` and the upstream server are not code of the
repository; they are parameters of the embedding. -/

/-- The library functions the tools call. -/
structure Runtime where
  /-- Function `JSON.parse(text)`: the parsed value, or the `message` of the `SyntaxError` it throws. -/
  parse : String → Except String Json
  /-- Function `JSON.stringify(value)`. -/
  stringify : Json → String
  /-- Function `JSON.stringify(value, null, 2)`. -/
  stringifyIndent : Json → String
  /-- Function `zlib.gunzipSync(buffer)`; `none` when it throws. -/
  gunzipSync : ByteArray → Option ByteArray
  /-- Function `zlib.inflateSync(buffer)`; `none` when it throws. -/
  inflateSync : ByteArray → Option ByteArray
  /-- Function `buffer.toString()`. -/
  bufferToString : ByteArray → String
  /-- Function `parseInt(text)`; `none` for `NaN`. -/
  parseInt : String → Option Int

/-- Function `Array.isArray(value)`. -/
def Json.isArray : Json → Bool
  | .arr _ => true
  | _ => false

/-! ## `src/fix-otlp-traces.js`: `processFile` -/

namespace FixOtlpTraces

/-- The file system as `processFile` meets it. -/
structure FileSystem where
  /-- Function `fs.readFileSync(path, 'utf8')`; `none` when it throws. -/
  readFileSync : String → Option String
  /-- Whether `fs.writeFileSync(path, _)` succeeds. -/
  writable : String → Bool

/-- What a run of the tool did: the writes it performed, in order, and the status with which the
process ends (`0` unless `process.exit(1)` was called). -/
structure Run where
  written : List (String × String)
  exitCode : Nat

/-- The characters `String.prototype.trim` removes: ECMAScript `WhiteSpace` and
`LineTerminator`. -/
def isTrimmed (c : Char) : Bool :=
  c.toNat ∈ [0x9, 0xA, 0xB, 0xC, 0xD, 0x20, 0xA0, 0x1680, 0x2000, 0x2001, 0x2002, 0x2003, 0x2004,
    0x2005, 0x2006, 0x2007, 0x2008, 0x2009, 0x200A, 0x2028, 0x2029, 0x202F, 0x205F, 0x3000, 0xFEFF]

/-- Function `text.trim()` on the characters of a string. -/
def trim (cs : List Char) : List Char :=
  ((cs.dropWhile isTrimmed).reverse.dropWhile isTrimmed).reverse

/-- Function `text.split('\n')` on the characters of a string: the pieces between line feeds, empty
pieces included. -/
def split : List Char → List (List Char)
  | [] => [[]]
  | c :: cs =>
    if c = '\n' then [] :: split cs
    else
      match split cs with
      | [] => [[c]]
      | piece :: pieces => (c :: piece) :: pieces

/-- Statement `lines.map(line => JSON.parse(line))` (line 58): the parsed lines, or the message of the
first line that does not parse. -/
def parseLines (rt : Runtime) : List (List Char) → Except String (List Json)
  | [] => .ok []
  | line :: rest =>
    match rt.parse (String.mk line) with
    | .error message => .error message
    | .ok value =>
      match parseLines rt rest with
      | .error message => .error message
      | .ok values => .ok (value :: values)

/-- Lines 52-59: `JSON.parse(data)` and, when it throws, the line-by-line fallback. -/
def parseTraces (rt : Runtime) (data : String) : Except String Json :=
  match rt.parse data with
  | .ok traces => .ok traces
  | .error _ =>
    match parseLines rt (split (trim data.data)) with
    | .ok values => .ok (.arr values)
    | .error message => .error message

/-- Lines 62-66: `traces.forEach(trace => sanitizeValue(trace))` for an array, `sanitizeValue`
otherwise. -/
def sanitizeTraces : Json → Json
  | .arr traces => .arr (traces.map sanitizeValue)
  | traces => sanitizeValue traces

/-- Function `processFile(inputPath, outputPath)` (lines 46-76). -/
def processFile (rt : Runtime) (fs : FileSystem) (inputPath outputPath : String) : Run :=
  match fs.readFileSync inputPath with
  | none => { written := [], exitCode := 1 }
  | some data =>
    match parseTraces rt data with
    | .error _ => { written := [], exitCode := 1 }
    | .ok traces =>
      if fs.writable outputPath then
        { written := [(outputPath, rt.stringifyIndent (sanitizeTraces traces))], exitCode := 0 }
      else { written := [], exitCode := 1 }

/-- Function `main()` (lines 79-89) on `process.argv`. -/
def main (rt : Runtime) (fs : FileSystem) (argv : List String) : Run :=
  match argv with
  | _ :: _ :: inputPath :: outputPath :: _ => processFile rt fs inputPath outputPath
  | _ => { written := [], exitCode := 1 }

end FixOtlpTraces

/-! ## `src/jaeger-otlp-fixer.js`: the request handler -/

namespace JaegerOtlpFixer

/-- Constant `DEFAULT_PORT` (line 22). -/
def DEFAULT_PORT : Int := 16686

/-- Constant `PROXY_PORT` (line 23). -/
def PROXY_PORT : Int := 8080

/-- The two variables of `process.env` the handler reads. -/
structure Env where
  JAEGER_HOST : Option String
  JAEGER_PORT : Option String

/-- The value of a header: text, or the number `Buffer.byteLength` returns. -/
inductive HeaderValue where
  | text (s : String)
  | number (n : Nat)
  deriving DecidableEq, Repr

/-- A headers object: its properties in insertion order. -/
abbrev Headers := List (String × HeaderValue)

/-- Expression `headers[name] = value` on a headers object. -/
def setHeader : Headers → String → HeaderValue → Headers
  | [], name, value => [(name, value)]
  | (name', value') :: rest, name, value =>
    if name' = name then (name, value) :: rest else (name', value') :: setHeader rest name value

/-- The request the server received.  `headers` is `req.headers`, whose names Node has
lower-cased; `chunks` are the buffers of its `data` events. -/
structure IncomingMessage where
  method : String
  url : String
  headers : List (String × String)
  chunks : List ByteArray

/-- A request issued with `http.request(options, ...)` and the chunks written to it. -/
structure UpstreamRequest where
  hostname : String
  port : Option Int
  path : String
  method : String
  headers : Headers
  body : List ByteArray

/-- What the upstream target does with a request: it answers, or the request emits `error`. -/
inductive UpstreamResult where
  | response (statusCode : Nat) (headers : Headers) (body : List ByteArray)
  | error

/-- What the client receives. -/
structure ClientResponse where
  statusCode : Nat
  headers : Headers
  body : List ByteArray

/-- What handling one request did: the requests sent upstream, in order, the response given to
the client, and whether an exception escaped the handler. -/
structure Handled where
  sent : List UpstreamRequest
  response : Option ClientResponse
  threw : Bool

/-- Function `text.includes(pattern)`: `pattern` occurs in `text`. -/
def includes (text pattern : String) : Bool :=
  text.data.tails.any (fun rest => pattern.data.isPrefixOf rest)

/-- Expression `process.env.JAEGER_HOST || 'localhost'` (line 51). -/
def jaegerHost (env : Env) : String :=
  match env.JAEGER_HOST with
  | some host => if host = "" then "localhost" else host
  | none => "localhost"

/-- Expression `parseInt(process.env.JAEGER_PORT || DEFAULT_PORT)` (line 52). -/
def jaegerPort (rt : Runtime) (env : Env) : Option Int :=
  match env.JAEGER_PORT with
  | some port => if port = "" then some DEFAULT_PORT else rt.parseInt port
  | none => some DEFAULT_PORT

/-- Function `Buffer.concat(body)` (line 63). -/
def concat (chunks : List ByteArray) : ByteArray :=
  chunks.foldl (fun whole chunk => whole ++ chunk) ByteArray.empty

/-- Expression `req.headers['content-encoding']` (line 66). -/
def contentEncoding (headers : List (String × String)) : Option String :=
  headers.lookup "content-encoding"

/-- Lines 66-71: the body after `gunzipSync` or `inflateSync`; `none` when the call throws. -/
def decompress (rt : Runtime) (encoding : Option String) (body : ByteArray) : Option ByteArray :=
  if encoding = some "gzip" then rt.gunzipSync body
  else if encoding = some "deflate" then rt.inflateSync body
  else some body

/-- Lines 76-80: `data.forEach(item => sanitizeObject(item))` for an array, `sanitizeObject`
otherwise. -/
def sanitizeData : Json → Json
  | .arr items => .arr (items.map sanitizeObject)
  | data => sanitizeObject data

/-- Lines 98-102: the headers of the request copied into `options.headers`, all but
`content-length` and `host`. -/
def copyHeaders (initial : Headers) (headers : List (String × String)) : Headers :=
  headers.foldl
    (fun options header =>
      if header.1 ≠ "content-length" ∧ header.1 ≠ "host" then
        setHeader options header.1 (.text header.2)
      else options)
    initial

/-- Lines 86-102: `options.headers` of the forwarded request. -/
def forwardedHeaders (sanitizedBody : String) (headers : List (String × String)) : Headers :=
  copyHeaders
    [("Content-Type", .text "application/json"),
     ("Content-Length", .number sanitizedBody.utf8ByteSize)]
    headers

/-- The callbacks on the upstream request (lines 105-114 and 135-144): the upstream response is
relayed, an `error` is answered with status `500`. -/
def relay : UpstreamResult → ClientResponse
  | .response statusCode headers body =>
    { statusCode := statusCode, headers := headers, body := body }
  | .error =>
    { statusCode := 500, headers := [], body := ["Error forwarding request to Jaeger".toUTF8] }

/-- The listener of `http.createServer` (lines 50-148), run to the end of the exchange.
`http.request` itself is taken not to throw. -/
def handler (rt : Runtime) (env : Env) (upstream : UpstreamRequest → UpstreamResult)
    (req : IncomingMessage) : Handled :=
  if req.method = "POST" ∧ includes req.url "/api/transform" = true then
    match decompress rt (contentEncoding req.headers) (concat req.chunks) with
    | none => { sent := [], response := none, threw := true }
    | some body =>
      match rt.parse (rt.bufferToString body) with
      | .error message =>
        { sent := [],
          response := some
            { statusCode := 400, headers := [],
              body := [("Error processing request: " ++ message).toUTF8] },
          threw := false }
      | .ok data =>
        let sanitizedBody := rt.stringify (sanitizeData data)
        let proxyReq : UpstreamRequest :=
          { hostname := jaegerHost env, port := jaegerPort rt env, path := req.url,
            method := req.method, headers := forwardedHeaders sanitizedBody req.headers,
            body := [sanitizedBody.toUTF8] }
        { sent := [proxyReq], response := some (relay (upstream proxyReq)), threw := false }
  else
    let proxyReq : UpstreamRequest :=
      { hostname := jaegerHost env, port := jaegerPort rt env, path := req.url,
        method := req.method,
        headers := req.headers.map (fun header => (header.1, HeaderValue.text header.2)),
        body := req.chunks }
    { sent := [proxyReq], response := some (relay (upstream proxyReq)), threw := false }

/-- The header `name` as it goes on the wire: Node stores the properties of `options.headers`
under their lower-cased names, a later property replacing an earlier one of the same name. -/
def sentHeader (headers : Headers) (name : String) : Option HeaderValue :=
  ((headers.filter (fun header => toLowerCase header.1 = toLowerCase name)).getLast?).map Prod.snd

end JaegerOtlpFixer

/-! ## A runtime for the scenarios

A stand-in for the host platform that knows the few texts of the scenarios below; it is used to
run the tools on concrete inputs. -/

namespace Scenario

/-- The text of Scenario B: two spans, the first with `droppedLinksCount: -1`. -/
def inputText : String :=
  "[\x7b\"droppedLinksCount\":-1\x7d,\x7b\"droppedLinksCount\":2\x7d]"

/-- The document `inputText` denotes. -/
def inputDocument : Json :=
  .arr [.obj [("droppedLinksCount", .num (-1))], .obj [("droppedLinksCount", .num 2)]]

/-- The document of Scenario B with the first span repaired. -/
def outputDocument : Json :=
  .arr [.obj [("droppedLinksCount", .num 0)], .obj [("droppedLinksCount", .num 2)]]

/-- The text `JSON.stringify` gives for `outputDocument`. -/
def outputText : String :=
  "[\x7b\"droppedLinksCount\":0\x7d,\x7b\"droppedLinksCount\":2\x7d]"

/-- The text `JSON.stringify(_, null, 2)` gives for `outputDocument`. -/
def outputTextIndent : String :=
  "[\n  \x7b\n    \"droppedLinksCount\": 0\n  \x7d,\n  \x7b\n    \"droppedLinksCount\": 2\n  \x7d\n]"

/-- A text that is not JSON. -/
def brokenText : String := "\x7b\"droppedLinksCount\":"

/-- Bytes standing for the gzip stream of `inputText`. -/
def gzipBytes : ByteArray := ByteArray.mk #[31, 139, 8, 0]

/-- The stand-in runtime. -/
def runtime : Runtime where
  parse text :=
    if text = inputText then .ok inputDocument
    else if text = outputText ∨ text = outputTextIndent then .ok outputDocument
    else .error "Unexpected end of JSON input"
  stringify value := if value = outputDocument then outputText else "null"
  stringifyIndent value := if value = outputDocument then outputTextIndent else "null"
  gunzipSync buffer := if buffer.data = gzipBytes.data then some inputText.toUTF8 else none
  inflateSync _ := none
  bufferToString buffer :=
    if buffer.data = inputText.toUTF8.data then inputText
    else if buffer.data = brokenText.toUTF8.data then brokenText
    else ""
  parseInt text := text.toInt?

/-- A file system holding Scenario B's text at `input.json`, any path being writable. -/
def fileSystem : FixOtlpTraces.FileSystem where
  readFileSync path := if path = "input.json" then some inputText else none
  writable _ := true

/-- An environment without `JAEGER_HOST` and `JAEGER_PORT`. -/
def env : JaegerOtlpFixer.Env where
  JAEGER_HOST := none
  JAEGER_PORT := none

/-- An upstream target that answers every request with status `200` and an empty body. -/
def upstream : JaegerOtlpFixer.UpstreamRequest → JaegerOtlpFixer.UpstreamResult :=
  fun _ => .response 200 [] []

/-- The request of Scenario D: a `POST` to the transform endpoint whose body is gzip-encoded. -/
def gzipRequest : JaegerOtlpFixer.IncomingMessage where
  method := "POST"
  url := "/api/transform"
  headers := [("host", "localhost:8080"), ("content-type", "application/json"),
    ("content-encoding", "gzip"), ("content-length", "4")]
  chunks := [gzipBytes]

/-- A `POST` to the transform endpoint whose body is not JSON. -/
def brokenRequest : JaegerOtlpFixer.IncomingMessage where
  method := "POST"
  url := "/api/transform"
  headers := [("host", "localhost:8080"), ("content-type", "application/json"),
    ("content-length", "21")]
  chunks := [brokenText.toUTF8]

end Scenario

/-! ## `src/auto-fix-otlp.js` and `src/jaeger-ui-fix.user.js`: the browser scripts' sanitizer -/

namespace AutoFixOtlp

mutual
/-- Function `fixNegativeValues(obj)` of `auto-fix-otlp.js` (lines 33-62): the document after the call. -/
def fixNegativeValues : Json → Json
  | .arr items => .arr (overIndices items)
  | .obj props => .obj (overKeys props)
  | v => v
/-- The `for ... in` loop over the indices of an array: an index is not a name of the table,
so only the second `if` (lines 54-60) can act on an element. -/
def overIndices : List Json → List Json
  | [] => []
  | value :: rest => descend value :: overIndices rest
/-- The `for ... in` loop over the properties of an object; the first `if`
(lines 49-51) stores `0`. -/
def overKeys : List (String × Json) → List (String × Json)
  | [] => []
  | (key, value) :: rest =>
    (key, if arrayIncludes unsignedFields key && value.isNegativeNumber then Json.num 0
          else descend value) :: overKeys rest
/-- The second `if` of the loop body (lines 54-60). -/
def descend : Json → Json
  | .arr items => .arr (forEachItem items)
  | .obj props => .obj (overKeys props)
  | v => v
/-- Statement `value.forEach(item => fixNegativeValues(item))` (line 56). -/
def forEachItem : List Json → List Json
  | [] => []
  | item :: rest => fixNegativeValues item :: forEachItem rest
end

end AutoFixOtlp

namespace JaegerUiFix

mutual
/-- Function `fixNegativeValues(obj)` of `jaeger-ui-fix.user.js` (lines 48-77): the document after the call. -/
def fixNegativeValues : Json → Json
  | .arr items => .arr (overIndices items)
  | .obj props => .obj (overKeys props)
  | v => v
/-- The `for ... in` loop over the indices of an array: an index is not a name of the table,
so only the second `if` (lines 69-75) can act on an element. -/
def overIndices : List Json → List Json
  | [] => []
  | value :: rest => descend value :: overIndices rest
/-- The `for ... in` loop over the properties of an object; the first `if`
(lines 64-66) stores `0`. -/
def overKeys : List (String × Json) → List (String × Json)
  | [] => []
  | (key, value) :: rest =>
    (key, if arrayIncludes unsignedFields key && value.isNegativeNumber then Json.num 0
          else descend value) :: overKeys rest
/-- The second `if` of the loop body (lines 69-75). -/
def descend : Json → Json
  | .arr items => .arr (forEachItem items)
  | .obj props => .obj (overKeys props)
  | v => v
/-- Statement `value.forEach(item => fixNegativeValues(item))` (line 71). -/
def forEachItem : List Json → List Json
  | [] => []
  | item :: rest => fixNegativeValues item :: forEachItem rest
end

end JaegerUiFix

/-! ## `src/jaeger-otlp-fixer.js`: the two branches of the handler -/

namespace JaegerOtlpFixer

/-- The two branches of the listener. -/
inductive Branch where
  | sanitizing
  | passthrough
  deriving DecidableEq, Repr

/-- The test of line 55, `req.method === 'POST' && req.url.includes('/api/transform')`, as the
branch it selects. -/
def route (req : IncomingMessage) : Branch :=
  if req.method = "POST" ∧ includes req.url "/api/transform" = true then .sanitizing
  else .passthrough

/-- The branch of lines 56-124: the body is buffered, decompressed, parsed, sanitized and
forwarded. -/
def sanitizingBranch (rt : Runtime) (env : Env) (upstream : UpstreamRequest → UpstreamResult)
    (req : IncomingMessage) : Handled :=
  match decompress rt (contentEncoding req.headers) (concat req.chunks) with
  | none => { sent := [], response := none, threw := true }
  | some body =>
    match rt.parse (rt.bufferToString body) with
    | .error message =>
      { sent := [],
        response := some
          { statusCode := 400, headers := [],
            body := [("Error processing request: " ++ message).toUTF8] },
        threw := false }
    | .ok data =>
      let sanitizedBody := rt.stringify (sanitizeData data)
      let proxyReq : UpstreamRequest :=
        { hostname := jaegerHost env, port := jaegerPort rt env, path := req.url,
          method := req.method, headers := forwardedHeaders sanitizedBody req.headers,
          body := [sanitizedBody.toUTF8] }
      { sent := [proxyReq], response := some (relay (upstream proxyReq)), threw := false }

/-- The branch of lines 126-146: the request is piped to the upstream target as it is. -/
def passthroughBranch (rt : Runtime) (env : Env) (upstream : UpstreamRequest → UpstreamResult)
    (req : IncomingMessage) : Handled :=
  let proxyReq : UpstreamRequest :=
    { hostname := jaegerHost env, port := jaegerPort rt env, path := req.url,
      method := req.method,
      headers := req.headers.map (fun header => (header.1, HeaderValue.text header.2)),
      body := req.chunks }
  { sent := [proxyReq], response := some (relay (upstream proxyReq)), threw := false }

end JaegerOtlpFixer

/-! ## Documents without a negative counter -/

namespace FixOtlpTraces

mutual
/-- Whether a document holds, at any depth, a property with a configured name whose value is a
negative number. -/
def hasNegativeField : Json → Bool
  | .arr items => anyItemNegative items
  | .obj props => anyPropNegative props
  | _ => false
/-- Whether some item of an array holds such a property. -/
def anyItemNegative : List Json → Bool
  | [] => false
  | item :: rest => hasNegativeField item || anyItemNegative rest
/-- Whether some property of an object is such a property or holds one. -/
def anyPropNegative : List (String × Json) → Bool
  | [] => false
  | (key, value) :: rest =>
    (arrayIncludes UNSIGNED_INT_FIELDS key && value.isNegativeNumber)
      || hasNegativeField value || anyPropNegative rest
end

end FixOtlpTraces

/-! ## More inputs for the scenarios -/

namespace Scenario

/-- A `POST` to the transform endpoint that announces gzip but whose body is plain text. -/
def corruptRequest : JaegerOtlpFixer.IncomingMessage where
  method := "POST"
  url := "/api/transform"
  headers := [("host", "localhost:8080"), ("content-type", "application/json"),
    ("content-encoding", "gzip"), ("content-length", "49")]
  chunks := [inputText.toUTF8]

/-- An upstream target that cannot be reached: every request to it emits `error`. -/
def unreachable : JaegerOtlpFixer.UpstreamRequest → JaegerOtlpFixer.UpstreamResult :=
  fun _ => .error

/-- An upstream target that answers every request with status `404` and a header. -/
def notFound : JaegerOtlpFixer.UpstreamRequest → JaegerOtlpFixer.UpstreamResult :=
  fun _ => .response 404 [("content-type", .text "text/plain")] ["Not Found".toUTF8]

/-- A request outside the route, as in Scenario E, with a body that is not JSON. -/
def otherRequest : JaegerOtlpFixer.IncomingMessage where
  method := "PUT"
  url := "/api/traces/1"
  headers := [("host", "localhost:8080"), ("content-type", "text/plain"),
    ("content-length", "21")]
  chunks := [brokenText.toUTF8]

/-- The stand-in runtime, reading also the bytes of `outputText`. -/
def cleanRuntime : Runtime where
  parse := runtime.parse
  stringify := runtime.stringify
  stringifyIndent := runtime.stringifyIndent
  gunzipSync := runtime.gunzipSync
  inflateSync := runtime.inflateSync
  bufferToString buffer :=
    if buffer.data = outputText.toUTF8.data then outputText else runtime.bufferToString buffer
  parseInt := runtime.parseInt

/-- A `POST` to the transform endpoint whose body, `outputText`, has no negative counter. -/
def cleanRequest : JaegerOtlpFixer.IncomingMessage where
  method := "POST"
  url := "/api/transform"
  headers := [("host", "localhost:8080"), ("content-type", "application/json"),
    ("accept", "*/*"), ("content-length", "49")]
  chunks := [outputText.toUTF8]

/-- The first line of the line-delimited inputs. -/
def firstLine : String := "\x7b\"droppedLinksCount\":-1\x7d"

/-- The second line of the line-delimited inputs. -/
def secondLine : String := "\x7b\"droppedLinksCount\":2\x7d"

/-- The stand-in runtime, parsing also the two lines. -/
def linesRuntime : Runtime where
  parse text :=
    if text = firstLine then .ok (.obj [("droppedLinksCount", .num (-1))])
    else if text = secondLine then .ok (.obj [("droppedLinksCount", .num 2)])
    else runtime.parse text
  stringify := runtime.stringify
  stringifyIndent := runtime.stringifyIndent
  gunzipSync := runtime.gunzipSync
  inflateSync := runtime.inflateSync
  bufferToString := runtime.bufferToString
  parseInt := runtime.parseInt

/-- A file system with line-delimited files: `lines.jsonl` holds the two lines, each ended by
a line feed; `gap.jsonl` holds them with an empty line between; `bom.jsonl` holds them after a
byte order mark; `bad.jsonl` holds them with a truncated line between.  `locked.json` cannot be
written. -/
def linesFileSystem : FixOtlpTraces.FileSystem where
  readFileSync path :=
    if path = "lines.jsonl" then some (firstLine ++ "\n" ++ secondLine ++ "\n")
    else if path = "gap.jsonl" then some (firstLine ++ "\n\n" ++ secondLine)
    else if path = "bom.jsonl" then some ("\uFEFF" ++ firstLine ++ "\n" ++ secondLine)
    else if path = "bad.jsonl" then some (firstLine ++ "\n" ++ brokenText ++ "\n" ++ secondLine)
    else none
  writable path := decide (path ≠ "locked.json")

end Scenario

/-! ## The shape of a sanitized document -/

namespace FixOtlpTraces

mutual
/-- Whether `after` is `before` with nothing changed but negative numbers stored directly under a
configured name, each replaced by `0`: the same kind of value at every position, the same
property names in the same order, the same array lengths and element order. -/
def onlyCountersRepaired : Json → Json → Bool
  | .null, .null => true
  | .bool b, .bool c => decide (b = c)
  | .num n, .num m => decide (n = m)
  | .str s, .str t => decide (s = t)
  | .arr items, .arr others => itemsRepaired items others
  | .obj props, .obj others => propsRepaired props others
  | _, _ => false
/-- The items of two arrays correspond one to one, in order. -/
def itemsRepaired : List Json → List Json → Bool
  | [], [] => true
  | item :: rest, other :: others => onlyCountersRepaired item other && itemsRepaired rest others
  | _, _ => false
/-- The properties of two objects correspond one to one, in order, with the same names; a value
is the old value repaired inside, or `0` for a negative number under a configured name. -/
def propsRepaired : List (String × Json) → List (String × Json) → Bool
  | [], [] => true
  | (key, value) :: rest, (name, other) :: others =>
    decide (key = name) &&
      (onlyCountersRepaired value other ||
        (arrayIncludes UNSIGNED_INT_FIELDS key && value.isNegativeNumber
          && decide (other = Json.num 0))) &&
      propsRepaired rest others
  | _, _ => false
end

end FixOtlpTraces

/-! ## The diagnostics of `sanitizeValue` -/

namespace FixOtlpTraces

/-- A line of `console.log` (line 31): the key and the value that is about to be replaced. -/
abbrev Record := String × ℚ

/-- The first `if` of the loop body (lines 30-33) as far as the console goes: one line when the
field is rewritten, none otherwise. -/
def logOfField (key : String) (value : Json) : List Record :=
  match value with
  | .num n => if arrayIncludes UNSIGNED_INT_FIELDS key && decide (n < 0) then [(key, n)] else []
  | _ => []

mutual
/-- The lines `sanitizeValue(obj)` writes with `console.log`, in the order written. -/
def consoleOfSanitizeValue : Json → List Record
  | .arr items => consoleOverIndices items
  | .obj props => consoleOverKeys props
  | _ => []
/-- The lines written by the loop over the indices of an array. -/
def consoleOverIndices : List Json → List Record
  | [] => []
  | value :: rest => consoleOfDescend value ++ consoleOverIndices rest
/-- The lines written by the loop over the properties of an object: for each property the line
of the first `if`, then the lines of the second `if`. -/
def consoleOverKeys : List (String × Json) → List Record
  | [] => []
  | (key, value) :: rest =>
    logOfField key value ++ consoleOfDescend value ++ consoleOverKeys rest
/-- The lines written by the second `if` of the loop body (lines 36-42). -/
def consoleOfDescend : Json → List Record
  | .arr items => consoleOfForEach items
  | .obj props => consoleOverKeys props
  | _ => []
/-- The lines written by `value.forEach(item => sanitizeValue(item))` (line 38). -/
def consoleOfForEach : List Json → List Record
  | [] => []
  | item :: rest => consoleOfSanitizeValue item ++ consoleOfForEach rest
end

mutual
/-- The number of properties of a document, at any depth, that have a configured name and hold a
negative number. -/
def countNegativeFields : Json → Nat
  | .arr items => countInItems items
  | .obj props => countInProps props
  | _ => 0
/-- The number of such properties in the items of an array. -/
def countInItems : List Json → Nat
  | [] => 0
  | item :: rest => countNegativeFields item + countInItems rest
/-- The number of such properties among and below the properties of an object. -/
def countInProps : List (String × Json) → Nat
  | [] => 0
  | (key, value) :: rest =>
    (if arrayIncludes UNSIGNED_INT_FIELDS key && value.isNegativeNumber then 1 else 0)
      + countNegativeFields value + countInProps rest
end

end FixOtlpTraces

namespace JaegerOtlpFixer

/-- The first `if` of the callback of `sanitizeObject` (lines 33-36) as far as the console
goes. -/
def logOfField (key : String) (value : Json) : List FixOtlpTraces.Record :=
  match value with
  | .num n => if arrayIncludes UNSIGNED_INT_FIELDS key && decide (n < 0) then [(key, n)] else []
  | _ => []

mutual
/-- The lines `sanitizeObject(obj)` writes with `console.log`, in the order written. -/
def consoleOfSanitizeObject : Json → List FixOtlpTraces.Record
  | .arr items => consoleOverIndices items
  | .obj props => consoleOverKeys props
  | _ => []
/-- The lines written by `Object.keys(obj).forEach` over the indices of an array. -/
def consoleOverIndices : List Json → List FixOtlpTraces.Record
  | [] => []
  | value :: rest => consoleOfDescend value ++ consoleOverIndices rest
/-- The lines written by `Object.keys(obj).forEach` over the properties of an object. -/
def consoleOverKeys : List (String × Json) → List FixOtlpTraces.Record
  | [] => []
  | (key, value) :: rest =>
    logOfField key value ++ consoleOfDescend value ++ consoleOverKeys rest
/-- The lines written by the second `if` of the callback (lines 39-45). -/
def consoleOfDescend : Json → List FixOtlpTraces.Record
  | .arr items => consoleOfForEach items
  | .obj props => consoleOverKeys props
  | _ => []
/-- The lines written by `value.forEach(item => sanitizeObject(item))` (line 41). -/
def consoleOfForEach : List Json → List FixOtlpTraces.Record
  | [] => []
  | item :: rest => consoleOfSanitizeObject item ++ consoleOfForEach rest
end

end JaegerOtlpFixer

/-! ## The recursion of `sanitizeValue` -/

namespace FixOtlpTraces

mutual
/-- The number of values in a document: itself, its items or property values, and theirs. -/
def size : Json → Nat
  | .arr items => 1 + sizeOfItems items
  | .obj props => 1 + sizeOfProps props
  | _ => 1
/-- The number of values in the items of an array. -/
def sizeOfItems : List Json → Nat
  | [] => 0
  | item :: rest => size item + sizeOfItems rest
/-- The number of values in the property values of an object. -/
def sizeOfProps : List (String × Json) → Nat
  | [] => 0
  | (_, value) :: rest => size value + sizeOfProps rest
end

/-- The arguments of the calls of `sanitizeValue` made by the second `if` of the loop body
(lines 36-42) for one `value`: every item of an array, the object itself. -/
def callsFor : Json → List Json
  | .arr items => items
  | .obj props => [.obj props]
  | _ => []

/-- The arguments of the recursive calls made directly by `sanitizeValue(obj)`. -/
def directCalls : Json → List Json
  | .arr items => items.flatMap callsFor
  | .obj props => props.flatMap (fun entry => callsFor entry.2)
  | _ => []

/-- The second `if` of the loop body run with a bound on the depth of calls: `call` is
`sanitizeValue` with the depth that is left. -/
def descendWith (call : Json → Option Json) : Json → Option Json
  | .arr items => (items.mapM call).map Json.arr
  | .obj props => call (.obj props)
  | v => some v

/-- The body of the loop over the properties of an object, run with a bound on the depth of
calls. -/
def bodyWith (call : Json → Option Json) (entry : String × Json) : Option (String × Json) :=
  if arrayIncludes UNSIGNED_INT_FIELDS entry.1 && entry.2.isNegativeNumber then
    some (entry.1, Json.num 0)
  else (descendWith call entry.2).map (fun value => (entry.1, value))

/-- The function `sanitizeValue(obj)` run with a bound on the depth of its calls: `none` when a
call would go deeper than `fuel`. -/
def sanitizeValueFuel : Nat → Json → Option Json
  | 0, _ => none
  | fuel + 1, .arr items => (items.mapM (descendWith (sanitizeValueFuel fuel))).map Json.arr
  | fuel + 1, .obj props => (props.mapM (bodyWith (sanitizeValueFuel fuel))).map Json.obj
  | _ + 1, v => some v

end FixOtlpTraces

/-! ## `src/frontend/src/lib/cluster.ts` -/

namespace ClusterPaths

/-- Function `getClusterPrefixedPath(path)` (lines 10-16); `none` stands for a `null` or
`undefined` path. -/
def getClusterPrefixedPath (path : Option String) : String :=
  let baseClusterPath := "/c/:cluster"
  match path with
  | none => baseClusterPath
  | some path =>
    if path = "" then baseClusterPath
    else baseClusterPath ++ (if path.data.head? = some '/' then "" else "/") ++ path

end ClusterPaths

/-! ## `src/frontend/src/components/App/Home/RecentClusters.tsx` -/

namespace RecentClusters

/-- A cluster object as the component uses it: `ref` stands for the identity of the object,
which is what `Array.prototype.includes` compares, and `name` is its name. -/
structure Cluster where
  ref : Nat
  name : String
  deriving DecidableEq, Repr

/-- Constant `maxRecentClusters` (line 80). -/
def maxRecentClusters : Nat := 3

/-- The value of `recentClusters` after lines 83-104, for the names `getRecentClusters()`
returns and the `clusters` of the props. -/
def recentClusters (recentNames : List String) (clusters : List Cluster) : List Cluster :=
  let recentClusterNames := recentNames.take maxRecentClusters
  if clusters.length > maxRecentClusters then
    let found :=
      recentClusterNames.filterMap
        (fun name => clusters.find? (fun cluster => decide (cluster.name = name)))
    let neededClusters := maxRecentClusters - found.length
    if neededClusters > 0 then
      found ++ (clusters.filter (fun item => !found.contains item)).take neededClusters
    else found
  else clusters

end RecentClusters

/-! ## `src/headlamp-55-Kallal/frontend/src/components/pod/PodLogViewer.tsx` -/

namespace PodLogViewer

/-- The state `logs` of the component (lines 50-53). -/
structure LogState where
  logs : List String
  lastLineShown : Int
  deriving DecidableEq, Repr

/-- The terminal behind `xtermRef`, taken to be mounted: the number of times it was cleared and
the text written to it since it was last cleared. -/
structure Terminal where
  cleared : Nat
  written : String
  deriving DecidableEq, Repr

/-- The initial state, also set when the effect starts (lines 50-53 and 101-102). -/
def initialState : LogState := { logs := [], lastLineShown := -1 }

/-- Method `lines.join('')` of an array of strings. -/
def join : List String → String
  | [] => ""
  | line :: rest => line ++ join rest

/-- Method `text.replaceAll('\n', '\r\n')`. -/
def replaceAll (text : String) : String :=
  String.mk (text.data.flatMap (fun c => if c = '\n' then ['\r', '\n'] else [c]))

/-- Method `lines.slice(start)` of an array: a negative `start` counts from the end. -/
def slice (lines : List String) (start : Int) : List String :=
  if start < 0 then lines.drop (lines.length - start.natAbs) else lines.drop start.toNat

/-- The updater given to `setLogs` (lines 65-82): what it writes to the terminal and the state
it returns. -/
def updater (current : LogState) (terminal : Terminal) (logLines : List String) :
    LogState × Terminal :=
  ({ logs := logLines, lastLineShown := (logLines.length : Int) - 1 },
    if current.lastLineShown ≥ (logLines.length : Int) then
      { cleared := terminal.cleared + 1, written := replaceAll (join logLines) }
    else
      { cleared := terminal.cleared,
        written := terminal.written
          ++ replaceAll (join (slice logLines (current.lastLineShown + 1))) })

/-- The notice of lines 85-92, written when the logs are not followed and the rendered state
holds logs; `paused` is the translated sentence. -/
def pausedNotice (follow : Bool) (rendered : LogState) (paused : String) (terminal : Terminal) :
    Terminal :=
  if !follow && decide (rendered.logs.length > 0) then
    { cleared := terminal.cleared, written := terminal.written ++ ("\n\n" ++ paused ++ "\r\n") }
  else terminal

/-- Function `setLogsDebounced(logLines)` (lines 64-93) on the state and the terminal.  `follow`
and `rendered` are the `follow` and `logs` of the render the function belongs to; `eager` tells
whether React runs the updater before `setLogs` returns or after the function has returned. -/
def setLogsDebounced (follow : Bool) (rendered : LogState) (paused : String) (eager : Bool)
    (view : LogState × Terminal) (logLines : List String) : LogState × Terminal :=
  if eager then
    let updated := updater view.1 view.2 logLines
    (updated.1, pausedNotice follow rendered paused updated.2)
  else
    updater view.1 (pausedNotice follow rendered paused view.2) logLines

/-- The state and the terminal after a series of calls of `setLogsDebounced` made while the
logs are followed, each from a render that saw the state left by the call before. -/
def followRun (paused : String) (eager : Bool) :
    LogState × Terminal → List (List String) → LogState × Terminal
  | view, [] => view
  | view, logLines :: rest =>
    followRun paused eager (setLogsDebounced true view.1 paused eager view logLines) rest

/-- Each list of lines extends the one before it by appended lines or is strictly shorter than
it. -/
def Admissible : List String → List (List String) → Prop
  | _, [] => True
  | previous, logLines :: rest =>
    ((∃ appended : List String, logLines = previous ++ appended)
        ∨ logLines.length < previous.length)
      ∧ Admissible logLines rest

/-- The terminal shows the log lines: `lastLineShown` is the index of the last line and the text
written since the last clear is the lines joined, each line feed preceded by a carriage
return. -/
def Synced (view : LogState × Terminal) : Prop :=
  view.1.lastLineShown = (view.1.logs.length : Int) - 1
    ∧ view.2.written = replaceAll (join view.1.logs)

end PodLogViewer

/-! ## Values of JavaScript as the manifest scripts use them -/

/-- Whether a value is truthy, as `if (value)` and `!value` test it; `none` is `undefined`. -/
def truthy : Option Json → Bool
  | none => false
  | some .null => false
  | some (.bool b) => b
  | some (.num n) => n != 0
  | some (.str s) => s != ""
  | some (.arr _) => true
  | some (.obj _) => true

namespace Json

/-- The read `value.key` of a property that no prototype defines, on a value `JSON.parse`
returned: `none` when the read throws a `TypeError` (on `null`), `some none` when it gives
`undefined`. -/
def read : Json → String → Option (Option Json)
  | .null, _ => none
  | .obj props, key => some (prop props key)
  | _, _ => some none

/-- The assignment `obj[key] = value` on the properties of an object: an existing property
keeps its place, a new one goes last. -/
def setProp : List (String × Json) → String → Json → List (String × Json)
  | [], key, value => [(key, value)]
  | (k, v) :: rest, key, value =>
    if k = key then (k, value) :: rest else (k, v) :: setProp rest key value

/-- The assignment `target.key = value` as `JSON.stringify` sees it afterwards: it shows on an
object only. -/
def assign : Json → String → Json → Json
  | .obj props, key, value => .obj (setProp props key value)
  | other, _, _ => other

end Json

/-! ## `src/auto-fix-checksums.js`: the generated `generate-checksum.js` -/

namespace GenerateChecksum

/-- The test `plugin.name === pluginName && plugin.version === pluginVersion` (line 354) for
the strings `main` passes; `none` when reading a property throws. -/
def isMatch (pluginName pluginVersion : String) (plugin : Json) : Option Bool :=
  match plugin.read "name" with
  | none => none
  | some name =>
    if name = some (Json.str pluginName) then
      match plugin.read "version" with
      | none => none
      | some version => some (decide (version = some (Json.str pluginVersion)))
    else some false

/-- The loop over `manifest.plugins` (lines 352-359): the entries after it and `updated`;
`none` when it throws. -/
def updateLoop (pluginName pluginVersion checksum : String) :
    List Json → Option (List Json × Bool)
  | [] => some ([], false)
  | plugin :: rest =>
    match isMatch pluginName pluginVersion plugin with
    | none => none
    | some true => some (plugin.assign "checksum" (Json.str checksum) :: rest, true)
    | some false =>
      match updateLoop pluginName pluginVersion checksum rest with
      | none => none
      | some (entries, updated) => some (plugin :: entries, updated)

/-- Function `updateManifestFile(manifestPath, pluginName, pluginVersion, checksum)`
(lines 341-375): the value it returns and the text it writes to `manifestPath`, if it writes. -/
def updateManifestFile (rt : Runtime) (fs : FixOtlpTraces.FileSystem)
    (manifestPath pluginName pluginVersion checksum : String) : Bool × Option String :=
  match fs.readFileSync manifestPath with
  | none => (false, none)
  | some text =>
    match rt.parse text with
    | .error _ => (false, none)
    | .ok manifest =>
      match manifest.read "plugins" with
      | none => (false, none)
      | some none => (false, none)
      | some (some plugins) =>
        if !truthy (some plugins) || !plugins.isArray then (false, none)
        else
          match plugins with
          | .arr entries =>
            match updateLoop pluginName pluginVersion checksum entries with
            | none => (false, none)
            | some (updatedEntries, updated) =>
              if !updated then (false, none)
              else if fs.writable manifestPath then
                (true, some (rt.stringifyIndent (manifest.assign "plugins" (.arr updatedEntries))))
              else (false, none)
          | _ => (false, none)

end GenerateChecksum

namespace Scenario

/-- A manifest text with two plugins, neither with a checksum. -/
def manifestText : String :=
  "\x7b\"plugins\":[\x7b\"name\":\"a\",\"version\":\"1\",\"url\":\"https://x/a\"\x7d,"
    ++ "\x7b\"name\":\"b\",\"version\":\"2\",\"url\":\"https://x/b\"\x7d]\x7d"

/-- The two entries of `manifestText`. -/
def pluginA : Json :=
  .obj [("name", .str "a"), ("version", .str "1"), ("url", .str "https://x/a")]

/-- The second entry of `manifestText`. -/
def pluginB : Json :=
  .obj [("name", .str "b"), ("version", .str "2"), ("url", .str "https://x/b")]

/-- The manifest `manifestText` denotes. -/
def manifestDocument : Json := .obj [("plugins", .arr [pluginA, pluginB])]

/-- A manifest text whose first entry is `null`. -/
def nullEntryText : String :=
  "\x7b\"plugins\":[null,\x7b\"name\":\"b\",\"version\":\"2\",\"url\":\"https://x/b\"\x7d]\x7d"

/-- The manifest `nullEntryText` denotes. -/
def nullEntryDocument : Json := .obj [("plugins", .arr [.null, pluginB])]

/-- A stand-in for the indented text of a manifest: the names and checksums of its entries. -/
def manifestSummary : Json → String
  | .obj [("plugins", .arr entries)] =>
    String.intercalate ","
      (entries.map fun entry =>
        match entry.read "name", entry.read "checksum" with
        | some (some (.str name)), some (some (.str checksum)) => name ++ "=" ++ checksum
        | some (some (.str name)), _ => name
        | _, _ => "?")
  | _ => "null"

/-- The stand-in runtime for the manifest scripts. -/
def manifestRuntime : Runtime where
  parse text :=
    if text = manifestText then .ok manifestDocument
    else if text = nullEntryText then .ok nullEntryDocument
    else .error "Unexpected end of JSON input"
  stringify := manifestSummary
  stringifyIndent := manifestSummary
  gunzipSync _ := none
  inflateSync _ := none
  bufferToString _ := ""
  parseInt text := text.toInt?

/-- A file system holding `manifestText` at `manifest.json` and `nullEntryText` at
`broken.json`, any path being writable. -/
def manifestFileSystem : FixOtlpTraces.FileSystem where
  readFileSync path :=
    if path = "manifest.json" then some manifestText
    else if path = "broken.json" then some nullEntryText
    else none
  writable _ := true

end Scenario

/-! ## `src/manifest-updater.js` -/

namespace ManifestUpdater

/-- A response to `protocol.get(url, _)`: its status, its `location` header and its body. -/
structure Response where
  statusCode : Nat
  location : Option String
  body : List UInt8

/-- What the script meets outside itself. -/
structure Host where
  /-- Function `fs.existsSync(path)`. -/
  existsSync : String → Bool
  /-- Function `fs.readFileSync(path, 'utf8')`; `none` when it throws. -/
  readFileSync : String → Option String
  /-- Whether `fs.writeFileSync(path, _)` succeeds. -/
  writable : String → Bool
  /-- The response to a request for an address; `none` when the request emits `error`. -/
  get : String → Option Response
  /-- The hexadecimal SHA-256 digest `calculateChecksum` resolves with for a file of these bytes;
  `none` when reading the file fails. -/
  digest : List UInt8 → Option String

/-- Function `downloadFile(url, filePath)` (lines 20-56): `some (some bytes)` when the promise
resolves, the file then holding `bytes`; `some none` when it rejects; `none` when `fuel`
redirects did not end the download. -/
def downloadFile (host : Host) : Nat → Option Json → Option (Option (List UInt8))
  | 0, _ => none
  | fuel + 1, url =>
    match url with
    | some (.str address) =>
      match host.get address with
      | none => some none
      | some response =>
        if response.statusCode = 301 ∨ response.statusCode = 302 then
          downloadFile host fuel (response.location.map Json.str)
        else if response.statusCode ≠ 200 then some none
        else some (some response.body)
    | _ => some none

/-- The body of the loop over `manifest.plugins` (lines 96-131) for one entry: the entry after
it; `some none` when it throws, `none` when the download does not end. -/
def processPlugin (host : Host) (fuel : Nat) (plugin : Json) : Option (Option Json) :=
  match plugin.read "name", plugin.read "version", plugin.read "url",
    plugin.read "checksum" with
  | some name, some version, some url, some checksum =>
    if !truthy name || !truthy version || !truthy url then some (some plugin)
    else if truthy checksum then some (some plugin)
    else
      match downloadFile host fuel url with
      | none => none
      | some none => some (some plugin)
      | some (some bytes) =>
        match host.digest bytes with
        | none => some (some plugin)
        | some checksum => some (some (plugin.assign "checksum" (Json.str checksum)))
  | _, _, _, _ => some none

/-- The loop over `manifest.plugins` (lines 95-132): the entries after it. -/
def processPlugins (host : Host) (fuel : Nat) : List Json → Option (Option (List Json))
  | [] => some (some [])
  | plugin :: rest =>
    match processPlugin host fuel plugin with
    | none => none
    | some none => some none
    | some (some updated) =>
      match processPlugins host fuel rest with
      | none => none
      | some none => some none
      | some (some others) => some (some (updated :: others))

/-- Function `updateManifest(manifestPath)` (lines 70-141): the value it resolves with and the
text it writes to `manifestPath`, if it writes; `none` when a download does not end within
`fuel` redirects. -/
def updateManifest (rt : Runtime) (host : Host) (fuel : Nat) (manifestPath : String) :
    Option (Bool × Option String) :=
  if !host.existsSync manifestPath then some (false, none)
  else
    match host.readFileSync manifestPath with
    | none => some (false, none)
    | some text =>
      match rt.parse text with
      | .error _ => some (false, none)
      | .ok manifest =>
        match manifest.read "plugins" with
        | none => some (false, none)
        | some none => some (false, none)
        | some (some plugins) =>
          if !truthy (some plugins) || !plugins.isArray then some (false, none)
          else
            match plugins with
            | .arr entries =>
              match processPlugins host fuel entries with
              | none => none
              | some none => some (false, none)
              | some (some updatedEntries) =>
                if host.writable manifestPath then
                  some (true,
                    some (rt.stringifyIndent (manifest.assign "plugins" (.arr updatedEntries))))
                else some (false, none)
            | _ => some (false, none)

/-- How an entry written back relates to the entry read: it is the same entry, or the entry
with `checksum` set to the digest of what was downloaded from its `url`; and it is the same
entry when the entry read has a truthy `checksum`, lacks a truthy `name`, `version` or `url`,
or when its download or the hashing fails. -/
def Frame (host : Host) (fuel : Nat) (plugin updated : Json) : Prop :=
  ∃ name version url checksum,
    plugin.read "name" = some name ∧ plugin.read "version" = some version
      ∧ plugin.read "url" = some url ∧ plugin.read "checksum" = some checksum
      ∧ (updated = plugin
        ∨ ∃ bytes digest, downloadFile host fuel url = some (some bytes)
            ∧ host.digest bytes = some digest
            ∧ updated = plugin.assign "checksum" (Json.str digest))
      ∧ (truthy checksum = true → updated = plugin)
      ∧ (truthy name = false ∨ truthy version = false ∨ truthy url = false → updated = plugin)
      ∧ (downloadFile host fuel url = some none → updated = plugin)
      ∧ (∀ bytes, downloadFile host fuel url = some (some bytes) → host.digest bytes = none →
          updated = plugin)
      ∧ ∀ key, key ≠ "checksum" → updated.read key = plugin.read key

end ManifestUpdater

namespace Scenario

/-- A host with `manifestText` at `manifest.json` and `nullEntryText` at `broken.json`, where
the address of the first plugin answers with three bytes and that of the second cannot be
reached. -/
def manifestHost : ManifestUpdater.Host where
  existsSync path := path = "manifest.json" ∨ path = "broken.json"
  readFileSync := manifestFileSystem.readFileSync
  writable _ := true
  get address :=
    if address = "https://x/a" then some ⟨200, none, [1, 2, 3]⟩
    else if address = "https://x/moved" then some ⟨302, some "https://x/moved", []⟩
    else none
  digest bytes := some (String.mk (bytes.map fun byte => Char.ofNat (byte.toNat + 96)))

end Scenario

/-! ## `src/auto-fix-checksums.js`: the generated `setup-plugins.js` -/

namespace SetupPlugins

/-- What `https.get(url, _)` leads to. -/
inductive Fetched where
  /-- A response with its status and its body. -/
  | response (statusCode : Nat) (body : List UInt8)
  /-- The request emits `error`. -/
  | error
  /-- The call throws, the `url` not being one it accepts. -/
  | thrown

/-- The files of the plugins directory: the bytes of each file that exists. -/
abbrev Files := String → Option (List UInt8)

/-- The file system after `path` was written with `bytes`. -/
def writeFile (files : Files) (path : String) (bytes : List UInt8) : Files :=
  fun other => if other = path then some bytes else files other

/-- The file system after `fs.unlink(path)` or `fs.unlinkSync(path)`. -/
def unlink (files : Files) (path : String) : Files :=
  fun other => if other = path then none else files other

/-- What the script meets outside itself. -/
structure Host where
  /-- The constant `manifestPath`. -/
  manifestPath : String
  /-- The constant `pluginsDir`. -/
  pluginsDir : String
  /-- Function `path.join(directory, name)`. -/
  join : String → String → String
  /-- The text a template literal gives for a value. -/
  text : Option Json → String
  /-- Function `fs.existsSync(path)`. -/
  existsSync : String → Bool
  /-- Function `fs.readFileSync(path, 'utf8')`; `none` when it throws. -/
  readFileSync : String → Option String
  /-- What a request for `url` leads to. -/
  get : Option Json → Fetched
  /-- The hexadecimal SHA-256 digest `calculateChecksum` resolves with for a file of these bytes;
  `none` when reading the file fails. -/
  digest : List UInt8 → Option String

/-- Function `downloadFile(url, filePath)` of the generated script: whether the promise
resolves, and the files afterwards. -/
def downloadFile (host : Host) (url : Option Json) (filePath : String) (files : Files) :
    Bool × Files :=
  let created := writeFile files filePath []
  match host.get url with
  | .thrown => (false, created)
  | .error => (false, unlink created filePath)
  | .response statusCode body =>
    if statusCode ≠ 200 then (false, created)
    else (true, writeFile created filePath body)

/-- Function `calculateChecksum(filePath)` of the generated script: the digest it resolves
with; `none` when it rejects. -/
def calculateChecksum (host : Host) (filePath : String) (files : Files) : Option String :=
  match files filePath with
  | none => none
  | some bytes => host.digest bytes

/-- The constant `outputFile` of `downloadAndVerifyPlugin` (line 200). -/
def outputFile (host : Host) (name version : Option Json) : String :=
  host.join host.pluginsDir (host.text name ++ "-" ++ host.text version ++ ".tgz")

/-- Function `downloadAndVerifyPlugin(name, version, url, expectedChecksum)` (lines 199-233):
the value it resolves with and the files afterwards. -/
def downloadAndVerifyPlugin (host : Host) (name version url expectedChecksum : Option Json)
    (files : Files) : Bool × Files :=
  let downloaded := downloadFile host url (outputFile host name version) files
  if !downloaded.1 then (false, downloaded.2)
  else if truthy expectedChecksum then
    match calculateChecksum host (outputFile host name version) downloaded.2 with
    | none => (false, downloaded.2)
    | some calculatedChecksum =>
      if some (Json.str calculatedChecksum) ≠ expectedChecksum then
        (false, unlink downloaded.2 (outputFile host name version))
      else (true, downloaded.2)
  else (true, downloaded.2)

/-- The calls `manifest.plugins.map(plugin => downloadAndVerifyPlugin(_))` of `main`
(lines 253-257), taken one after the other: the values they resolve with and the files
afterwards; `none` when reading the properties of an entry throws. -/
def downloadAll (host : Host) : List Json → Files → Option (List Bool × Files)
  | [], files => some ([], files)
  | plugin :: rest, files =>
    match plugin.read "name", plugin.read "version", plugin.read "url",
      plugin.read "checksum" with
    | some name, some version, some url, some checksum =>
      let first := downloadAndVerifyPlugin host name version url checksum files
      match downloadAll host rest first.2 with
      | none => none
      | some (results, after) => some (first.1 :: results, after)
    | _, _, _, _ => none

/-- Function `main()` of the generated script (lines 235-270): the status with which the
process ends, `1` where `process.exit(1)` is called and `0` otherwise. -/
def main (rt : Runtime) (host : Host) (files : Files) : Nat :=
  if !host.existsSync host.manifestPath then 1
  else
    match host.readFileSync host.manifestPath with
    | none => 1
    | some text =>
      match rt.parse text with
      | .error _ => 1
      | .ok manifest =>
        match manifest.read "plugins" with
        | none => 1
        | some none => 1
        | some (some plugins) =>
          if !truthy (some plugins) || !plugins.isArray then 1
          else
            match plugins with
            | .arr entries =>
              match downloadAll host entries files with
              | none => 1
              | some (results, _) => if results.all (fun result => result) then 0 else 1
            | _ => 1

end SetupPlugins

namespace Scenario

/-- The first plugin with the digest of what its address serves. -/
def verifiedPlugin : Json :=
  .obj [("name", .str "a"), ("version", .str "1"), ("url", .str "https://x/a"),
    ("checksum", .str "abc")]

/-- The first plugin with another checksum. -/
def tamperedPlugin : Json :=
  .obj [("name", .str "a"), ("version", .str "1"), ("url", .str "https://x/a"),
    ("checksum", .str "abd")]

/-- A manifest text with the verified plugin. -/
def verifiedText : String :=
  "\x7b\"plugins\":[\x7b\"name\":\"a\",\"version\":\"1\",\"url\":\"https://x/a\","
    ++ "\"checksum\":\"abc\"\x7d]\x7d"

/-- A manifest text with the verified plugin and the tampered one. -/
def tamperedText : String :=
  "\x7b\"plugins\":[\x7b\"name\":\"a\",\"version\":\"1\",\"url\":\"https://x/a\","
    ++ "\"checksum\":\"abc\"\x7d,\x7b\"name\":\"a\",\"version\":\"1\","
    ++ "\"url\":\"https://x/a\",\"checksum\":\"abd\"\x7d]\x7d"

/-- The stand-in runtime for the generated `setup-plugins.js`. -/
def pluginRuntime : Runtime where
  parse text :=
    if text = verifiedText then .ok (.obj [("plugins", .arr [verifiedPlugin])])
    else if text = tamperedText then .ok (.obj [("plugins", .arr [verifiedPlugin, tamperedPlugin])])
    else manifestRuntime.parse text
  stringify := manifestRuntime.stringify
  stringifyIndent := manifestRuntime.stringifyIndent
  gunzipSync _ := none
  inflateSync _ := none
  bufferToString _ := ""
  parseInt text := text.toInt?

/-- A host whose manifest is the given text, where the address of the first plugin serves three
bytes and every other request fails. -/
def pluginHost (manifest : String) : SetupPlugins.Host where
  manifestPath := "app-build-manifest.json"
  pluginsDir := "plugins"
  join directory name := directory ++ "/" ++ name
  text value :=
    match value with
    | some (.str s) => s
    | _ => "undefined"
  existsSync path := path = "app-build-manifest.json"
  readFileSync path := if path = "app-build-manifest.json" then some manifest else none
  get url := if url = some (.str "https://x/a") then .response 200 [1, 2, 3] else .error
  digest := manifestHost.digest

/-- A plugins directory without files. -/
def noFiles : SetupPlugins.Files := fun _ => none

end Scenario

/-! ## The report of the specification -/

namespace FixOtlpTraces

mutual
/-- The list of (key, original value) pairs changed, in the words of the specification: the
properties holding a number at which the document after a traversal differs from the document
before it, each with its key and the number it held before, depth first, a property before what
lies below it and before the properties and items that follow. -/
def changedFields : Json → Json → List Record
  | .arr items, .arr others => changedInItems items others
  | .obj props, .obj others => changedInProps props others
  | _, _ => []
/-- The pairs changed in the items of an array. -/
def changedInItems : List Json → List Json → List Record
  | item :: rest, other :: others => changedFields item other ++ changedInItems rest others
  | _, _ => []
/-- The pairs changed among and below the properties of an object. -/
def changedInProps : List (String × Json) → List (String × Json) → List Record
  | (key, value) :: rest, (_, other) :: others =>
    (match value with
      | .num n => if other = Json.num n then [] else [(key, n)]
      | _ => [])
      ++ changedFields value other ++ changedInProps rest others
  | _, _ => []
end

end FixOtlpTraces

/-! ## The route in the words of the specification -/

namespace JaegerOtlpFixer

/-- The path of a request target: what stands before the query string, which a `?` starts. -/
def pathOf (url : String) : List Char :=
  url.data.takeWhile (fun c => c ≠ '?')

/-- The segments of a path: the pieces between its slashes. -/
def segmentsOf : List Char → List (List Char)
  | [] => [[]]
  | c :: cs =>
    if c = '/' then [] :: segmentsOf cs
    else
      match segmentsOf cs with
      | [] => [[c]]
      | piece :: pieces => (c :: piece) :: pieces

/-- The route predicate in the words of the specification: the method is `POST` and the path
contains the segment `/api/transform`, that is, the segments `api` and `transform` follow one
another among the segments of the path. -/
def routeOfSpecification (req : IncomingMessage) : Bool :=
  decide (req.method = "POST")
    && (segmentsOf (pathOf req.url)).tails.any
        (fun rest => ["api".data, "transform".data].isPrefixOf rest)

end JaegerOtlpFixer

/-! ## A document with a number beyond the range of a double -/

namespace Scenario

/-- A JSON text whose number, ten to the power 999, is beyond the range of a double. -/
def overflowText : String := "\x7b\"n\":1e999\x7d"

/-- The document `overflowText` denotes.  `JSON.parse` reads the number as `Infinity`, which is
not negative; in the document it stands as written. -/
def overflowDocument : Json := .obj [("n", .num (((10 ^ 111) ^ 9 : ℕ) : ℚ))]

/-- The text `JSON.stringify` gives for `overflowDocument`: it writes `Infinity` as `null`. -/
def nullText : String := "\x7b\"n\":null\x7d"

/-- The text `JSON.stringify(_, null, 2)` gives for `overflowDocument`. -/
def nullTextIndent : String := "\x7b\n  \"n\": null\n\x7d"

/-- The document `nullText` and `nullTextIndent` denote. -/
def nullDocument : Json := .obj [("n", .null)]

/-- The stand-in runtime on these texts. -/
def overflowRuntime : Runtime where
  parse text :=
    if text = overflowText then .ok overflowDocument
    else if text = nullText ∨ text = nullTextIndent then .ok nullDocument
    else .error "Unexpected end of JSON input"
  stringify value := if value = overflowDocument then nullText else "null"
  stringifyIndent value := if value = overflowDocument then nullTextIndent else "null"
  gunzipSync _ := none
  inflateSync _ := none
  bufferToString buffer := if buffer.data = overflowText.toUTF8.data then overflowText else ""
  parseInt text := text.toInt?

/-- A file system holding `overflowText` at `big.json`, any path being writable. -/
def overflowFileSystem : FixOtlpTraces.FileSystem where
  readFileSync path := if path = "big.json" then some overflowText else none
  writable _ := true

/-- A `POST` to the transform endpoint whose body is `overflowText`. -/
def overflowRequest : JaegerOtlpFixer.IncomingMessage where
  method := "POST"
  url := "/api/transform"
  headers := [("host", "localhost:8080"), ("content-type", "application/json"),
    ("content-length", "11")]
  chunks := [overflowText.toUTF8]

end Scenario

/-! ## Derived descriptions of the sanitizers -/

namespace FixOtlpTraces

/-- The value `obj[key]` holds after the body of the loop of `sanitizeValue` has run for a
property `key` that held `value`. -/
def afterBody (key : String) (value : Json) : Json :=
  if arrayIncludes UNSIGNED_INT_FIELDS key && value.isNegativeNumber then Json.num 0
  else sanitizeValue value

/-- The value a position holds after `sanitizeValue`, by the last step that leads to it. -/
def afterStep : Step → Json → Json
  | .key k => afterBody k
  | .index _ => sanitizeValue

end FixOtlpTraces

/-! # Theorems -/

namespace FixOtlpTraces

theorem forEachItem_eq_map : ∀ items : List Json, forEachItem items = items.map sanitizeValue
  | [] => rfl
  | item :: rest => by
    rw [forEachItem, forEachItem_eq_map rest]; rfl

mutual
theorem descend_eq_sanitizeValue : ∀ v : Json, descend v = sanitizeValue v
  | .null => rfl
  | .bool _ => rfl
  | .num _ => rfl
  | .str _ => rfl
  | .obj _ => by rw [descend, sanitizeValue]
  | .arr items => by
    rw [descend, sanitizeValue, forEachItem_eq_map, overIndices_eq_map items]
theorem overIndices_eq_map : ∀ items : List Json, overIndices items = items.map sanitizeValue
  | [] => rfl
  | value :: rest => by
    rw [overIndices, descend_eq_sanitizeValue value, overIndices_eq_map rest]; rfl
end

theorem overKeys_eq_map : ∀ props : List (String × Json),
    overKeys props = props.map (fun kv => (kv.1, afterBody kv.1 kv.2))
  | [] => rfl
  | (key, value) :: rest => by
    rw [overKeys, overKeys_eq_map rest, descend_eq_sanitizeValue]; rfl

theorem sanitizeValue_arr (items : List Json) :
    sanitizeValue (.arr items) = .arr (items.map sanitizeValue) := by
  rw [sanitizeValue, overIndices_eq_map]

theorem sanitizeValue_obj (props : List (String × Json)) :
    sanitizeValue (.obj props) = .obj (props.map (fun kv => (kv.1, afterBody kv.1 kv.2))) := by
  rw [sanitizeValue, overKeys_eq_map]

end FixOtlpTraces

namespace JaegerOtlpFixer

theorem table_eq : UNSIGNED_INT_FIELDS = FixOtlpTraces.UNSIGNED_INT_FIELDS := rfl

mutual
theorem sanitizeObject_eq_sanitizeValue :
    ∀ v : Json, sanitizeObject v = FixOtlpTraces.sanitizeValue v
  | .null => rfl
  | .bool _ => rfl
  | .num _ => rfl
  | .str _ => rfl
  | .arr items => by
    rw [sanitizeObject, FixOtlpTraces.sanitizeValue, overIndices_agree items]
  | .obj props => by
    rw [sanitizeObject, FixOtlpTraces.sanitizeValue, overKeys_agree props]
theorem overIndices_agree :
    ∀ items : List Json, overIndices items = FixOtlpTraces.overIndices items
  | [] => rfl
  | value :: rest => by
    rw [overIndices, FixOtlpTraces.overIndices, descend_agree value, overIndices_agree rest]
theorem overKeys_agree :
    ∀ props : List (String × Json), overKeys props = FixOtlpTraces.overKeys props
  | [] => rfl
  | (key, value) :: rest => by
    rw [overKeys, FixOtlpTraces.overKeys, descend_agree value, overKeys_agree rest, table_eq]
theorem descend_agree : ∀ v : Json, descend v = FixOtlpTraces.descend v
  | .null => rfl
  | .bool _ => rfl
  | .num _ => rfl
  | .str _ => rfl
  | .arr items => by
    rw [descend, FixOtlpTraces.descend, forEachItem_agree items]
  | .obj props => by
    rw [descend, FixOtlpTraces.descend, overKeys_agree props]
theorem forEachItem_agree :
    ∀ items : List Json, forEachItem items = FixOtlpTraces.forEachItem items
  | [] => rfl
  | item :: rest => by
    rw [forEachItem, FixOtlpTraces.forEachItem, sanitizeObject_eq_sanitizeValue item,
      forEachItem_agree rest]
end

end JaegerOtlpFixer

namespace Json

theorem prop_map (f : String → Json → Json) (k : String) :
    ∀ props : List (String × Json),
      prop (props.map (fun kv => (kv.1, f kv.1 kv.2))) k = (prop props k).map (f k)
  | [] => rfl
  | (k', v) :: rest => by
    simp only [List.map_cons, prop]
    by_cases h : k' = k
    · simp [h]
    · simp [h, prop_map f k rest]

theorem getPath_scalar_append (v : Json) (hv : v.isScalar = true) (p : List Step) (s : Step) :
    getPath v (p ++ [s]) = none := by
  cases p <;> cases v <;> simp_all [getPath, child, isScalar]

theorem getPath_singleton (v : Json) (s : Step) : getPath v [s] = child v s := by
  simp only [getPath]
  cases child v s <;> rfl

end Json

namespace FixOtlpTraces

theorem child_sanitizeValue (v : Json) (s : Step) :
    (sanitizeValue v).child s = (v.child s).map (afterStep s) := by
  cases v with
  | arr items =>
    cases s with
    | key k => simp [sanitizeValue_arr, Json.child]
    | index i => simp [sanitizeValue_arr, Json.child, afterStep, List.getElem?_map]
  | obj props =>
    cases s with
    | key k => simp only [sanitizeValue_obj, Json.child, afterStep]; exact Json.prop_map afterBody k props
    | index i => simp [sanitizeValue_obj, Json.child]
  | _ => cases s <;> simp [sanitizeValue, Json.child]

theorem afterBody_cases (k : String) (w : Json) :
    (w.isScalar = true ∧ (afterBody k w).isScalar = true) ∨ afterBody k w = sanitizeValue w := by
  unfold afterBody
  split
  · rename_i h
    left
    cases w <;> simp_all [Json.isNegativeNumber, Json.isScalar]
  · right; rfl

theorem afterStep_cases (s : Step) (w : Json) :
    (w.isScalar = true ∧ (afterStep s w).isScalar = true) ∨ afterStep s w = sanitizeValue w := by
  cases s with
  | key k => exact afterBody_cases k w
  | index i => right; rfl

/-- The value at the end of a non-empty path after `sanitizeValue` is the value that was there
before, transformed according to the last step of the path. -/
theorem getPath_sanitizeValue (s : Step) :
    ∀ (p : List Step) (D : Json),
      (sanitizeValue D).getPath (p ++ [s]) = (D.getPath (p ++ [s])).map (afterStep s)
  | [], D => by
    simp only [List.nil_append, Json.getPath_singleton]
    exact child_sanitizeValue D s
  | t :: p, D => by
    simp only [List.cons_append, Json.getPath, child_sanitizeValue D t]
    cases hc : D.child t with
    | none => rfl
    | some w =>
      simp only [Option.map_some']
      rcases afterStep_cases t w with ⟨h1, h2⟩ | h
      · show (afterStep t w).getPath (p ++ [s]) = Option.map (afterStep s) (w.getPath (p ++ [s]))
        rw [Json.getPath_scalar_append _ h1, Json.getPath_scalar_append _ h2]; rfl
      · show (afterStep t w).getPath (p ++ [s]) = Option.map (afterStep s) (w.getPath (p ++ [s]))
        rw [h]; exact getPath_sanitizeValue s p w

end FixOtlpTraces

theorem arrayIncludes_iff_mem (table : List String) (key : String) :
    arrayIncludes table key = true ↔ key ∈ table := by
  unfold arrayIncludes
  rw [List.any_eq_true]
  constructor
  · rintro ⟨name, hmem, heq⟩
    have h : name = key := of_decide_eq_true heq
    exact h ▸ hmem
  · intro hmem
    exact ⟨key, hmem, decide_eq_true rfl⟩

namespace FixOtlpTraces

theorem afterBody_of_mem_num (k : String) (hk : k ∈ UNSIGNED_INT_FIELDS) (v : ℚ) :
    afterBody k (.num v) = .num (if v < 0 then 0 else v) := by
  have hin : arrayIncludes UNSIGNED_INT_FIELDS k = true := (arrayIncludes_iff_mem _ _).2 hk
  unfold afterBody
  by_cases hv : v < 0
  · simp [hin, hv, Json.isNegativeNumber]
  · simp [hin, hv, Json.isNegativeNumber, sanitizeValue]

theorem afterBody_of_not_number (k : String) (w : Json) (hw : w.isNumber = false) :
    afterBody k w = sanitizeValue w := by
  unfold afterBody
  cases w <;> simp_all [Json.isNegativeNumber, Json.isNumber]

theorem afterBody_of_not_mem (k : String) (hk : k ∉ UNSIGNED_INT_FIELDS) (w : Json) :
    afterBody k w = sanitizeValue w := by
  have hin : arrayIncludes UNSIGNED_INT_FIELDS k = false := by
    cases h : arrayIncludes UNSIGNED_INT_FIELDS k
    · rfl
    · exact absurd ((arrayIncludes_iff_mem _ _).1 h) hk
  unfold afterBody
  simp [hin]

theorem sanitizeValue_kind (w : Json) : (sanitizeValue w).kind = w.kind := by
  cases w <;> simp [sanitizeValue, Json.kind]

theorem sanitizeValue_of_scalar (w : Json) (hw : w.isScalar = true) : sanitizeValue w = w := by
  cases w <;> simp_all [sanitizeValue, Json.isScalar]

theorem afterBody_num_zero (k : String) : afterBody k (.num 0) = .num 0 := by
  unfold afterBody
  simp [Json.isNegativeNumber, sanitizeValue]

theorem isNegativeNumber_sanitizeValue (w : Json) :
    (sanitizeValue w).isNegativeNumber = w.isNegativeNumber := by
  cases w <;> simp [sanitizeValue, Json.isNegativeNumber]

mutual
theorem sanitizeValue_twice : ∀ v : Json, sanitizeValue (sanitizeValue v) = sanitizeValue v
  | .null => rfl
  | .bool _ => rfl
  | .num _ => rfl
  | .str _ => rfl
  | .arr items => by
    rw [sanitizeValue_arr, sanitizeValue_arr, map_sanitizeValue_twice items]
  | .obj props => by
    rw [sanitizeValue_obj, sanitizeValue_obj, map_afterBody_twice props]
theorem map_sanitizeValue_twice :
    ∀ items : List Json, (items.map sanitizeValue).map sanitizeValue = items.map sanitizeValue
  | [] => rfl
  | item :: rest => by
    simp only [List.map_cons]
    rw [sanitizeValue_twice item, map_sanitizeValue_twice rest]
theorem map_afterBody_twice :
    ∀ props : List (String × Json),
      (props.map (fun kv => (kv.1, afterBody kv.1 kv.2))).map
          (fun kv => (kv.1, afterBody kv.1 kv.2)) =
        props.map (fun kv => (kv.1, afterBody kv.1 kv.2))
  | [] => rfl
  | (key, value) :: rest => by
    simp only [List.map_cons]
    rw [map_afterBody_twice rest]
    have h : afterBody key (afterBody key value) = afterBody key value := by
      by_cases hc : (arrayIncludes UNSIGNED_INT_FIELDS key && value.isNegativeNumber) = true
      · have h1 : afterBody key value = .num 0 := by unfold afterBody; rw [if_pos hc]
        rw [h1, afterBody_num_zero]
      · have h1 : afterBody key value = sanitizeValue value := by
          unfold afterBody; rw [if_neg hc]
        have h2 : ¬ (arrayIncludes UNSIGNED_INT_FIELDS key &&
            (sanitizeValue value).isNegativeNumber) = true := by
          rw [isNegativeNumber_sanitizeValue]; exact hc
        rw [h1]
        unfold afterBody
        rw [if_neg h2, sanitizeValue_twice value]
    rw [h]
end

end FixOtlpTraces

/-! ## The sanitizers on a document -/

/-- C1: after `sanitizeValue(D)`, and equally after `sanitizeObject(D)`, every occurrence, at any
depth below objects and arrays, of a configured field name that held a number `v` holds `0` when
`v < 0` and holds `v` itself when `v ≥ 0`. -/
theorem sanitize_clamps_tracked_numbers (D : Json) (p : List Step) (k : String) (v : ℚ)
    (hk : k ∈ FixOtlpTraces.UNSIGNED_INT_FIELDS)
    (hv : D.getPath (p ++ [.key k]) = some (.num v)) :
    (FixOtlpTraces.sanitizeValue D).getPath (p ++ [.key k])
        = some (.num (if v < 0 then 0 else v)) ∧
      (JaegerOtlpFixer.sanitizeObject D).getPath (p ++ [.key k])
        = some (.num (if v < 0 then 0 else v)) := by
  have h : (FixOtlpTraces.sanitizeValue D).getPath (p ++ [.key k])
      = some (.num (if v < 0 then 0 else v)) := by
    rw [FixOtlpTraces.getPath_sanitizeValue, hv]
    simp only [Option.map_some', FixOtlpTraces.afterStep]
    rw [FixOtlpTraces.afterBody_of_mem_num k hk v]
  exact ⟨h, by rw [JaegerOtlpFixer.sanitizeObject_eq_sanitizeValue]; exact h⟩

/-- Witness of C1: a span two arrays deep whose `droppedAttributesCount` is `-3`. -/
theorem sanitize_clamps_tracked_numbers_witness :
    (FixOtlpTraces.sanitizeValue
        (.obj [("spans", .arr [.arr [.obj [("droppedAttributesCount", .num (-3)),
          ("name", .str "span1")]]])])).getPath
        ([.key "spans", .index 0, .index 0] ++ [.key "droppedAttributesCount"])
        = some (.num (if (-3 : ℚ) < 0 then 0 else -3)) ∧
      (JaegerOtlpFixer.sanitizeObject
        (.obj [("spans", .arr [.arr [.obj [("droppedAttributesCount", .num (-3)),
          ("name", .str "span1")]]])])).getPath
        ([.key "spans", .index 0, .index 0] ++ [.key "droppedAttributesCount"])
        = some (.num (if (-3 : ℚ) < 0 then 0 else -3)) :=
  sanitize_clamps_tracked_numbers _ [.key "spans", .index 0, .index 0] "droppedAttributesCount"
    (-3) (by decide) (by decide)

/-- Scenario A of the specification, for both sanitizers. -/
theorem scenario_A :
    FixOtlpTraces.sanitizeValue
        (.obj [("droppedAttributesCount", .num (-3)), ("name", .str "span1")])
      = .obj [("droppedAttributesCount", .num 0), ("name", .str "span1")] ∧
    JaegerOtlpFixer.sanitizeObject
        (.obj [("droppedAttributesCount", .num (-3)), ("name", .str "span1")])
      = .obj [("droppedAttributesCount", .num 0), ("name", .str "span1")] := by
  decide

/-- C2: sanitization is idempotent: running `sanitizeValue` on an already sanitized document
changes nothing. -/
theorem sanitizeValue_idempotent (D : Json) :
    FixOtlpTraces.sanitizeValue (FixOtlpTraces.sanitizeValue D) = FixOtlpTraces.sanitizeValue D :=
  FixOtlpTraces.sanitizeValue_twice D

/-- Counterexample to C3 as stated: in `{"span": {"droppedLinksCount": -1}}` the key `span` is
not a configured name, yet the value stored at it differs before and after `sanitizeValue`. -/
theorem untracked_composite_value_changes :
    "span" ∉ FixOtlpTraces.UNSIGNED_INT_FIELDS ∧
      (FixOtlpTraces.sanitizeValue
          (.obj [("span", .obj [("droppedLinksCount", .num (-1))])])).getPath ([] ++ [.key "span"])
        ≠ (Json.obj [("span", .obj [("droppedLinksCount", .num (-1))])]).getPath
            ([] ++ [.key "span"]) := by
  decide

/-- C3, amended: for a key `k`, at any depth, that is not a configured name, the value stored at
`k` after `sanitizeValue(D)` is the value stored there before with `sanitizeValue` applied to it;
it is identical to the value before when that value is a number, a string, a boolean or null. -/
theorem untracked_key_value_sanitized (D : Json) (p : List Step) (k : String) (w : Json)
    (hk : k ∉ FixOtlpTraces.UNSIGNED_INT_FIELDS)
    (hw : D.getPath (p ++ [.key k]) = some w) :
    (FixOtlpTraces.sanitizeValue D).getPath (p ++ [.key k])
        = some (FixOtlpTraces.sanitizeValue w) ∧
      (w.isScalar = true →
        (FixOtlpTraces.sanitizeValue D).getPath (p ++ [.key k]) = D.getPath (p ++ [.key k])) := by
  have h : (FixOtlpTraces.sanitizeValue D).getPath (p ++ [.key k])
      = some (FixOtlpTraces.sanitizeValue w) := by
    rw [FixOtlpTraces.getPath_sanitizeValue, hw]
    simp only [Option.map_some', FixOtlpTraces.afterStep]
    rw [FixOtlpTraces.afterBody_of_not_mem k hk w]
  refine ⟨h, fun hs => ?_⟩
  rw [h, hw, FixOtlpTraces.sanitizeValue_of_scalar w hs]

/-- Witness of C3 as amended: the `name` of a span inside an array. -/
theorem untracked_key_value_sanitized_witness :
    (FixOtlpTraces.sanitizeValue
        (.arr [.obj [("droppedLinksCount", .num (-1)), ("name", .str "span1")]])).getPath
        ([.index 0] ++ [.key "name"])
        = some (FixOtlpTraces.sanitizeValue (.str "span1")) ∧
      ((Json.str "span1").isScalar = true →
        (FixOtlpTraces.sanitizeValue
          (.arr [.obj [("droppedLinksCount", .num (-1)), ("name", .str "span1")]])).getPath
          ([.index 0] ++ [.key "name"])
        = (Json.arr [.obj [("droppedLinksCount", .num (-1)), ("name", .str "span1")]]).getPath
          ([.index 0] ++ [.key "name"])) :=
  untracked_key_value_sanitized _ [.index 0] "name" (.str "span1") (by decide) (by decide)

/-- C4: a configured field whose value is not a number is never rewritten by `sanitizeValue`:
the value at that key keeps its kind (it is the old value with `sanitizeValue` applied) and, when
it is a string, a boolean or null, it is exactly the old value. -/
theorem tracked_non_number_not_rewritten (D : Json) (p : List Step) (k : String) (w : Json)
    (_hk : k ∈ FixOtlpTraces.UNSIGNED_INT_FIELDS)
    (hw : D.getPath (p ++ [.key k]) = some w) (hn : w.isNumber = false) :
    ∃ w', (FixOtlpTraces.sanitizeValue D).getPath (p ++ [.key k]) = some w' ∧
      w' = FixOtlpTraces.sanitizeValue w ∧ w'.kind = w.kind ∧ (w.isScalar = true → w' = w) := by
  refine ⟨FixOtlpTraces.sanitizeValue w, ?_, rfl, FixOtlpTraces.sanitizeValue_kind w,
    FixOtlpTraces.sanitizeValue_of_scalar w⟩
  rw [FixOtlpTraces.getPath_sanitizeValue, hw]
  simp only [Option.map_some', FixOtlpTraces.afterStep]
  rw [FixOtlpTraces.afterBody_of_not_number k w hn]

/-- Witness of C4: a counter encoded as the string `"-1"`. -/
theorem tracked_non_number_not_rewritten_witness :
    ∃ w', (FixOtlpTraces.sanitizeValue
        (.obj [("events", .arr [.obj [("droppedEventsCount", .str "-1")]])])).getPath
        ([.key "events", .index 0] ++ [.key "droppedEventsCount"]) = some w' ∧
      w' = FixOtlpTraces.sanitizeValue (.str "-1") ∧ w'.kind = (Json.str "-1").kind ∧
      ((Json.str "-1").isScalar = true → w' = .str "-1") :=
  tracked_non_number_not_rewritten _ [.key "events", .index 0] "droppedEventsCount" (.str "-1")
    (by decide) (by decide) (by decide)

/-! ## The field policy -/

/-- C5: the membership test of the field table holds for exactly the four names
`droppedAttributesCount`, `droppedEventsCount`, `droppedLinksCount` and `droppedLabelsCount`,
compared as whole strings, and the tables of the batch tool, the gateway and the two browser
scripts are the same. -/
theorem field_policy_exact (key : String) :
    (arrayIncludes FixOtlpTraces.UNSIGNED_INT_FIELDS key = true ↔
        key = "droppedAttributesCount" ∨ key = "droppedEventsCount" ∨
          key = "droppedLinksCount" ∨ key = "droppedLabelsCount") ∧
      JaegerOtlpFixer.UNSIGNED_INT_FIELDS = FixOtlpTraces.UNSIGNED_INT_FIELDS ∧
      AutoFixOtlp.unsignedFields = FixOtlpTraces.UNSIGNED_INT_FIELDS ∧
      JaegerUiFix.unsignedFields = FixOtlpTraces.UNSIGNED_INT_FIELDS := by
  refine ⟨?_, rfl, rfl, rfl⟩
  rw [arrayIncludes_iff_mem]
  simp [FixOtlpTraces.UNSIGNED_INT_FIELDS]

/-- Strings near a configured name are rejected by the field policy: another case, a prefix, a
suffix, surrounding whitespace. -/
theorem field_policy_rejects_near_misses :
    arrayIncludes FixOtlpTraces.UNSIGNED_INT_FIELDS "droppedattributescount" = false ∧
      arrayIncludes FixOtlpTraces.UNSIGNED_INT_FIELDS "DroppedEventsCount" = false ∧
      arrayIncludes FixOtlpTraces.UNSIGNED_INT_FIELDS "droppedLinks" = false ∧
      arrayIncludes FixOtlpTraces.UNSIGNED_INT_FIELDS "LinksCount" = false ∧
      arrayIncludes FixOtlpTraces.UNSIGNED_INT_FIELDS "droppedLabelsCount " = false ∧
      arrayIncludes FixOtlpTraces.UNSIGNED_INT_FIELDS " droppedLabelsCount" = false := by
  decide

/-! ## The batch tool -/

/-- Counterexample to C6 as stated: the text of `big.json` is one valid JSON document, an object
whose number is beyond the range of a double; `processFile` writes it with `null` in the place
of the number, so the file written parses to a document that is not the sanitized one. -/
theorem number_beyond_double_is_written_as_null :
    Scenario.overflowFileSystem.readFileSync "big.json" = some Scenario.overflowText ∧
      Scenario.overflowRuntime.parse Scenario.overflowText = .ok Scenario.overflowDocument ∧
      Scenario.overflowDocument.isArray = false ∧
      FixOtlpTraces.processFile Scenario.overflowRuntime Scenario.overflowFileSystem "big.json"
          "out.json"
        = { written := [("out.json", "\x7b\n  \"n\": null\n\x7d")], exitCode := 0 } ∧
      Scenario.overflowRuntime.parse "\x7b\n  \"n\": null\n\x7d" = .ok (.obj [("n", .null)]) ∧
      Json.obj [("n", .null)] ≠ FixOtlpTraces.sanitizeValue Scenario.overflowDocument :=
  ⟨rfl, rfl, rfl, rfl, rfl, by decide⟩

/-- C6, amended: when the input file holds one valid JSON document, `processFile` writes one
file, at the output path, with the text `JSON.stringify(_, null, 2)` gives for the array of the
sanitized elements, in the same order, when the document is an array, and for the sanitized
document otherwise; and that file parses to this value whenever `JSON.parse` reads back the text
`JSON.stringify` writes for it. -/
theorem processFile_single_document (rt : Runtime) (fs : FixOtlpTraces.FileSystem)
    (inputPath outputPath data : String) (traces : Json)
    (hread : fs.readFileSync inputPath = some data)
    (hparse : rt.parse data = .ok traces)
    (hwrite : fs.writable outputPath = true) :
    FixOtlpTraces.processFile rt fs inputPath outputPath
        = { written := [(outputPath, rt.stringifyIndent (FixOtlpTraces.sanitizeTraces traces))],
            exitCode := 0 } ∧
      (∀ elements : List Json, traces = .arr elements →
        FixOtlpTraces.sanitizeTraces traces = .arr (elements.map FixOtlpTraces.sanitizeValue)) ∧
      (traces.isArray = false →
        FixOtlpTraces.sanitizeTraces traces = FixOtlpTraces.sanitizeValue traces) ∧
      (rt.parse (rt.stringifyIndent (FixOtlpTraces.sanitizeTraces traces))
          = .ok (FixOtlpTraces.sanitizeTraces traces) →
        ∃ text : String,
          FixOtlpTraces.processFile rt fs inputPath outputPath
            = { written := [(outputPath, text)], exitCode := 0 } ∧
          (∀ elements : List Json, traces = .arr elements →
            rt.parse text = .ok (.arr (elements.map FixOtlpTraces.sanitizeValue))) ∧
          (traces.isArray = false →
            rt.parse text = .ok (FixOtlpTraces.sanitizeValue traces))) := by
  have hrun : FixOtlpTraces.processFile rt fs inputPath outputPath
      = { written := [(outputPath, rt.stringifyIndent (FixOtlpTraces.sanitizeTraces traces))],
          exitCode := 0 } := by
    simp only [FixOtlpTraces.processFile, hread, FixOtlpTraces.parseTraces, hparse, hwrite,
      if_true]
  have harray : ∀ elements : List Json, traces = .arr elements →
      FixOtlpTraces.sanitizeTraces traces
        = .arr (elements.map FixOtlpTraces.sanitizeValue) := by
    intro elements he
    rw [he]; rfl
  have hother : traces.isArray = false →
      FixOtlpTraces.sanitizeTraces traces = FixOtlpTraces.sanitizeValue traces := by
    intro hna
    cases traces <;> first | rfl | simp [Json.isArray] at hna
  refine ⟨hrun, harray, hother, ?_⟩
  intro hround
  refine ⟨rt.stringifyIndent (FixOtlpTraces.sanitizeTraces traces), hrun, ?_, ?_⟩
  · intro elements he
    rw [hround, harray elements he]
  · intro hna
    rw [hround, hother hna]

/-- Witness of C6: Scenario B, an array of two spans of which only the first is rewritten. -/
theorem processFile_single_document_witness :
    ∃ text : String,
      FixOtlpTraces.processFile Scenario.runtime Scenario.fileSystem "input.json" "output.json"
        = { written := [("output.json", text)], exitCode := 0 } ∧
      (∀ elements : List Json, Scenario.inputDocument = .arr elements →
        Scenario.runtime.parse text = .ok (.arr (elements.map FixOtlpTraces.sanitizeValue))) ∧
      (Scenario.inputDocument.isArray = false →
        Scenario.runtime.parse text
          = .ok (FixOtlpTraces.sanitizeValue Scenario.inputDocument)) :=
  (processFile_single_document Scenario.runtime Scenario.fileSystem "input.json"
    "output.json" Scenario.inputText Scenario.inputDocument (by decide) (by rfl)
    (by decide)).2.2.2 (by rfl)

/-- Scenario B of the specification: only the first span is rewritten. -/
theorem scenario_B :
    FixOtlpTraces.sanitizeTraces Scenario.inputDocument = Scenario.outputDocument ∧
      (FixOtlpTraces.processFile Scenario.runtime Scenario.fileSystem "input.json"
        "output.json").written = [("output.json", Scenario.outputTextIndent)] := by
  decide

/-! ## The gateway -/

namespace JaegerOtlpFixer

theorem sanitizeData_eq_sanitizeValue (data : Json) :
    sanitizeData data = FixOtlpTraces.sanitizeValue data := by
  cases data with
  | arr items =>
    rw [sanitizeData, FixOtlpTraces.sanitizeValue_arr]
    congr 1
    exact List.map_congr_left (fun item _ => sanitizeObject_eq_sanitizeValue item)
  | null => rfl
  | bool _ => rfl
  | num _ => rfl
  | str _ => rfl
  | obj props => exact sanitizeObject_eq_sanitizeValue (.obj props)

theorem handler_matched (rt : Runtime) (env : Env) (upstream : UpstreamRequest → UpstreamResult)
    (req : IncomingMessage) (body : ByteArray) (data : Json)
    (hroute : req.method = "POST" ∧ includes req.url "/api/transform" = true)
    (hbody : decompress rt (contentEncoding req.headers) (concat req.chunks) = some body)
    (hparse : rt.parse (rt.bufferToString body) = .ok data) :
    handler rt env upstream req =
      { sent := [{ hostname := jaegerHost env, port := jaegerPort rt env, path := req.url,
                   method := req.method,
                   headers := forwardedHeaders (rt.stringify (sanitizeData data)) req.headers,
                   body := [(rt.stringify (sanitizeData data)).toUTF8] }],
        response := some (relay (upstream
                 { hostname := jaegerHost env, port := jaegerPort rt env, path := req.url,
                   method := req.method,
                   headers := forwardedHeaders (rt.stringify (sanitizeData data)) req.headers,
                   body := [(rt.stringify (sanitizeData data)).toUTF8] })),
        threw := false } := by
  unfold handler
  rw [if_pos hroute]
  simp only [hbody, hparse]

end JaegerOtlpFixer

namespace FixOtlpTraces

theorem sanitized_tracked_number_nonneg (D : Json) (p : List Step) (k : String) (v : ℚ)
    (hk : k ∈ UNSIGNED_INT_FIELDS)
    (h : (sanitizeValue D).getPath (p ++ [.key k]) = some (.num v)) : 0 ≤ v := by
  rw [getPath_sanitizeValue] at h
  cases hD : D.getPath (p ++ [.key k]) with
  | none => rw [hD] at h; cases h
  | some w =>
    rw [hD] at h
    simp only [Option.map_some', afterStep, Option.some.injEq] at h
    have hin : arrayIncludes UNSIGNED_INT_FIELDS k = true := (arrayIncludes_iff_mem _ _).2 hk
    unfold afterBody at h
    by_cases hc : (arrayIncludes UNSIGNED_INT_FIELDS k && w.isNegativeNumber) = true
    · rw [if_pos hc] at h
      cases h
      exact le_refl 0
    · rw [if_neg hc] at h
      cases w with
      | num n =>
        simp only [sanitizeValue, Json.num.injEq] at h
        subst h
        simp only [hin, Json.isNegativeNumber, Bool.true_and, decide_eq_true_eq] at hc
        exact not_lt.mp hc
      | null => simp [sanitizeValue] at h
      | bool _ => simp [sanitizeValue] at h
      | str _ => simp [sanitizeValue] at h
      | arr _ => simp [sanitizeValue_arr] at h
      | obj _ => simp [sanitizeValue_obj] at h

end FixOtlpTraces

/-- C7: for a matched request whose body, after `gunzipSync` or `inflateSync` when
`content-encoding` names it, parses as JSON, exactly one request goes upstream and its body is the
`JSON.stringify` text of the sanitized document (every element sanitized when the document is an
array), written without compression; the sanitized document holds no configured field with a
negative number at any depth. -/
theorem matched_body_is_sanitized (rt : Runtime) (env : JaegerOtlpFixer.Env)
    (upstream : JaegerOtlpFixer.UpstreamRequest → JaegerOtlpFixer.UpstreamResult)
    (req : JaegerOtlpFixer.IncomingMessage) (body : ByteArray) (data : Json)
    (hroute : req.method = "POST" ∧ JaegerOtlpFixer.includes req.url "/api/transform" = true)
    (hbody : JaegerOtlpFixer.decompress rt (JaegerOtlpFixer.contentEncoding req.headers)
      (JaegerOtlpFixer.concat req.chunks) = some body)
    (hparse : rt.parse (rt.bufferToString body) = .ok data) :
    ∃ (proxyReq : JaegerOtlpFixer.UpstreamRequest) (sanitized : Json),
      (JaegerOtlpFixer.handler rt env upstream req).sent = [proxyReq] ∧
      proxyReq.body = [(rt.stringify sanitized).toUTF8] ∧
      (∀ items : List Json, data = .arr items →
        sanitized = .arr (items.map JaegerOtlpFixer.sanitizeObject)) ∧
      (data.isArray = false → sanitized = JaegerOtlpFixer.sanitizeObject data) ∧
      (∀ (p : List Step) (k : String) (v : ℚ), k ∈ JaegerOtlpFixer.UNSIGNED_INT_FIELDS →
        sanitized.getPath (p ++ [.key k]) = some (.num v) → 0 ≤ v) := by
  refine ⟨{ hostname := JaegerOtlpFixer.jaegerHost env, port := JaegerOtlpFixer.jaegerPort rt env,
            path := req.url, method := req.method,
            headers := JaegerOtlpFixer.forwardedHeaders
              (rt.stringify (JaegerOtlpFixer.sanitizeData data)) req.headers,
            body := [(rt.stringify (JaegerOtlpFixer.sanitizeData data)).toUTF8] },
    JaegerOtlpFixer.sanitizeData data, ?_, rfl, ?_, ?_, ?_⟩
  · rw [JaegerOtlpFixer.handler_matched rt env upstream req body data hroute hbody hparse]
  · intro items he
    rw [he]; rfl
  · intro hna
    cases data <;> first | rfl | simp [Json.isArray] at hna
  · intro p k v hk h
    rw [JaegerOtlpFixer.sanitizeData_eq_sanitizeValue] at h
    exact FixOtlpTraces.sanitized_tracked_number_nonneg data p k v hk h

/-- Witness of C7: Scenario D, a gzip-encoded body with a negative `droppedLinksCount`. -/
theorem matched_body_is_sanitized_witness :
    ∃ (proxyReq : JaegerOtlpFixer.UpstreamRequest) (sanitized : Json),
      (JaegerOtlpFixer.handler Scenario.runtime Scenario.env Scenario.upstream
        Scenario.gzipRequest).sent = [proxyReq] ∧
      proxyReq.body = [(Scenario.runtime.stringify sanitized).toUTF8] ∧
      (∀ items : List Json, Scenario.inputDocument = .arr items →
        sanitized = .arr (items.map JaegerOtlpFixer.sanitizeObject)) ∧
      (Scenario.inputDocument.isArray = false →
        sanitized = JaegerOtlpFixer.sanitizeObject Scenario.inputDocument) ∧
      (∀ (p : List Step) (k : String) (v : ℚ), k ∈ JaegerOtlpFixer.UNSIGNED_INT_FIELDS →
        sanitized.getPath (p ++ [.key k]) = some (.num v) → 0 ≤ v) :=
  matched_body_is_sanitized Scenario.runtime Scenario.env Scenario.upstream Scenario.gzipRequest
    Scenario.inputText.toUTF8 Scenario.inputDocument (by decide) (by rfl) (by rfl)

/-- Scenario D of the specification, the body: the text sent upstream is that of the repaired
document. -/
theorem scenario_D_body :
    (JaegerOtlpFixer.handler Scenario.runtime Scenario.env Scenario.upstream
        Scenario.gzipRequest).sent.map (fun proxyReq => proxyReq.body.map ByteArray.data)
      = [[Scenario.outputText.toUTF8.data]] := by
  decide

/-- C8 fails on the code: for the gzip-encoded request of Scenario D the handler sends upstream
the header `content-encoding: gzip` copied from the client, together with the uncompressed
text of the repaired document. -/
theorem content_encoding_is_forwarded :
    (JaegerOtlpFixer.handler Scenario.runtime Scenario.env Scenario.upstream
        Scenario.gzipRequest).sent.map
        (fun proxyReq =>
          (JaegerOtlpFixer.sentHeader proxyReq.headers "Content-Encoding",
            proxyReq.body.map ByteArray.data))
      = [(some (.text "gzip"), [Scenario.outputText.toUTF8.data])] := by
  decide

namespace JaegerOtlpFixer

theorem mem_setHeader (headers : Headers) (name : String) (value : HeaderValue)
    (entry : String × HeaderValue) (h : entry ∈ setHeader headers name value) :
    entry ∈ headers ∨ entry = (name, value) := by
  induction headers with
  | nil =>
    simp only [setHeader, List.mem_singleton] at h
    exact Or.inr h
  | cons first rest ih =>
    obtain ⟨name', value'⟩ := first
    simp only [setHeader] at h
    by_cases hn : name' = name
    · rw [if_pos hn] at h
      rcases List.mem_cons.1 h with h | h
      · exact Or.inr h
      · exact Or.inl (List.mem_cons_of_mem _ h)
    · rw [if_neg hn] at h
      rcases List.mem_cons.1 h with h | h
      · exact Or.inl (h ▸ List.mem_cons_self _ _)
      · rcases ih h with h | h
        · exact Or.inl (List.mem_cons_of_mem _ h)
        · exact Or.inr h

theorem mem_setHeader_of_ne (headers : Headers) (name : String) (value : HeaderValue)
    (entry : String × HeaderValue) (h : entry ∈ headers) (hne : entry.1 ≠ name) :
    entry ∈ setHeader headers name value := by
  induction headers with
  | nil => cases h
  | cons first rest ih =>
    obtain ⟨name', value'⟩ := first
    simp only [setHeader]
    by_cases hn : name' = name
    · rw [if_pos hn]
      rcases List.mem_cons.1 h with h | h
      · exact absurd (by rw [h]; exact hn) hne
      · exact List.mem_cons_of_mem _ h
    · rw [if_neg hn]
      rcases List.mem_cons.1 h with h | h
      · exact h ▸ List.mem_cons_self _ _
      · exact List.mem_cons_of_mem _ (ih h)

theorem copyHeaders_cons (initial : Headers) (header : String × String)
    (rest : List (String × String)) :
    copyHeaders initial (header :: rest) =
      copyHeaders
        (if header.1 ≠ "content-length" ∧ header.1 ≠ "host" then
          setHeader initial header.1 (.text header.2)
        else initial)
        rest := rfl

/-- The property of `options.headers` that the copy of the client's headers preserves: the
computed `Content-Length` is present and is the only property of that name, in any case. -/
theorem copyHeaders_content_length (n : Nat) :
    ∀ (headers : List (String × String)) (initial : Headers),
      (∀ header ∈ headers, toLowerCase header.1 = header.1) →
      ("Content-Length", HeaderValue.number n) ∈ initial →
      (∀ entry ∈ initial, toLowerCase entry.1 = "content-length" →
        entry = ("Content-Length", HeaderValue.number n)) →
      ("Content-Length", HeaderValue.number n) ∈ copyHeaders initial headers ∧
        ∀ entry ∈ copyHeaders initial headers, toLowerCase entry.1 = "content-length" →
          entry = ("Content-Length", HeaderValue.number n)
  | [], initial, _, hmem, honly => ⟨hmem, honly⟩
  | header :: rest, initial, hlower, hmem, honly => by
    have hrest : ∀ h ∈ rest, toLowerCase h.1 = h.1 :=
      fun h hh => hlower h (List.mem_cons_of_mem _ hh)
    have hhead : toLowerCase header.1 = header.1 := hlower header (List.mem_cons_self _ _)
    rw [copyHeaders_cons]
    by_cases hc : header.1 ≠ "content-length" ∧ header.1 ≠ "host"
    · rw [if_pos hc]
      have hne : ("Content-Length", HeaderValue.number n).1 ≠ header.1 := by
        intro heq
        rw [← heq] at hhead
        have hcase : toLowerCase "Content-Length" ≠ "Content-Length" := by decide
        exact hcase hhead
      refine copyHeaders_content_length n rest _ hrest
        (mem_setHeader_of_ne _ _ _ _ hmem hne) ?_
      intro entry hentry hname
      rcases mem_setHeader _ _ _ _ hentry with h | h
      · exact honly entry h hname
      · rw [h] at hname
        exact absurd (hhead.symm.trans hname) hc.1
    · rw [if_neg hc]
      exact copyHeaders_content_length n rest initial hrest hmem honly

theorem sentHeader_of_only (headers : Headers) (name : String) (entry : String × HeaderValue)
    (hmem : entry ∈ headers) (hname : toLowerCase entry.1 = toLowerCase name)
    (honly : ∀ other ∈ headers, toLowerCase other.1 = toLowerCase name → other = entry) :
    sentHeader headers name = some entry.2 := by
  unfold sentHeader
  have hin : entry ∈ headers.filter (fun header => toLowerCase header.1 = toLowerCase name) :=
    List.mem_filter.2 ⟨hmem, decide_eq_true hname⟩
  have hne : headers.filter (fun header => toLowerCase header.1 = toLowerCase name) ≠ [] :=
    List.ne_nil_of_mem hin
  rw [List.getLast?_eq_getLast _ hne]
  have hlast := List.getLast_mem hne
  obtain ⟨h1, h2⟩ := List.mem_filter.1 hlast
  rw [honly _ h1 (of_decide_eq_true h2)]
  rfl

end JaegerOtlpFixer

/-- C9: for a matched request that is forwarded, the `Content-Length` sent upstream is the
number of bytes of the text written upstream, and no property of the forwarded headers named
`content-length`, in any case, carries another value: the client's own value is not forwarded.
The names of `req.headers` are lower-case, as Node delivers them. -/
theorem content_length_matches_body (rt : Runtime) (env : JaegerOtlpFixer.Env)
    (upstream : JaegerOtlpFixer.UpstreamRequest → JaegerOtlpFixer.UpstreamResult)
    (req : JaegerOtlpFixer.IncomingMessage) (body : ByteArray) (data : Json)
    (hlower : ∀ header ∈ req.headers, toLowerCase header.1 = header.1)
    (hroute : req.method = "POST" ∧ JaegerOtlpFixer.includes req.url "/api/transform" = true)
    (hbody : JaegerOtlpFixer.decompress rt (JaegerOtlpFixer.contentEncoding req.headers)
      (JaegerOtlpFixer.concat req.chunks) = some body)
    (hparse : rt.parse (rt.bufferToString body) = .ok data) :
    ∃ (proxyReq : JaegerOtlpFixer.UpstreamRequest) (written : ByteArray),
      (JaegerOtlpFixer.handler rt env upstream req).sent = [proxyReq] ∧
      proxyReq.body = [written] ∧
      JaegerOtlpFixer.sentHeader proxyReq.headers "Content-Length"
        = some (.number written.size) ∧
      (∀ entry ∈ proxyReq.headers, toLowerCase entry.1 = "content-length" →
        entry = ("Content-Length", .number written.size)) := by
  have hinv := JaegerOtlpFixer.copyHeaders_content_length
    (rt.stringify (JaegerOtlpFixer.sanitizeData data)).utf8ByteSize req.headers
    [("Content-Type", .text "application/json"),
     ("Content-Length", .number (rt.stringify (JaegerOtlpFixer.sanitizeData data)).utf8ByteSize)]
    hlower (by simp)
    (by
      intro entry hentry hname
      rcases List.mem_cons.1 hentry with h | h
      · rw [h] at hname; exact absurd hname (by decide)
      · exact List.mem_singleton.1 h)
  refine ⟨{ hostname := JaegerOtlpFixer.jaegerHost env, port := JaegerOtlpFixer.jaegerPort rt env,
            path := req.url, method := req.method,
            headers := JaegerOtlpFixer.forwardedHeaders
              (rt.stringify (JaegerOtlpFixer.sanitizeData data)) req.headers,
            body := [(rt.stringify (JaegerOtlpFixer.sanitizeData data)).toUTF8] },
    (rt.stringify (JaegerOtlpFixer.sanitizeData data)).toUTF8, ?_, rfl, ?_, ?_⟩
  · rw [JaegerOtlpFixer.handler_matched rt env upstream req body data hroute hbody hparse]
  · rw [String.size_toUTF8]
    exact JaegerOtlpFixer.sentHeader_of_only _ _ _ hinv.1 rfl hinv.2
  · rw [String.size_toUTF8]
    exact hinv.2

/-- Witness of C9: the request of Scenario D, whose client announced a `content-length` of 4. -/
theorem content_length_matches_body_witness :
    ∃ (proxyReq : JaegerOtlpFixer.UpstreamRequest) (written : ByteArray),
      (JaegerOtlpFixer.handler Scenario.runtime Scenario.env Scenario.upstream
        Scenario.gzipRequest).sent = [proxyReq] ∧
      proxyReq.body = [written] ∧
      JaegerOtlpFixer.sentHeader proxyReq.headers "Content-Length"
        = some (.number written.size) ∧
      (∀ entry ∈ proxyReq.headers, toLowerCase entry.1 = "content-length" →
        entry = ("Content-Length", .number written.size)) :=
  content_length_matches_body Scenario.runtime Scenario.env Scenario.upstream
    Scenario.gzipRequest Scenario.inputText.toUTF8 Scenario.inputDocument (by decide) (by decide)
    (by rfl) (by rfl)

/-- Scenario D of the specification, the length: the `Content-Length` sent is 49, the size of
the repaired text, not the 4 the client announced. -/
theorem scenario_D_content_length :
    (JaegerOtlpFixer.handler Scenario.runtime Scenario.env Scenario.upstream
        Scenario.gzipRequest).sent.map
        (fun proxyReq => JaegerOtlpFixer.sentHeader proxyReq.headers "Content-Length")
      = [some (.number 49)] ∧ Scenario.outputText.utf8ByteSize = 49 := by
  decide

/-- C10: for a matched request whose body, after decompression, is not valid JSON, the client
receives a response of status 400 and nothing is sent to the upstream target. -/
theorem invalid_json_answered_400 (rt : Runtime) (env : JaegerOtlpFixer.Env)
    (upstream : JaegerOtlpFixer.UpstreamRequest → JaegerOtlpFixer.UpstreamResult)
    (req : JaegerOtlpFixer.IncomingMessage) (body : ByteArray) (message : String)
    (hroute : req.method = "POST" ∧ JaegerOtlpFixer.includes req.url "/api/transform" = true)
    (hbody : JaegerOtlpFixer.decompress rt (JaegerOtlpFixer.contentEncoding req.headers)
      (JaegerOtlpFixer.concat req.chunks) = some body)
    (hparse : rt.parse (rt.bufferToString body) = .error message) :
    (JaegerOtlpFixer.handler rt env upstream req).sent = [] ∧
      (JaegerOtlpFixer.handler rt env upstream req).threw = false ∧
      ∃ response : JaegerOtlpFixer.ClientResponse,
        (JaegerOtlpFixer.handler rt env upstream req).response = some response ∧
        response.statusCode = 400 := by
  unfold JaegerOtlpFixer.handler
  rw [if_pos hroute]
  simp only [hbody, hparse]
  simp

/-- Witness of C10: a `POST` to the transform endpoint with a truncated JSON text. -/
theorem invalid_json_answered_400_witness :
    (JaegerOtlpFixer.handler Scenario.runtime Scenario.env Scenario.upstream
        Scenario.brokenRequest).sent = [] ∧
      (JaegerOtlpFixer.handler Scenario.runtime Scenario.env Scenario.upstream
        Scenario.brokenRequest).threw = false ∧
      ∃ response : JaegerOtlpFixer.ClientResponse,
        (JaegerOtlpFixer.handler Scenario.runtime Scenario.env Scenario.upstream
          Scenario.brokenRequest).response = some response ∧
        response.statusCode = 400 :=
  invalid_json_answered_400 Scenario.runtime Scenario.env Scenario.upstream
    Scenario.brokenRequest (JaegerOtlpFixer.concat Scenario.brokenRequest.chunks)
    "Unexpected end of JSON input" (by decide) (by rfl) (by rfl)

/-! ## The forwarded headers in general -/

namespace JaegerOtlpFixer

theorem mem_setHeader_self (headers : Headers) (name : String) (value : HeaderValue) :
    (name, value) ∈ setHeader headers name value := by
  induction headers with
  | nil => simp [setHeader]
  | cons first rest ih =>
    obtain ⟨name', value'⟩ := first
    simp only [setHeader]
    by_cases hn : name' = name
    · rw [if_pos hn]; exact List.mem_cons_self _ _
    · rw [if_neg hn]; exact List.mem_cons_of_mem _ ih

theorem copyHeaders_keeps_entry (entry : String × HeaderValue) :
    ∀ (headers : List (String × String)) (initial : Headers),
      entry ∈ initial → entry.1 ∉ headers.map Prod.fst → entry ∈ copyHeaders initial headers
  | [], _, hmem, _ => hmem
  | header :: rest, initial, hmem, hnot => by
    rw [copyHeaders_cons]
    have hne : entry.1 ≠ header.1 := fun h => hnot (by simp [h])
    have hrest : entry.1 ∉ rest.map Prod.fst := fun h => hnot (by simp at h ⊢; exact Or.inr h)
    by_cases hc : header.1 ≠ "content-length" ∧ header.1 ≠ "host"
    · rw [if_pos hc]
      exact copyHeaders_keeps_entry entry rest _ (mem_setHeader_of_ne _ _ _ _ hmem hne) hrest
    · rw [if_neg hc]
      exact copyHeaders_keeps_entry entry rest initial hmem hrest

/-- Every header of the client other than `content-length` and `host` is a property of the
forwarded `options.headers`, `content-encoding` included. -/
theorem copyHeaders_copies (name value : String)
    (hname : name ≠ "content-length" ∧ name ≠ "host") :
    ∀ (headers : List (String × String)) (initial : Headers),
      (headers.map Prod.fst).Nodup → (name, value) ∈ headers →
      (name, HeaderValue.text value) ∈ copyHeaders initial headers
  | [], _, _, hmem => by cases hmem
  | header :: rest, initial, hnodup, hmem => by
    rw [copyHeaders_cons]
    rw [List.map_cons, List.nodup_cons] at hnodup
    rcases List.mem_cons.1 hmem with h | h
    · subst h
      rw [if_pos hname]
      exact copyHeaders_keeps_entry _ rest _ (mem_setHeader_self _ _ _) hnodup.1
    · exact copyHeaders_copies name value hname rest _ hnodup.2 h

/-- A matched request that is forwarded and carried `content-encoding` goes upstream with that
very header among the properties of `options.headers`. -/
theorem forwarded_headers_keep_content_encoding (rt : Runtime) (env : Env)
    (upstream : UpstreamRequest → UpstreamResult) (req : IncomingMessage) (body : ByteArray)
    (data : Json) (encoding : String)
    (hnodup : (req.headers.map Prod.fst).Nodup)
    (hencoding : ("content-encoding", encoding) ∈ req.headers)
    (hroute : req.method = "POST" ∧ includes req.url "/api/transform" = true)
    (hbody : decompress rt (contentEncoding req.headers) (concat req.chunks) = some body)
    (hparse : rt.parse (rt.bufferToString body) = .ok data) :
    ∃ proxyReq : UpstreamRequest,
      (handler rt env upstream req).sent = [proxyReq] ∧
      ("content-encoding", HeaderValue.text encoding) ∈ proxyReq.headers := by
  rw [handler_matched rt env upstream req body data hroute hbody hparse]
  exact ⟨_, rfl, copyHeaders_copies "content-encoding" encoding (by decide) req.headers _
    hnodup hencoding⟩

end JaegerOtlpFixer

/-! ## The three sanitizers agree -/

namespace AutoFixOtlp

mutual
theorem fixNegativeValues_eq_sanitizeValue :
    ∀ v : Json, fixNegativeValues v = FixOtlpTraces.sanitizeValue v
  | .null => rfl
  | .bool _ => rfl
  | .num _ => rfl
  | .str _ => rfl
  | .arr items => by
    rw [fixNegativeValues, FixOtlpTraces.sanitizeValue, browser_overIndices_agree items]
  | .obj props => by
    rw [fixNegativeValues, FixOtlpTraces.sanitizeValue, browser_overKeys_agree props]
theorem browser_overIndices_agree :
    ∀ items : List Json, overIndices items = FixOtlpTraces.overIndices items
  | [] => rfl
  | value :: rest => by
    rw [overIndices, FixOtlpTraces.overIndices, browser_descend_agree value,
      browser_overIndices_agree rest]
theorem browser_overKeys_agree :
    ∀ props : List (String × Json), overKeys props = FixOtlpTraces.overKeys props
  | [] => rfl
  | (key, value) :: rest => by
    rw [overKeys, FixOtlpTraces.overKeys, browser_descend_agree value,
      browser_overKeys_agree rest]
    rfl
theorem browser_descend_agree : ∀ v : Json, descend v = FixOtlpTraces.descend v
  | .null => rfl
  | .bool _ => rfl
  | .num _ => rfl
  | .str _ => rfl
  | .arr items => by
    rw [descend, FixOtlpTraces.descend, browser_forEachItem_agree items]
  | .obj props => by
    rw [descend, FixOtlpTraces.descend, browser_overKeys_agree props]
theorem browser_forEachItem_agree :
    ∀ items : List Json, forEachItem items = FixOtlpTraces.forEachItem items
  | [] => rfl
  | item :: rest => by
    rw [forEachItem, FixOtlpTraces.forEachItem, fixNegativeValues_eq_sanitizeValue item,
      browser_forEachItem_agree rest]
end

end AutoFixOtlp

namespace JaegerUiFix

mutual
theorem userscript_fixNegativeValues_eq_sanitizeValue :
    ∀ v : Json, fixNegativeValues v = FixOtlpTraces.sanitizeValue v
  | .null => rfl
  | .bool _ => rfl
  | .num _ => rfl
  | .str _ => rfl
  | .arr items => by
    rw [fixNegativeValues, FixOtlpTraces.sanitizeValue, userscript_overIndices_agree items]
  | .obj props => by
    rw [fixNegativeValues, FixOtlpTraces.sanitizeValue, userscript_overKeys_agree props]
theorem userscript_overIndices_agree :
    ∀ items : List Json, overIndices items = FixOtlpTraces.overIndices items
  | [] => rfl
  | value :: rest => by
    rw [overIndices, FixOtlpTraces.overIndices, userscript_descend_agree value,
      userscript_overIndices_agree rest]
theorem userscript_overKeys_agree :
    ∀ props : List (String × Json), overKeys props = FixOtlpTraces.overKeys props
  | [] => rfl
  | (key, value) :: rest => by
    rw [overKeys, FixOtlpTraces.overKeys, userscript_descend_agree value,
      userscript_overKeys_agree rest]
    rfl
theorem userscript_descend_agree : ∀ v : Json, descend v = FixOtlpTraces.descend v
  | .null => rfl
  | .bool _ => rfl
  | .num _ => rfl
  | .str _ => rfl
  | .arr items => by
    rw [descend, FixOtlpTraces.descend, userscript_forEachItem_agree items]
  | .obj props => by
    rw [descend, FixOtlpTraces.descend, userscript_overKeys_agree props]
theorem userscript_forEachItem_agree :
    ∀ items : List Json, forEachItem items = FixOtlpTraces.forEachItem items
  | [] => rfl
  | item :: rest => by
    rw [forEachItem, FixOtlpTraces.forEachItem,
      userscript_fixNegativeValues_eq_sanitizeValue item, userscript_forEachItem_agree rest]
end

end JaegerUiFix

/-- C20: the sanitizers agree: for every document, `sanitizeValue` of the batch tool,
`sanitizeObject` of the gateway and `fixNegativeValues` of each browser script leave it in the
same final state. -/
theorem sanitizers_agree (D : Json) :
    JaegerOtlpFixer.sanitizeObject D = FixOtlpTraces.sanitizeValue D ∧
      AutoFixOtlp.fixNegativeValues D = FixOtlpTraces.sanitizeValue D ∧
      JaegerUiFix.fixNegativeValues D = FixOtlpTraces.sanitizeValue D :=
  ⟨JaegerOtlpFixer.sanitizeObject_eq_sanitizeValue D,
    AutoFixOtlp.fixNegativeValues_eq_sanitizeValue D,
    JaegerUiFix.userscript_fixNegativeValues_eq_sanitizeValue D⟩

/-- The three sanitizers on Scenario A. -/
theorem sanitizers_agree_on_scenario_A :
    AutoFixOtlp.fixNegativeValues
        (.obj [("droppedAttributesCount", .num (-3)), ("name", .str "span1")])
      = .obj [("droppedAttributesCount", .num 0), ("name", .str "span1")] ∧
    JaegerUiFix.fixNegativeValues
        (.obj [("droppedAttributesCount", .num (-3)), ("name", .str "span1")])
      = .obj [("droppedAttributesCount", .num 0), ("name", .str "span1")] := by
  decide

/-! ## The gateway: routing, failures and passthrough -/

namespace JaegerOtlpFixer

theorem handler_eq_branches (rt : Runtime) (env : Env)
    (upstream : UpstreamRequest → UpstreamResult) (req : IncomingMessage) :
    handler rt env upstream req =
      match route req with
      | .sanitizing => sanitizingBranch rt env upstream req
      | .passthrough => passthroughBranch rt env upstream req := by
  unfold handler route
  by_cases h : req.method = "POST" ∧ includes req.url "/api/transform" = true
  · rw [if_pos h, if_pos h]; rfl
  · rw [if_neg h, if_neg h]; rfl

theorem handler_passthrough (rt : Runtime) (env : Env)
    (upstream : UpstreamRequest → UpstreamResult) (req : IncomingMessage)
    (hroute : ¬ (req.method = "POST" ∧ includes req.url "/api/transform" = true)) :
    handler rt env upstream req = passthroughBranch rt env upstream req := by
  unfold handler
  rw [if_neg hroute]; rfl

theorem handler_sanitizing (rt : Runtime) (env : Env)
    (upstream : UpstreamRequest → UpstreamResult) (req : IncomingMessage)
    (hroute : req.method = "POST" ∧ includes req.url "/api/transform" = true) :
    handler rt env upstream req = sanitizingBranch rt env upstream req := by
  unfold handler
  rw [if_pos hroute]; rfl

/-- The substring test `text.includes(pattern)` holds exactly when `text` is some text, then
`pattern`, then some text. -/
theorem includes_iff (text pattern : String) :
    includes text pattern = true ↔ ∃ before after : String, text = before ++ pattern ++ after := by
  unfold includes
  rw [List.any_eq_true]
  constructor
  · rintro ⟨rest, hrest, hprefix⟩
    obtain ⟨before, hbefore⟩ := (List.mem_tails _ _).1 hrest
    obtain ⟨after, hafter⟩ := List.isPrefixOf_iff_prefix.1 hprefix
    refine ⟨String.mk before, String.mk after, String.ext ?_⟩
    simp only [String.data_append]
    rw [← hbefore, ← hafter, List.append_assoc]
  · rintro ⟨before, after, h⟩
    refine ⟨pattern.data ++ after.data, (List.mem_tails _ _).2 ⟨before.data, ?_⟩,
      List.isPrefixOf_iff_prefix.2 ⟨after.data, rfl⟩⟩
    rw [h]
    simp only [String.data_append, List.append_assoc]

/-- A matched request whose body cannot be decompressed: the exception of `gunzipSync` or
`inflateSync` escapes the listener, nothing is answered and nothing is sent. -/
theorem decompression_failure_escapes (rt : Runtime) (env : Env)
    (upstream : UpstreamRequest → UpstreamResult) (req : IncomingMessage)
    (hroute : req.method = "POST" ∧ includes req.url "/api/transform" = true)
    (hfail : decompress rt (contentEncoding req.headers) (concat req.chunks) = none) :
    handler rt env upstream req = { sent := [], response := none, threw := true } := by
  rw [handler_sanitizing rt env upstream req hroute]
  unfold sanitizingBranch
  rw [hfail]

/-- A matched request whose decompressed body does not parse is answered 400 and nothing is
sent. -/
theorem handler_parse_error (rt : Runtime) (env : Env)
    (upstream : UpstreamRequest → UpstreamResult) (req : IncomingMessage) (body : ByteArray)
    (message : String)
    (hroute : req.method = "POST" ∧ includes req.url "/api/transform" = true)
    (hbody : decompress rt (contentEncoding req.headers) (concat req.chunks) = some body)
    (hparse : rt.parse (rt.bufferToString body) = .error message) :
    handler rt env upstream req =
      { sent := [],
        response := some
          { statusCode := 400, headers := [],
            body := [("Error processing request: " ++ message).toUTF8] },
        threw := false } := by
  rw [handler_sanitizing rt env upstream req hroute]
  unfold sanitizingBranch
  simp only [hbody, hparse]

end JaegerOtlpFixer

/-- C11 fails on the code: for a `POST` to the transform endpoint that announces
`content-encoding: gzip` with a body that is not gzip data, `gunzipSync` throws outside the
`try` block: the exception escapes the listener, the client gets no response and nothing is
forwarded. -/
theorem corrupt_gzip_escapes_handler :
    (JaegerOtlpFixer.handler Scenario.runtime Scenario.env Scenario.upstream
        Scenario.corruptRequest).threw = true ∧
      (JaegerOtlpFixer.handler Scenario.runtime Scenario.env Scenario.upstream
        Scenario.corruptRequest).response.isNone = true ∧
      (JaegerOtlpFixer.handler Scenario.runtime Scenario.env Scenario.upstream
        Scenario.corruptRequest).sent.length = 0 := by
  decide

/-- Counterexample to C12 as stated: with an upstream target that cannot be reached, the client
of a matched request and the client of an unmatched request both receive status 500, which is
neither 502 nor 504. -/
theorem upstream_failure_status_is_500 :
    (JaegerOtlpFixer.handler Scenario.runtime Scenario.env Scenario.unreachable
        Scenario.gzipRequest).response.map JaegerOtlpFixer.ClientResponse.statusCode = some 500 ∧
      (JaegerOtlpFixer.handler Scenario.runtime Scenario.env Scenario.unreachable
        Scenario.otherRequest).response.map JaegerOtlpFixer.ClientResponse.statusCode
          = some 500 ∧
      (500 : Nat) ≠ 502 ∧ (500 : Nat) ≠ 504 := by
  decide

/-- C12, amended: for every request, matched or not, that reaches the upstream target and whose
upstream request emits `error`, the client receives status 500 with the text
`Error forwarding request to Jaeger`, and that request is the only one sent upstream. -/
theorem upstream_failure_answered_500 (rt : Runtime) (env : JaegerOtlpFixer.Env)
    (upstream : JaegerOtlpFixer.UpstreamRequest → JaegerOtlpFixer.UpstreamResult)
    (req : JaegerOtlpFixer.IncomingMessage) (proxyReq : JaegerOtlpFixer.UpstreamRequest)
    (hsent : proxyReq ∈ (JaegerOtlpFixer.handler rt env upstream req).sent)
    (herror : upstream proxyReq = .error) :
    (JaegerOtlpFixer.handler rt env upstream req).sent = [proxyReq] ∧
      (JaegerOtlpFixer.handler rt env upstream req).response
        = some { statusCode := 500, headers := [],
                 body := ["Error forwarding request to Jaeger".toUTF8] } := by
  by_cases hroute : req.method = "POST" ∧ JaegerOtlpFixer.includes req.url "/api/transform" = true
  · cases hd : JaegerOtlpFixer.decompress rt (JaegerOtlpFixer.contentEncoding req.headers)
        (JaegerOtlpFixer.concat req.chunks) with
    | none =>
      rw [JaegerOtlpFixer.decompression_failure_escapes rt env upstream req hroute hd] at hsent
      cases hsent
    | some body =>
      cases hp : rt.parse (rt.bufferToString body) with
      | error message =>
        rw [JaegerOtlpFixer.handler_parse_error rt env upstream req body message hroute hd hp]
          at hsent
        cases hsent
      | ok data =>
        rw [JaegerOtlpFixer.handler_matched rt env upstream req body data hroute hd hp]
          at hsent ⊢
        have h := List.mem_singleton.1 hsent
        subst h
        exact ⟨rfl, by simp only [herror, JaegerOtlpFixer.relay]⟩
  · rw [JaegerOtlpFixer.handler_passthrough rt env upstream req hroute] at hsent ⊢
    unfold JaegerOtlpFixer.passthroughBranch at hsent ⊢
    have h := List.mem_singleton.1 hsent
    subst h
    exact ⟨rfl, by simp only [herror, JaegerOtlpFixer.relay]⟩

/-- Witness of C12 as amended: an unmatched request while the upstream target is unreachable. -/
theorem upstream_failure_answered_500_witness :
    (JaegerOtlpFixer.handler Scenario.runtime Scenario.env Scenario.unreachable
        Scenario.otherRequest).sent
      = [JaegerOtlpFixer.UpstreamRequest.mk "localhost" (some 16686) "/api/traces/1" "PUT"
          [("host", .text "localhost:8080"), ("content-type", .text "text/plain"),
            ("content-length", .text "21")]
          [Scenario.brokenText.toUTF8]] ∧
      (JaegerOtlpFixer.handler Scenario.runtime Scenario.env Scenario.unreachable
        Scenario.otherRequest).response
        = some { statusCode := 500, headers := [],
                 body := ["Error forwarding request to Jaeger".toUTF8] } :=
  upstream_failure_answered_500 Scenario.runtime Scenario.env Scenario.unreachable
    Scenario.otherRequest _ (List.mem_singleton_self _) rfl

/-- C13: a request outside the route is sent upstream with the method, URL, headers and body
it was received with; what is done does not depend on `JSON.parse`, so the body is forwarded
whether it is JSON or not; and the status code, headers and body of the upstream response
are those the client receives. -/
theorem passthrough_is_verbatim (rt : Runtime) (env : JaegerOtlpFixer.Env)
    (upstream : JaegerOtlpFixer.UpstreamRequest → JaegerOtlpFixer.UpstreamResult)
    (req : JaegerOtlpFixer.IncomingMessage)
    (hroute : ¬ (req.method = "POST" ∧
      JaegerOtlpFixer.includes req.url "/api/transform" = true)) :
    ∃ proxyReq : JaegerOtlpFixer.UpstreamRequest,
      (JaegerOtlpFixer.handler rt env upstream req).sent = [proxyReq] ∧
      proxyReq.method = req.method ∧ proxyReq.path = req.url ∧
      proxyReq.headers
        = req.headers.map (fun header => (header.1, JaegerOtlpFixer.HeaderValue.text header.2)) ∧
      proxyReq.body = req.chunks ∧
      (∀ other : Runtime, other.parseInt = rt.parseInt →
        JaegerOtlpFixer.handler other env upstream req
          = JaegerOtlpFixer.handler rt env upstream req) ∧
      (∀ (statusCode : Nat) (headers : JaegerOtlpFixer.Headers) (body : List ByteArray),
        upstream proxyReq = .response statusCode headers body →
        (JaegerOtlpFixer.handler rt env upstream req).response
          = some { statusCode := statusCode, headers := headers, body := body }) := by
  refine ⟨{ hostname := JaegerOtlpFixer.jaegerHost env, port := JaegerOtlpFixer.jaegerPort rt env,
            path := req.url, method := req.method,
            headers := req.headers.map
              (fun header => (header.1, JaegerOtlpFixer.HeaderValue.text header.2)),
            body := req.chunks }, ?_, rfl, rfl, rfl, rfl, ?_, ?_⟩
  · rw [JaegerOtlpFixer.handler_passthrough rt env upstream req hroute]; rfl
  · intro other hother
    rw [JaegerOtlpFixer.handler_passthrough rt env upstream req hroute,
      JaegerOtlpFixer.handler_passthrough other env upstream req hroute]
    unfold JaegerOtlpFixer.passthroughBranch JaegerOtlpFixer.jaegerPort
    rw [hother]
  · intro statusCode headers body hresponse
    rw [JaegerOtlpFixer.handler_passthrough rt env upstream req hroute]
    unfold JaegerOtlpFixer.passthroughBranch
    simp only [hresponse, JaegerOtlpFixer.relay]

/-- Witness of C13: a `PUT` outside the route, with a body that is not JSON, answered 404 by
the upstream target. -/
theorem passthrough_is_verbatim_witness :
    ∃ proxyReq : JaegerOtlpFixer.UpstreamRequest,
      (JaegerOtlpFixer.handler Scenario.runtime Scenario.env Scenario.notFound
        Scenario.otherRequest).sent = [proxyReq] ∧
      proxyReq.method = Scenario.otherRequest.method ∧
      proxyReq.path = Scenario.otherRequest.url ∧
      proxyReq.headers = Scenario.otherRequest.headers.map
        (fun header => (header.1, JaegerOtlpFixer.HeaderValue.text header.2)) ∧
      proxyReq.body = Scenario.otherRequest.chunks ∧
      (∀ other : Runtime, other.parseInt = Scenario.runtime.parseInt →
        JaegerOtlpFixer.handler other Scenario.env Scenario.notFound Scenario.otherRequest
          = JaegerOtlpFixer.handler Scenario.runtime Scenario.env Scenario.notFound
              Scenario.otherRequest) ∧
      (∀ (statusCode : Nat) (headers : JaegerOtlpFixer.Headers) (body : List ByteArray),
        Scenario.notFound proxyReq = .response statusCode headers body →
        (JaegerOtlpFixer.handler Scenario.runtime Scenario.env Scenario.notFound
          Scenario.otherRequest).response
          = some { statusCode := statusCode, headers := headers, body := body }) :=
  passthrough_is_verbatim Scenario.runtime Scenario.env Scenario.notFound Scenario.otherRequest
    (by decide)

/-- Scenario E of the specification: the status code and body of the upstream response reach
the client of a request outside the route. -/
theorem scenario_E :
    (JaegerOtlpFixer.handler Scenario.runtime Scenario.env Scenario.notFound
        Scenario.otherRequest).response.map
        (fun response => (response.statusCode, response.headers,
          response.body.map ByteArray.data))
      = some (404, [("content-type", .text "text/plain")], ["Not Found".toUTF8.data]) := by
  decide

/-- Counterexample to C16 as stated: the path of the first request is `/api/traces`, the text
`/api/transform` standing in its query string, and the path of the second has the segment
`transformers`, not `transform`; neither path contains the segment, yet both requests take
the sanitizing branch.  A `POST` to `/api/transform` itself has the segment. -/
theorem query_and_longer_segment_are_sanitized :
    JaegerOtlpFixer.route ⟨"POST", "/api/traces?next=/api/transform", [], []⟩ = .sanitizing ∧
      JaegerOtlpFixer.pathOf "/api/traces?next=/api/transform" = "/api/traces".data ∧
      JaegerOtlpFixer.routeOfSpecification ⟨"POST", "/api/traces?next=/api/transform", [], []⟩
        = false ∧
      JaegerOtlpFixer.route ⟨"POST", "/api/transformers/list", [], []⟩ = .sanitizing ∧
      JaegerOtlpFixer.segmentsOf (JaegerOtlpFixer.pathOf "/api/transformers/list")
        = ["".data, "api".data, "transformers".data, "list".data] ∧
      JaegerOtlpFixer.routeOfSpecification ⟨"POST", "/api/transformers/list", [], []⟩
        = false ∧
      JaegerOtlpFixer.routeOfSpecification ⟨"POST", "/api/transform", [], []⟩ = true ∧
      JaegerOtlpFixer.routeOfSpecification ⟨"POST", "/jaeger/api/transform?x=1", [], []⟩
        = true := by
  decide

/-- C16, amended: a request takes the sanitizing branch exactly when its method is `POST` and
its request target, the path together with the query string, contains the text
`/api/transform` anywhere; every other request takes the passthrough branch; and the handler
does what the selected branch does. -/
theorem route_selects_branch (req : JaegerOtlpFixer.IncomingMessage) :
    (JaegerOtlpFixer.route req = .sanitizing ↔
        req.method = "POST" ∧
          ∃ before after : String, req.url = before ++ "/api/transform" ++ after) ∧
      (JaegerOtlpFixer.route req = .passthrough ↔
        ¬ (req.method = "POST" ∧
          ∃ before after : String, req.url = before ++ "/api/transform" ++ after)) ∧
      ∀ (rt : Runtime) (env : JaegerOtlpFixer.Env)
        (upstream : JaegerOtlpFixer.UpstreamRequest → JaegerOtlpFixer.UpstreamResult),
        JaegerOtlpFixer.handler rt env upstream req =
          match JaegerOtlpFixer.route req with
          | .sanitizing => JaegerOtlpFixer.sanitizingBranch rt env upstream req
          | .passthrough => JaegerOtlpFixer.passthroughBranch rt env upstream req := by
  have hmain : JaegerOtlpFixer.route req = .sanitizing ↔
      req.method = "POST" ∧
        ∃ before after : String, req.url = before ++ "/api/transform" ++ after := by
    rw [← JaegerOtlpFixer.includes_iff]
    unfold JaegerOtlpFixer.route
    by_cases h : req.method = "POST" ∧ JaegerOtlpFixer.includes req.url "/api/transform" = true
    · rw [if_pos h]; exact ⟨fun _ => h, fun _ => rfl⟩
    · rw [if_neg h]; exact ⟨fun hb => (by cases hb), fun hc => absurd hc h⟩
  refine ⟨hmain, ?_, fun rt env upstream => JaegerOtlpFixer.handler_eq_branches rt env upstream req⟩
  rw [← hmain]
  cases JaegerOtlpFixer.route req <;> simp

/-- Witness of C16: the text stands in the query string of a `POST`. -/
theorem route_selects_branch_witness :
    JaegerOtlpFixer.route ⟨"POST", "/api/traces?next=/api/transform", [], []⟩ = .sanitizing :=
  (route_selects_branch ⟨"POST", "/api/traces?next=/api/transform", [], []⟩).1.2
    ⟨rfl, "/api/traces?next=", "", rfl⟩

/-- Requests around the route: a `POST` to the endpoint, also with a prefix and a query, is
sanitized; a `GET` to the endpoint and a `POST` elsewhere pass through. -/
theorem route_examples :
    JaegerOtlpFixer.route ⟨"POST", "/api/transform", [], []⟩ = .sanitizing ∧
      JaegerOtlpFixer.route ⟨"POST", "/jaeger/api/transform?x=1", [], []⟩ = .sanitizing ∧
      JaegerOtlpFixer.route ⟨"GET", "/api/transform", [], []⟩ = .passthrough ∧
      JaegerOtlpFixer.route ⟨"POST", "/api/traces", [], []⟩ = .passthrough ∧
      JaegerOtlpFixer.route ⟨"post", "/api/transform", [], []⟩ = .passthrough := by
  decide

/-! ## The gateway: the headers a matched request keeps -/

namespace JaegerOtlpFixer

theorem setHeader_append_of_not_mem (first rest : Headers) (name : String) (value : HeaderValue)
    (hname : name ∉ first.map Prod.fst) :
    setHeader (first ++ rest) name value = first ++ setHeader rest name value := by
  induction first with
  | nil => rfl
  | cons entry others ih =>
    obtain ⟨name', value'⟩ := entry
    have hne : name' ≠ name := fun h => hname (by simp [h])
    have hothers : name ∉ others.map Prod.fst := fun h => hname (by simp at h ⊢; exact Or.inr h)
    show setHeader ((name', value') :: (others ++ rest)) name value
      = (name', value') :: (others ++ setHeader rest name value)
    rw [setHeader, if_neg hne, ih hothers]

theorem copyHeaders_append (first : Headers) :
    ∀ (headers : List (String × String)) (rest : Headers),
      (∀ header ∈ headers, header.1 ∉ first.map Prod.fst) →
      copyHeaders (first ++ rest) headers = first ++ copyHeaders rest headers
  | [], _, _ => rfl
  | header :: others, rest, hnot => by
    have hothers : ∀ h ∈ others, h.1 ∉ first.map Prod.fst :=
      fun h hh => hnot h (List.mem_cons_of_mem _ hh)
    rw [copyHeaders_cons, copyHeaders_cons]
    by_cases hc : header.1 ≠ "content-length" ∧ header.1 ≠ "host"
    · rw [if_pos hc, if_pos hc,
        setHeader_append_of_not_mem first rest _ _ (hnot header (List.mem_cons_self _ _))]
      exact copyHeaders_append first others _ hothers
    · rw [if_neg hc, if_neg hc]
      exact copyHeaders_append first others rest hothers

theorem mem_copyHeaders (entry : String × HeaderValue) :
    ∀ (headers : List (String × String)) (initial : Headers),
      entry ∈ copyHeaders initial headers →
      entry ∈ initial ∨
        ∃ header ∈ headers, entry = (header.1, HeaderValue.text header.2) ∧
          header.1 ≠ "content-length" ∧ header.1 ≠ "host"
  | [], _, h => Or.inl h
  | header :: others, initial, h => by
    rw [copyHeaders_cons] at h
    by_cases hc : header.1 ≠ "content-length" ∧ header.1 ≠ "host"
    · rw [if_pos hc] at h
      rcases mem_copyHeaders entry others _ h with h1 | ⟨h', hmem, heq⟩
      · rcases mem_setHeader _ _ _ _ h1 with h2 | h2
        · exact Or.inl h2
        · exact Or.inr ⟨header, List.mem_cons_self _ _, h2, hc⟩
      · exact Or.inr ⟨h', List.mem_cons_of_mem _ hmem, heq⟩
    · rw [if_neg hc] at h
      rcases mem_copyHeaders entry others _ h with h1 | ⟨h', hmem, heq⟩
      · exact Or.inl h1
      · exact Or.inr ⟨h', List.mem_cons_of_mem _ hmem, heq⟩

theorem value_unique_of_nodup_names :
    ∀ (headers : List (String × String)) (name value other : String),
      (headers.map Prod.fst).Nodup → (name, value) ∈ headers → (name, other) ∈ headers →
      other = value
  | [], _, _, _, _, h, _ => by cases h
  | header :: rest, name, value, other, hnodup, h1, h2 => by
    rw [List.map_cons, List.nodup_cons] at hnodup
    rcases List.mem_cons.1 h1 with e1 | e1
    · rcases List.mem_cons.1 h2 with e2 | e2
      · rw [← e1] at e2
        exact (Prod.mk.inj e2).2
      · exact absurd (List.mem_map.2 ⟨(name, other), e2, by rw [← e1]⟩) hnodup.1
    · rcases List.mem_cons.1 h2 with e2 | e2
      · exact absurd (List.mem_map.2 ⟨(name, value), e1, by rw [← e2]⟩) hnodup.1
      · exact value_unique_of_nodup_names rest name value other hnodup.2 e1 e2

theorem sentHeader_append (first rest : Headers) (name : String) (value : HeaderValue)
    (h : sentHeader rest name = some value) : sentHeader (first ++ rest) name = some value := by
  unfold sentHeader at h ⊢
  rw [List.filter_append, List.getLast?_append]
  cases hlast : (List.filter (fun header => decide (toLowerCase header.1 = toLowerCase name))
      rest).getLast? with
  | none => rw [hlast] at h; cases h
  | some entry => rw [hlast] at h; exact h

theorem lower_ne_content_headers (name : String) (hname : toLowerCase name = name) :
    name ∉ List.map Prod.fst
      [("Content-Type", HeaderValue.text "application/json"),
       ("Content-Length", HeaderValue.number 0)] := by
  intro h
  simp only [List.map_cons, List.map_nil, List.mem_cons, List.mem_singleton,
    List.not_mem_nil, or_false] at h
  rcases h with h | h
  · rw [h] at hname
    have hcase : toLowerCase "Content-Type" ≠ "Content-Type" := by decide
    exact hcase hname
  · rw [h] at hname
    have hcase : toLowerCase "Content-Length" ≠ "Content-Length" := by decide
    exact hcase hname

/-- With lower-case names in `req.headers`, the forwarded `options.headers` are the two
properties the handler sets followed by the copies of the client's headers. -/
theorem forwardedHeaders_eq_append (sanitizedBody : String) (headers : List (String × String))
    (hlower : ∀ header ∈ headers, toLowerCase header.1 = header.1) :
    forwardedHeaders sanitizedBody headers =
      [("Content-Type", HeaderValue.text "application/json"),
       ("Content-Length", HeaderValue.number sanitizedBody.utf8ByteSize)]
        ++ copyHeaders [] headers := by
  unfold forwardedHeaders
  have h := copyHeaders_append
    [("Content-Type", HeaderValue.text "application/json"),
     ("Content-Length", HeaderValue.number sanitizedBody.utf8ByteSize)] headers []
    (fun header hmem => lower_ne_content_headers header.1 (hlower header hmem))
  rw [List.append_nil] at h
  exact h

/-- A header of the client other than `content-length` and `host` goes on the wire with the
value the client gave it. -/
theorem sentHeader_forwardedHeaders (sanitizedBody : String) (headers : List (String × String))
    (name value : String)
    (hlower : ∀ header ∈ headers, toLowerCase header.1 = header.1)
    (hnodup : (headers.map Prod.fst).Nodup)
    (hmem : (name, value) ∈ headers)
    (hname : name ≠ "content-length" ∧ name ≠ "host") :
    sentHeader (forwardedHeaders sanitizedBody headers) name = some (.text value) := by
  rw [forwardedHeaders_eq_append sanitizedBody headers hlower]
  apply sentHeader_append
  refine sentHeader_of_only _ name (name, .text value)
    (copyHeaders_copies name value hname headers [] hnodup hmem) rfl ?_
  intro other hother hsame
  rcases mem_copyHeaders other headers [] hother with h | ⟨header, hheader, heq, _⟩
  · cases h
  · have h1 : toLowerCase header.1 = toLowerCase name := by rw [heq] at hsame; exact hsame
    rw [hlower header hheader, hlower (name, value) hmem] at h1
    have h2 : (name, header.2) ∈ headers := by
      have : header = (name, header.2) := Prod.ext h1 rfl
      rw [← this]; exact hheader
    rw [heq, value_unique_of_nodup_names headers name value header.2 hnodup hmem h2]
    exact Prod.ext h1 rfl

/-- No property of the forwarded `options.headers` is named `host`, in any case. -/
theorem forwardedHeaders_no_host (sanitizedBody : String) (headers : List (String × String))
    (hlower : ∀ header ∈ headers, toLowerCase header.1 = header.1) :
    ∀ entry ∈ forwardedHeaders sanitizedBody headers, toLowerCase entry.1 ≠ "host" := by
  intro entry hentry
  unfold forwardedHeaders at hentry
  rcases mem_copyHeaders entry headers _ hentry with h | ⟨header, hheader, heq, _, hhost⟩
  · rcases List.mem_cons.1 h with h | h
    · rw [h]
      have hcase : toLowerCase "Content-Type" ≠ "host" := by decide
      exact hcase
    · rw [List.mem_singleton.1 h]
      have hcase : toLowerCase "Content-Length" ≠ "host" := by decide
      exact hcase
  · rw [heq]
    show toLowerCase header.1 ≠ "host"
    rw [hlower header hheader]
    exact hhost

theorem sentHeader_eq_none (headers : Headers) (name : String)
    (h : ∀ entry ∈ headers, toLowerCase entry.1 ≠ toLowerCase name) :
    sentHeader headers name = none := by
  unfold sentHeader
  have hnil : headers.filter (fun header => toLowerCase header.1 = toLowerCase name) = [] :=
    List.filter_eq_nil_iff.2 (fun entry hentry hp => h entry hentry (of_decide_eq_true hp))
  rw [hnil]
  rfl

end JaegerOtlpFixer

/-- C14: for a matched request that is forwarded, every header of the received request other
than `host` and `content-length`, hence every header other than Host, Content-Length and
Content-Encoding, goes upstream with its original value; no header named `host` is among the
forwarded properties, so the client's Host value is not forwarded; and the method and URL are
those of the received request.  The names of `req.headers` are lower-case and distinct, as Node
delivers them. -/
theorem other_headers_are_forwarded (rt : Runtime) (env : JaegerOtlpFixer.Env)
    (upstream : JaegerOtlpFixer.UpstreamRequest → JaegerOtlpFixer.UpstreamResult)
    (req : JaegerOtlpFixer.IncomingMessage) (body : ByteArray) (data : Json)
    (name value : String)
    (hlower : ∀ header ∈ req.headers, toLowerCase header.1 = header.1)
    (hnodup : (req.headers.map Prod.fst).Nodup)
    (hroute : req.method = "POST" ∧ JaegerOtlpFixer.includes req.url "/api/transform" = true)
    (hbody : JaegerOtlpFixer.decompress rt (JaegerOtlpFixer.contentEncoding req.headers)
      (JaegerOtlpFixer.concat req.chunks) = some body)
    (hparse : rt.parse (rt.bufferToString body) = .ok data)
    (hheader : (name, value) ∈ req.headers)
    (hname : name ≠ "content-length" ∧ name ≠ "host") :
    ∃ proxyReq : JaegerOtlpFixer.UpstreamRequest,
      (JaegerOtlpFixer.handler rt env upstream req).sent = [proxyReq] ∧
      JaegerOtlpFixer.sentHeader proxyReq.headers name = some (.text value) ∧
      JaegerOtlpFixer.sentHeader proxyReq.headers "host" = none ∧
      (∀ entry ∈ proxyReq.headers, toLowerCase entry.1 ≠ "host") ∧
      proxyReq.method = req.method ∧ proxyReq.path = req.url := by
  have hhost := JaegerOtlpFixer.forwardedHeaders_no_host
    (rt.stringify (JaegerOtlpFixer.sanitizeData data)) req.headers hlower
  refine ⟨{ hostname := JaegerOtlpFixer.jaegerHost env, port := JaegerOtlpFixer.jaegerPort rt env,
            path := req.url, method := req.method,
            headers := JaegerOtlpFixer.forwardedHeaders
              (rt.stringify (JaegerOtlpFixer.sanitizeData data)) req.headers,
            body := [(rt.stringify (JaegerOtlpFixer.sanitizeData data)).toUTF8] },
    ?_, ?_, ?_, hhost, rfl, rfl⟩
  · rw [JaegerOtlpFixer.handler_matched rt env upstream req body data hroute hbody hparse]
  · exact JaegerOtlpFixer.sentHeader_forwardedHeaders _ req.headers name value hlower hnodup
      hheader hname
  · exact JaegerOtlpFixer.sentHeader_eq_none _ "host" hhost

/-- Witness of C14: the `content-type` of the request of Scenario D. -/
theorem other_headers_are_forwarded_witness :
    ∃ proxyReq : JaegerOtlpFixer.UpstreamRequest,
      (JaegerOtlpFixer.handler Scenario.runtime Scenario.env Scenario.upstream
        Scenario.gzipRequest).sent = [proxyReq] ∧
      JaegerOtlpFixer.sentHeader proxyReq.headers "content-type"
        = some (.text "application/json") ∧
      JaegerOtlpFixer.sentHeader proxyReq.headers "host" = none ∧
      (∀ entry ∈ proxyReq.headers, toLowerCase entry.1 ≠ "host") ∧
      proxyReq.method = Scenario.gzipRequest.method ∧
      proxyReq.path = Scenario.gzipRequest.url :=
  other_headers_are_forwarded Scenario.runtime Scenario.env Scenario.upstream
    Scenario.gzipRequest Scenario.inputText.toUTF8 Scenario.inputDocument "content-type"
    "application/json" (by decide) (by decide) (by decide) (by rfl) (by rfl) (by decide)
    (by decide)

/-- The headers that go upstream for a request with an `accept` header and its own
`content-type`: the client's values, no `host`. -/
theorem forwarded_headers_example :
    (JaegerOtlpFixer.handler Scenario.cleanRuntime Scenario.env Scenario.upstream
        ({ Scenario.cleanRequest with
            headers := [("host", "proxy:8080"), ("content-type", "text/json"),
              ("accept", "*/*"), ("content-length", "49")] })).sent.map
        (fun proxyReq =>
          (JaegerOtlpFixer.sentHeader proxyReq.headers "Content-Type",
            JaegerOtlpFixer.sentHeader proxyReq.headers "Accept",
            JaegerOtlpFixer.sentHeader proxyReq.headers "Host",
            JaegerOtlpFixer.sentHeader proxyReq.headers "Content-Length"))
      = [(some (.text "text/json"), some (.text "*/*"), none, some (.number 49))] := by
  decide

/-! ## Documents without a negative counter are left as they are -/

namespace FixOtlpTraces

theorem afterBody_of_clean (key : String) (value : Json)
    (hprop : (arrayIncludes UNSIGNED_INT_FIELDS key && value.isNegativeNumber) = false)
    (hvalue : sanitizeValue value = value) : afterBody key value = value := by
  unfold afterBody
  rw [hprop]
  exact hvalue

mutual
theorem sanitizeValue_of_clean : ∀ v : Json, hasNegativeField v = false → sanitizeValue v = v
  | .null, _ => rfl
  | .bool _, _ => rfl
  | .num _, _ => rfl
  | .str _, _ => rfl
  | .arr items, h => by
    rw [hasNegativeField] at h
    rw [sanitizeValue_arr, map_sanitizeValue_of_clean items h]
  | .obj props, h => by
    rw [hasNegativeField] at h
    rw [sanitizeValue_obj, map_afterBody_of_clean props h]
theorem map_sanitizeValue_of_clean :
    ∀ items : List Json, anyItemNegative items = false → items.map sanitizeValue = items
  | [], _ => rfl
  | item :: rest, h => by
    rw [anyItemNegative, Bool.or_eq_false_iff] at h
    rw [List.map_cons, sanitizeValue_of_clean item h.1, map_sanitizeValue_of_clean rest h.2]
theorem map_afterBody_of_clean :
    ∀ props : List (String × Json), anyPropNegative props = false →
      props.map (fun kv => (kv.1, afterBody kv.1 kv.2)) = props
  | [], _ => rfl
  | (key, value) :: rest, h => by
    rw [anyPropNegative, Bool.or_eq_false_iff, Bool.or_eq_false_iff] at h
    rw [List.map_cons, map_afterBody_of_clean rest h.2]
    show (key, afterBody key value) :: rest = (key, value) :: rest
    rw [afterBody_of_clean key value h.1.1 (sanitizeValue_of_clean value h.1.2)]
end

mutual
theorem hasNegativeField_sanitizeValue : ∀ v : Json, hasNegativeField (sanitizeValue v) = false
  | .null => rfl
  | .bool _ => rfl
  | .num _ => rfl
  | .str _ => rfl
  | .arr items => by
    rw [sanitizeValue_arr, hasNegativeField]
    exact anyItemNegative_map_sanitizeValue items
  | .obj props => by
    rw [sanitizeValue_obj, hasNegativeField]
    exact anyPropNegative_map_afterBody props
theorem anyItemNegative_map_sanitizeValue :
    ∀ items : List Json, anyItemNegative (items.map sanitizeValue) = false
  | [] => rfl
  | item :: rest => by
    rw [List.map_cons, anyItemNegative, hasNegativeField_sanitizeValue item,
      anyItemNegative_map_sanitizeValue rest]
    rfl
theorem anyPropNegative_map_afterBody :
    ∀ props : List (String × Json),
      anyPropNegative (props.map (fun kv => (kv.1, afterBody kv.1 kv.2))) = false
  | [] => rfl
  | (key, value) :: rest => by
    rw [List.map_cons]
    show anyPropNegative ((key, afterBody key value) :: _) = false
    rw [anyPropNegative, anyPropNegative_map_afterBody rest]
    by_cases hc : (arrayIncludes UNSIGNED_INT_FIELDS key && value.isNegativeNumber) = true
    · have h1 : afterBody key value = .num 0 := by unfold afterBody; rw [if_pos hc]
      rw [h1]
      simp [Json.isNegativeNumber, hasNegativeField]
    · have h1 : afterBody key value = sanitizeValue value := by
        unfold afterBody; rw [if_neg hc]
      rw [h1, isNegativeNumber_sanitizeValue, hasNegativeField_sanitizeValue value]
      simp only [Bool.not_eq_true] at hc
      rw [hc]
      rfl
end

end FixOtlpTraces

/-- Counterexample to C15 as stated: the body of this matched request is valid JSON and holds no
configured field with a negative number, its number being beyond the range of a double; the body
forwarded has `null` in the place of the number and so denotes another value. -/
theorem number_beyond_double_is_forwarded_as_null :
    Scenario.overflowRequest.method = "POST" ∧
      JaegerOtlpFixer.includes Scenario.overflowRequest.url "/api/transform" = true ∧
      Scenario.overflowRuntime.parse
          (Scenario.overflowRuntime.bufferToString
            (JaegerOtlpFixer.concat Scenario.overflowRequest.chunks))
        = .ok Scenario.overflowDocument ∧
      FixOtlpTraces.hasNegativeField Scenario.overflowDocument = false ∧
      (JaegerOtlpFixer.handler Scenario.overflowRuntime Scenario.env Scenario.upstream
          Scenario.overflowRequest).sent.map
          (fun proxyReq => proxyReq.body.map ByteArray.data)
        = [["\x7b\"n\":null\x7d".toUTF8.data]] ∧
      Scenario.overflowRuntime.parse "\x7b\"n\":null\x7d" = .ok (.obj [("n", .null)]) ∧
      Json.obj [("n", .null)] ≠ Scenario.overflowDocument :=
  ⟨rfl, by decide, rfl, by decide, by decide, rfl, by decide⟩

/-- C15, amended: for a matched request whose body parses as JSON and holds no configured field
with a negative number, sanitization leaves the document as it is and the text sent upstream is
`JSON.stringify` of the parsed document; it denotes the same value as the original body
whenever `JSON.parse` reads back the text `JSON.stringify` writes for that document. -/
theorem clean_body_is_forwarded_unchanged (rt : Runtime) (env : JaegerOtlpFixer.Env)
    (upstream : JaegerOtlpFixer.UpstreamRequest → JaegerOtlpFixer.UpstreamResult)
    (req : JaegerOtlpFixer.IncomingMessage) (body : ByteArray) (data : Json)
    (hroute : req.method = "POST" ∧ JaegerOtlpFixer.includes req.url "/api/transform" = true)
    (hbody : JaegerOtlpFixer.decompress rt (JaegerOtlpFixer.contentEncoding req.headers)
      (JaegerOtlpFixer.concat req.chunks) = some body)
    (hparse : rt.parse (rt.bufferToString body) = .ok data)
    (hclean : FixOtlpTraces.hasNegativeField data = false) :
    JaegerOtlpFixer.sanitizeData data = data ∧
      ∃ proxyReq : JaegerOtlpFixer.UpstreamRequest,
        (JaegerOtlpFixer.handler rt env upstream req).sent = [proxyReq] ∧
        proxyReq.body = [(rt.stringify data).toUTF8] ∧
        (rt.parse (rt.stringify data) = .ok data →
          ∃ text : String,
            proxyReq.body = [text.toUTF8] ∧
            text = rt.stringify data ∧
            rt.parse text = rt.parse (rt.bufferToString body)) := by
  have hid : JaegerOtlpFixer.sanitizeData data = data := by
    rw [JaegerOtlpFixer.sanitizeData_eq_sanitizeValue]
    exact FixOtlpTraces.sanitizeValue_of_clean data hclean
  refine ⟨hid, { hostname := JaegerOtlpFixer.jaegerHost env,
                 port := JaegerOtlpFixer.jaegerPort rt env,
                 path := req.url, method := req.method,
                 headers := JaegerOtlpFixer.forwardedHeaders
                   (rt.stringify (JaegerOtlpFixer.sanitizeData data)) req.headers,
                 body := [(rt.stringify (JaegerOtlpFixer.sanitizeData data)).toUTF8] },
    ?_, ?_, ?_⟩
  · rw [JaegerOtlpFixer.handler_matched rt env upstream req body data hroute hbody hparse]
  · rw [hid]
  · intro hround
    refine ⟨rt.stringify data, ?_, rfl, ?_⟩
    · rw [hid]
    · rw [hround, hparse]

/-- Witness of C15: a request whose body is the already repaired document of Scenario B. -/
theorem clean_body_is_forwarded_unchanged_witness :
    JaegerOtlpFixer.sanitizeData Scenario.outputDocument = Scenario.outputDocument ∧
      ∃ proxyReq : JaegerOtlpFixer.UpstreamRequest,
        (JaegerOtlpFixer.handler Scenario.cleanRuntime Scenario.env Scenario.upstream
          Scenario.cleanRequest).sent = [proxyReq] ∧
        proxyReq.body = [(Scenario.cleanRuntime.stringify Scenario.outputDocument).toUTF8] ∧
        (Scenario.cleanRuntime.parse (Scenario.cleanRuntime.stringify Scenario.outputDocument)
            = .ok Scenario.outputDocument →
          ∃ text : String,
            proxyReq.body = [text.toUTF8] ∧
            text = Scenario.cleanRuntime.stringify Scenario.outputDocument ∧
            Scenario.cleanRuntime.parse text
              = Scenario.cleanRuntime.parse (Scenario.cleanRuntime.bufferToString
                  (JaegerOtlpFixer.concat Scenario.cleanRequest.chunks))) :=
  clean_body_is_forwarded_unchanged Scenario.cleanRuntime Scenario.env Scenario.upstream
    Scenario.cleanRequest (JaegerOtlpFixer.concat Scenario.cleanRequest.chunks)
    Scenario.outputDocument (by decide) (by rfl) (by rfl) (by decide)

/-- The repaired document of Scenario B is read back from the text written for it, and the
body forwarded for it parses to the document of the original body. -/
theorem clean_body_example :
    Scenario.cleanRuntime.parse (Scenario.cleanRuntime.stringify Scenario.outputDocument)
        = .ok Scenario.outputDocument ∧
      (JaegerOtlpFixer.handler Scenario.cleanRuntime Scenario.env Scenario.upstream
          Scenario.cleanRequest).sent.map
          (fun proxyReq => proxyReq.body.map ByteArray.data)
        = [[Scenario.outputText.toUTF8.data]] :=
  ⟨rfl, by decide⟩

/-! ## The batch tool on line-delimited input -/

namespace FixOtlpTraces

theorem parseLines_ok_iff (rt : Runtime) :
    ∀ (lines : List (List Char)) (values : List Json),
      parseLines rt lines = .ok values ↔
        List.Forall₂ (fun line value => rt.parse (String.mk line) = .ok value) lines values
  | [], values => by
    rw [parseLines]
    constructor
    · intro h
      cases h
      exact List.Forall₂.nil
    · intro h
      cases h
      rfl
  | line :: rest, values => by
    rw [parseLines]
    cases hp : rt.parse (String.mk line) with
    | error message =>
      constructor
      · intro h; cases h
      · intro h
        cases h with
        | cons h1 _ => rw [hp] at h1; cases h1
    | ok value =>
      cases hrest : parseLines rt rest with
      | error message =>
        constructor
        · intro h; cases h
        · intro h
          cases h with
          | cons h1 h2 =>
            rw [← parseLines_ok_iff rt rest, hrest] at h2
            cases h2
      | ok others =>
        constructor
        · intro h
          cases h
          exact List.Forall₂.cons hp ((parseLines_ok_iff rt rest others).1 hrest)
        · intro h
          cases h with
          | cons h1 h2 =>
            rw [hp] at h1
            cases h1
            rw [← parseLines_ok_iff rt rest, hrest] at h2
            cases h2
            rfl

theorem parseLines_error_of_bad_line (rt : Runtime) :
    ∀ (lines : List (List Char)) (line : List Char) (message : String),
      line ∈ lines → rt.parse (String.mk line) = .error message →
      ∃ failure : String, parseLines rt lines = .error failure
  | [], _, _, hmem, _ => by cases hmem
  | first :: rest, line, message, hmem, hbad => by
    rw [parseLines]
    cases hp : rt.parse (String.mk first) with
    | error failure => exact ⟨failure, rfl⟩
    | ok value =>
      have hrest : line ∈ rest := by
        rcases List.mem_cons.1 hmem with h | h
        · rw [h, hp] at hbad; cases hbad
        · exact h
      obtain ⟨failure, hfailure⟩ := parseLines_error_of_bad_line rt rest line message hrest hbad
      exact ⟨failure, by simp only [hfailure]⟩

theorem dropWhile_append_of_all (p : Char → Bool) :
    ∀ (before rest : List Char), (∀ c ∈ before, p c = true) →
      (before ++ rest).dropWhile p = rest.dropWhile p
  | [], _, _ => rfl
  | c :: before, rest, h => by
    rw [List.cons_append, List.dropWhile_cons, if_pos (h c (List.mem_cons_self _ _))]
    exact dropWhile_append_of_all p before rest (fun d hd => h d (List.mem_cons_of_mem _ hd))

theorem dropWhile_eq_nil_of_all (p : Char → Bool) (cs : List Char)
    (h : ∀ c ∈ cs, p c = true) : cs.dropWhile p = [] := by
  have := dropWhile_append_of_all p cs [] h
  rw [List.append_nil] at this
  exact this

/-- Whitespace around a text, empty lines included, does not survive `trim`. -/
theorem trim_surrounded (before cs after : List Char)
    (hbefore : ∀ c ∈ before, isTrimmed c = true) (hafter : ∀ c ∈ after, isTrimmed c = true) :
    trim (before ++ cs ++ after) = trim cs := by
  unfold trim
  rw [List.append_assoc, dropWhile_append_of_all isTrimmed before _ hbefore,
    List.dropWhile_append]
  by_cases hempty : (List.dropWhile isTrimmed cs).isEmpty = true
  · rw [if_pos hempty, dropWhile_eq_nil_of_all isTrimmed after hafter]
    have hnil : List.dropWhile isTrimmed cs = [] := List.isEmpty_iff.1 hempty
    rw [hnil]
  · rw [if_neg hempty, List.reverse_append,
      dropWhile_append_of_all isTrimmed after.reverse _
        (fun c hc => hafter c (List.mem_reverse.1 hc))]

theorem processFile_of_parseTraces (rt : Runtime) (fs : FileSystem)
    (inputPath outputPath data : String) (traces : Json)
    (hread : fs.readFileSync inputPath = some data)
    (hparse : parseTraces rt data = .ok traces)
    (hwrite : fs.writable outputPath = true) :
    processFile rt fs inputPath outputPath =
      { written := [(outputPath, rt.stringifyIndent (sanitizeTraces traces))], exitCode := 0 } := by
  simp only [processFile, hread, hparse, hwrite, if_true]

theorem processFile_of_parse_failure (rt : Runtime) (fs : FileSystem)
    (inputPath outputPath data message : String)
    (hread : fs.readFileSync inputPath = some data)
    (hparse : parseTraces rt data = .error message) :
    processFile rt fs inputPath outputPath = { written := [], exitCode := 1 } := by
  simp only [processFile, hread, hparse]

end FixOtlpTraces

/-- Counterexample to C17 as stated: the text of `gap.jsonl` is not one JSON value, its two
non-empty lines are valid JSON, and there is an empty line between them; `processFile` hands the
empty line to `JSON.parse`, which throws, so the run ends with status 1 and writes nothing. -/
theorem interior_empty_line_fails :
    (Scenario.linesFileSystem.readFileSync "gap.jsonl"
        = some (Scenario.firstLine ++ "\n\n" ++ Scenario.secondLine)) ∧
      (Scenario.linesRuntime.parse (Scenario.firstLine ++ "\n\n" ++ Scenario.secondLine)).toOption
        = none ∧
      ((FixOtlpTraces.split (Scenario.firstLine ++ "\n\n" ++ Scenario.secondLine).data).filter
          (fun line => decide (line ≠ []))).map
          (fun line => (Scenario.linesRuntime.parse (String.mk line)).toOption)
        = [some (.obj [("droppedLinksCount", .num (-1))]),
           some (.obj [("droppedLinksCount", .num 2)])] ∧
      (FixOtlpTraces.processFile Scenario.linesRuntime Scenario.linesFileSystem "gap.jsonl"
        "out.json").written = [] ∧
      (FixOtlpTraces.processFile Scenario.linesRuntime Scenario.linesFileSystem "gap.jsonl"
        "out.json").exitCode = 1 := by
  decide

/-- C17, amended: for an input text that is not one valid JSON value, `processFile` trims
whitespace from both ends of the text, which removes the empty lines at its start and end, and
splits it at line feeds; when every resulting line is a valid JSON value it succeeds and writes
the array of the sanitized per-line documents, in line order. -/
theorem processFile_line_delimited (rt : Runtime) (fs : FixOtlpTraces.FileSystem)
    (inputPath outputPath data message : String) (values : List Json)
    (hread : fs.readFileSync inputPath = some data)
    (hnot : rt.parse data = .error message)
    (hlines : List.Forall₂ (fun line value => rt.parse (String.mk line) = .ok value)
      (FixOtlpTraces.split (FixOtlpTraces.trim data.data)) values)
    (hwrite : fs.writable outputPath = true) :
    FixOtlpTraces.processFile rt fs inputPath outputPath =
        { written := [(outputPath,
            rt.stringifyIndent (.arr (values.map FixOtlpTraces.sanitizeValue)))],
          exitCode := 0 } ∧
      ∀ before after : List Char,
        (∀ c ∈ before, FixOtlpTraces.isTrimmed c = true) →
        (∀ c ∈ after, FixOtlpTraces.isTrimmed c = true) →
        FixOtlpTraces.split (FixOtlpTraces.trim (before ++ data.data ++ after))
          = FixOtlpTraces.split (FixOtlpTraces.trim data.data) := by
  constructor
  · have hparse : FixOtlpTraces.parseTraces rt data = .ok (.arr values) := by
      unfold FixOtlpTraces.parseTraces
      rw [hnot]
      simp only [(FixOtlpTraces.parseLines_ok_iff rt _ values).2 hlines]
    rw [FixOtlpTraces.processFile_of_parseTraces rt fs inputPath outputPath data _ hread hparse
      hwrite]
    rfl
  · intro before after hbefore hafter
    rw [FixOtlpTraces.trim_surrounded before data.data after hbefore hafter]

/-- Witness of C17 as amended: `lines.jsonl`, two lines each ended by a line feed. -/
theorem processFile_line_delimited_witness :
    FixOtlpTraces.processFile Scenario.linesRuntime Scenario.linesFileSystem "lines.jsonl"
        "out.json" =
        { written := [("out.json",
            Scenario.linesRuntime.stringifyIndent
              (.arr ([.obj [("droppedLinksCount", .num (-1))],
                .obj [("droppedLinksCount", .num 2)]].map FixOtlpTraces.sanitizeValue)))],
          exitCode := 0 } ∧
      ∀ before after : List Char,
        (∀ c ∈ before, FixOtlpTraces.isTrimmed c = true) →
        (∀ c ∈ after, FixOtlpTraces.isTrimmed c = true) →
        FixOtlpTraces.split (FixOtlpTraces.trim
            (before ++ (Scenario.firstLine ++ "\n" ++ Scenario.secondLine ++ "\n").data ++ after))
          = FixOtlpTraces.split (FixOtlpTraces.trim
              (Scenario.firstLine ++ "\n" ++ Scenario.secondLine ++ "\n").data) :=
  processFile_line_delimited Scenario.linesRuntime Scenario.linesFileSystem "lines.jsonl"
    "out.json" (Scenario.firstLine ++ "\n" ++ Scenario.secondLine ++ "\n")
    "Unexpected end of JSON input"
    [.obj [("droppedLinksCount", .num (-1))], .obj [("droppedLinksCount", .num 2)]]
    (by decide) (by rfl) (List.Forall₂.cons rfl (List.Forall₂.cons rfl List.Forall₂.nil))
    (by decide)

/-- The line-delimited form of Scenario B: the file written holds the repaired array. -/
theorem line_delimited_example :
    (FixOtlpTraces.processFile Scenario.linesRuntime Scenario.linesFileSystem "lines.jsonl"
        "out.json").written = [("out.json", Scenario.outputTextIndent)] ∧
      (FixOtlpTraces.processFile Scenario.linesRuntime Scenario.linesFileSystem "lines.jsonl"
        "out.json").exitCode = 0 := by
  decide

/-- Counterexample to C18 as stated: the text of `bom.jsonl` is line-delimited, not one JSON
value, and its first line, which starts with a byte order mark, is a non-empty line that is not
valid JSON; `trim` removes the mark, every remaining line parses, and `processFile` succeeds and
writes the output. -/
theorem byte_order_mark_line_succeeds :
    (Scenario.linesFileSystem.readFileSync "bom.jsonl"
        = some ("\uFEFF" ++ Scenario.firstLine ++ "\n" ++ Scenario.secondLine)) ∧
      (Scenario.linesRuntime.parse
          ("\uFEFF" ++ Scenario.firstLine ++ "\n" ++ Scenario.secondLine)).toOption = none ∧
      ("\uFEFF" ++ Scenario.firstLine).data
          ∈ FixOtlpTraces.split ("\uFEFF" ++ Scenario.firstLine ++ "\n" ++ Scenario.secondLine).data ∧
      ("\uFEFF" ++ Scenario.firstLine).data ≠ [] ∧
      (Scenario.linesRuntime.parse ("\uFEFF" ++ Scenario.firstLine)).toOption = none ∧
      (FixOtlpTraces.processFile Scenario.linesRuntime Scenario.linesFileSystem "bom.jsonl"
        "out.json").written = [("out.json", Scenario.outputTextIndent)] ∧
      (FixOtlpTraces.processFile Scenario.linesRuntime Scenario.linesFileSystem "bom.jsonl"
        "out.json").exitCode = 0 := by
  decide

/-- C18, amended: for an input that is not one valid JSON document and in which at least one
line of the text, taken after whitespace has been trimmed from both ends of the text, is not
valid JSON, `processFile` fails for the whole run: it ends with status 1 and performs no write,
so an existing output file is left as it was. -/
theorem processFile_bad_line_fails (rt : Runtime) (fs : FixOtlpTraces.FileSystem)
    (inputPath outputPath data message : String) (line : List Char) (failure : String)
    (hread : fs.readFileSync inputPath = some data)
    (hnot : rt.parse data = .error message)
    (hline : line ∈ FixOtlpTraces.split (FixOtlpTraces.trim data.data))
    (hbad : rt.parse (String.mk line) = .error failure) :
    FixOtlpTraces.processFile rt fs inputPath outputPath = { written := [], exitCode := 1 } := by
  obtain ⟨reason, hreason⟩ :=
    FixOtlpTraces.parseLines_error_of_bad_line rt _ line failure hline hbad
  have hparse : FixOtlpTraces.parseTraces rt data = .error reason := by
    unfold FixOtlpTraces.parseTraces
    rw [hnot]
    simp only [hreason]
  exact FixOtlpTraces.processFile_of_parse_failure rt fs inputPath outputPath data reason hread
    hparse

/-- Witness of C18 as amended: Scenario C, `bad.jsonl`, three lines of which the second is
truncated. -/
theorem processFile_bad_line_fails_witness :
    FixOtlpTraces.processFile Scenario.linesRuntime Scenario.linesFileSystem "bad.jsonl"
      "out.json" = { written := [], exitCode := 1 } :=
  processFile_bad_line_fails Scenario.linesRuntime Scenario.linesFileSystem "bad.jsonl"
    "out.json" (Scenario.firstLine ++ "\n" ++ Scenario.brokenText ++ "\n" ++ Scenario.secondLine)
    "Unexpected end of JSON input" Scenario.brokenText.data "Unexpected end of JSON input"
    (by decide) (by rfl) (by decide) (by rfl)

/-! ## The exit status of the batch tool -/

namespace FixOtlpTraces

theorem parseTraces_ok_iff (rt : Runtime) (data : String) (traces : Json) :
    parseTraces rt data = .ok traces ↔
      rt.parse data = .ok traces ∨
        ∃ (message : String) (values : List Json),
          rt.parse data = .error message ∧
          parseLines rt (split (trim data.data)) = .ok values ∧ traces = .arr values := by
  unfold parseTraces
  cases hp : rt.parse data with
  | ok value =>
    constructor
    · intro h
      cases h
      exact Or.inl rfl
    · rintro (h | ⟨message, values, h, _⟩)
      · cases h; rfl
      · cases h
  | error message =>
    cases hl : parseLines rt (split (trim data.data)) with
    | ok values =>
      constructor
      · intro h
        cases h
        exact Or.inr ⟨message, values, rfl, rfl, rfl⟩
      · rintro (h | ⟨_, others, _, h2, h3⟩)
        · cases h
        · cases h2
          rw [h3]
    | error failure =>
      constructor
      · intro h; cases h
      · rintro (h | ⟨_, others, _, h2, _⟩)
        · cases h
        · cases h2

theorem parseTraces_isOk_iff (rt : Runtime) (data : String) :
    (∃ traces, parseTraces rt data = .ok traces) ↔
      (∃ traces, rt.parse data = .ok traces) ∨
        ∃ values, parseLines rt (split (trim data.data)) = .ok values := by
  unfold parseTraces
  cases hp : rt.parse data with
  | ok value => simp
  | error message =>
    cases hl : parseLines rt (split (trim data.data)) with
    | ok values => simp
    | error failure => simp

theorem processFile_exitCode_eq_zero_iff (rt : Runtime) (fs : FileSystem)
    (inputPath outputPath : String) :
    (processFile rt fs inputPath outputPath).exitCode = 0 ↔
      ∃ data : String,
        fs.readFileSync inputPath = some data ∧ (∃ traces, parseTraces rt data = .ok traces) ∧
        fs.writable outputPath = true := by
  cases hr : fs.readFileSync inputPath with
  | none => simp [processFile, hr]
  | some data =>
    cases hp : parseTraces rt data with
    | error message => simp [processFile, hr, hp]
    | ok traces =>
      cases hw : fs.writable outputPath with
      | false => simp [processFile, hr, hp, hw]
      | true => simp [processFile, hr, hp, hw]

theorem processFile_of_unwritable (rt : Runtime) (fs : FileSystem)
    (inputPath outputPath : String) (hwrite : fs.writable outputPath = false) :
    processFile rt fs inputPath outputPath = { written := [], exitCode := 1 } := by
  cases hr : fs.readFileSync inputPath with
  | none => simp [processFile, hr]
  | some data =>
    cases hp : parseTraces rt data with
    | error message => simp [processFile, hr, hp]
    | ok traces => simp [processFile, hr, hp, hwrite]

theorem processFile_of_unreadable (rt : Runtime) (fs : FileSystem)
    (inputPath outputPath : String) (hread : fs.readFileSync inputPath = none) :
    processFile rt fs inputPath outputPath = { written := [], exitCode := 1 } := by
  simp only [processFile, hread]

theorem parseTraces_of_failures (rt : Runtime) (data message failure : String)
    (hparse : rt.parse data = .error message)
    (hlines : parseLines rt (split (trim data.data)) = .error failure) :
    parseTraces rt data = .error failure := by
  simp only [parseTraces, hparse, hlines]

theorem processFile_exitCode_cases (rt : Runtime) (fs : FileSystem)
    (inputPath outputPath : String) :
    (processFile rt fs inputPath outputPath).exitCode = 0 ∨
      ((processFile rt fs inputPath outputPath).exitCode = 1 ∧
        (processFile rt fs inputPath outputPath).written = []) := by
  cases hr : fs.readFileSync inputPath with
  | none => simp [processFile, hr]
  | some data =>
    cases hp : parseTraces rt data with
    | error message => simp [processFile, hr, hp]
    | ok traces =>
      cases hw : fs.writable outputPath with
      | false => simp [processFile, hr, hp, hw]
      | true => simp [processFile, hr, hp, hw]

theorem main_of_paths (rt : Runtime) (fs : FileSystem) (node script inputPath outputPath : String)
    (rest : List String) :
    main rt fs (node :: script :: inputPath :: outputPath :: rest)
      = processFile rt fs inputPath outputPath := rfl

theorem main_of_short (rt : Runtime) (fs : FileSystem) (argv : List String)
    (h : argv.length < 4) : main rt fs argv = { written := [], exitCode := 1 } := by
  match argv, h with
  | [], _ => rfl
  | [_], _ => rfl
  | [_, _], _ => rfl
  | [_, _, _], _ => rfl
  | _ :: _ :: _ :: _ :: _, h => simp at h; omega

end FixOtlpTraces

/-- C19: the batch tool ends with status 0 exactly when two path arguments were given, the
input file is read, its content parses, as one JSON document or line by line, and the output
can be written; it then has written the sanitized traces to the output path and nothing else.
When the input cannot be read, the content parses neither way, or the output cannot be written,
it ends with status 1 and has written nothing; any status other than 0 is 1; with fewer than two
path arguments it ends with status 1 whatever the file system holds, touching no file. -/
theorem main_exit_status (rt : Runtime) (fs : FixOtlpTraces.FileSystem) (argv : List String) :
    ((FixOtlpTraces.main rt fs argv).exitCode = 0 ↔
        ∃ (node script inputPath outputPath : String) (rest : List String) (data : String),
          argv = node :: script :: inputPath :: outputPath :: rest ∧
          fs.readFileSync inputPath = some data ∧
          ((∃ traces, rt.parse data = .ok traces) ∨
            ∃ values,
              FixOtlpTraces.parseLines rt (FixOtlpTraces.split (FixOtlpTraces.trim data.data))
                = .ok values) ∧
          fs.writable outputPath = true) ∧
      (∀ (node script inputPath outputPath : String) (rest : List String) (data : String)
        (traces : Json),
        argv = node :: script :: inputPath :: outputPath :: rest →
        fs.readFileSync inputPath = some data →
        (rt.parse data = .ok traces ∨
          ∃ (message : String) (values : List Json),
            rt.parse data = .error message ∧
            FixOtlpTraces.parseLines rt (FixOtlpTraces.split (FixOtlpTraces.trim data.data))
              = .ok values ∧
            traces = .arr values) →
        fs.writable outputPath = true →
        FixOtlpTraces.main rt fs argv
          = { written := [(outputPath, rt.stringifyIndent (FixOtlpTraces.sanitizeTraces traces))],
              exitCode := 0 }) ∧
      (∀ (node script inputPath outputPath : String) (rest : List String),
        argv = node :: script :: inputPath :: outputPath :: rest →
        (fs.readFileSync inputPath = none ∨
          (∃ data message failure, fs.readFileSync inputPath = some data ∧
            rt.parse data = .error message ∧
            FixOtlpTraces.parseLines rt (FixOtlpTraces.split (FixOtlpTraces.trim data.data))
              = .error failure) ∨
          fs.writable outputPath = false) →
        FixOtlpTraces.main rt fs argv = { written := [], exitCode := 1 }) ∧
      ((FixOtlpTraces.main rt fs argv).exitCode ≠ 0 →
        (FixOtlpTraces.main rt fs argv).exitCode = 1 ∧
          (FixOtlpTraces.main rt fs argv).written = []) ∧
      (argv.length < 4 →
        ∀ other : FixOtlpTraces.FileSystem,
          FixOtlpTraces.main rt other argv = { written := [], exitCode := 1 }) := by
  refine ⟨?_, ?_, ?_, ?_, fun hshort other => FixOtlpTraces.main_of_short rt other argv hshort⟩
  · constructor
    · intro hzero
      match argv, hzero with
      | [], h => exact absurd h Nat.one_ne_zero
      | [_], h => exact absurd h Nat.one_ne_zero
      | [_, _], h => exact absurd h Nat.one_ne_zero
      | [_, _, _], h => exact absurd h Nat.one_ne_zero
      | node :: script :: inputPath :: outputPath :: rest, h =>
        rw [FixOtlpTraces.main_of_paths] at h
        obtain ⟨data, hread, hparse, hwrite⟩ :=
          (FixOtlpTraces.processFile_exitCode_eq_zero_iff rt fs inputPath outputPath).1 h
        exact ⟨node, script, inputPath, outputPath, rest, data, rfl, hread,
          (FixOtlpTraces.parseTraces_isOk_iff rt data).1 hparse, hwrite⟩
    · rintro ⟨node, script, inputPath, outputPath, rest, data, hargv, hread, hparse, hwrite⟩
      rw [hargv, FixOtlpTraces.main_of_paths]
      exact (FixOtlpTraces.processFile_exitCode_eq_zero_iff rt fs inputPath outputPath).2
        ⟨data, hread, (FixOtlpTraces.parseTraces_isOk_iff rt data).2 hparse, hwrite⟩
  · intro node script inputPath outputPath rest data traces hargv hread hparse hwrite
    rw [hargv, FixOtlpTraces.main_of_paths]
    exact FixOtlpTraces.processFile_of_parseTraces rt fs inputPath outputPath data traces hread
      ((FixOtlpTraces.parseTraces_ok_iff rt data traces).2 hparse) hwrite
  · intro node script inputPath outputPath rest hargv hfails
    rw [hargv, FixOtlpTraces.main_of_paths]
    rcases hfails with hread | ⟨data, message, failure, hread, hparse, hlines⟩ | hwrite
    · exact FixOtlpTraces.processFile_of_unreadable rt fs inputPath outputPath hread
    · exact FixOtlpTraces.processFile_of_parse_failure rt fs inputPath outputPath data failure
        hread (FixOtlpTraces.parseTraces_of_failures rt data message failure hparse hlines)
    · exact FixOtlpTraces.processFile_of_unwritable rt fs inputPath outputPath hwrite
  · intro hne
    match argv, hne with
    | [], _ => exact ⟨rfl, rfl⟩
    | [_], _ => exact ⟨rfl, rfl⟩
    | [_, _], _ => exact ⟨rfl, rfl⟩
    | [_, _, _], _ => exact ⟨rfl, rfl⟩
    | node :: script :: inputPath :: outputPath :: rest, h =>
      rw [FixOtlpTraces.main_of_paths] at h ⊢
      rcases FixOtlpTraces.processFile_exitCode_cases rt fs inputPath outputPath with h0 | h1
      · exact absurd h0 h
      · exact h1

/-- Witness of C19: the two lines of `lines.jsonl` are read, parsed line by line, sanitized and
written, and the run ends with status 0; with one path argument only the run ends with status 1
and writes nothing. -/
theorem main_exit_status_witness :
    FixOtlpTraces.main Scenario.linesRuntime Scenario.linesFileSystem
        ["node", "fix-otlp-traces.js", "lines.jsonl", "out.json"]
        = { written := [("out.json", Scenario.outputTextIndent)], exitCode := 0 } ∧
      FixOtlpTraces.main Scenario.linesRuntime Scenario.linesFileSystem
        ["node", "fix-otlp-traces.js", "lines.jsonl"] = { written := [], exitCode := 1 } :=
  ⟨(main_exit_status Scenario.linesRuntime Scenario.linesFileSystem
      ["node", "fix-otlp-traces.js", "lines.jsonl", "out.json"]).2.1
      "node" "fix-otlp-traces.js" "lines.jsonl" "out.json" []
      (Scenario.firstLine ++ "\n" ++ Scenario.secondLine ++ "\n")
      (.arr [.obj [("droppedLinksCount", .num (-1))], .obj [("droppedLinksCount", .num 2)]])
      rfl rfl (Or.inr ⟨"Unexpected end of JSON input", _, rfl, rfl, rfl⟩) rfl,
    (main_exit_status Scenario.linesRuntime Scenario.linesFileSystem
      ["node", "fix-otlp-traces.js", "lines.jsonl"]).2.2.2.2 (by decide)
      Scenario.linesFileSystem⟩

/-- Runs of the batch tool: a good file, a missing file, a file with a truncated line, an
output that cannot be written, and a missing argument. -/
theorem main_examples :
    (FixOtlpTraces.main Scenario.linesRuntime Scenario.linesFileSystem
        ["node", "fix-otlp-traces.js", "lines.jsonl", "out.json"]).exitCode = 0 ∧
      (FixOtlpTraces.main Scenario.linesRuntime Scenario.linesFileSystem
        ["node", "fix-otlp-traces.js", "missing.json", "out.json"]).exitCode = 1 ∧
      (FixOtlpTraces.main Scenario.linesRuntime Scenario.linesFileSystem
        ["node", "fix-otlp-traces.js", "bad.jsonl", "out.json"]).exitCode = 1 ∧
      (FixOtlpTraces.main Scenario.linesRuntime Scenario.linesFileSystem
        ["node", "fix-otlp-traces.js", "lines.jsonl", "locked.json"]).exitCode = 1 ∧
      (FixOtlpTraces.main Scenario.linesRuntime Scenario.linesFileSystem
        ["node", "fix-otlp-traces.js", "lines.jsonl", "locked.json"]).written = [] ∧
      (FixOtlpTraces.main Scenario.linesRuntime Scenario.linesFileSystem
        ["node", "fix-otlp-traces.js", "lines.jsonl"]).exitCode = 1 := by
  decide

/-! ## Sanitization keeps the shape of a document -/

namespace FixOtlpTraces

theorem afterBody_kind (key : String) (value : Json) :
    (afterBody key value).kind = value.kind := by
  unfold afterBody
  split
  · rename_i h
    cases value <;> simp_all [Json.isNegativeNumber, Json.kind]
  · exact sanitizeValue_kind value

theorem afterStep_kind (s : Step) (value : Json) : (afterStep s value).kind = value.kind := by
  cases s with
  | key k => exact afterBody_kind k value
  | index i => exact sanitizeValue_kind value

mutual
theorem onlyCountersRepaired_sanitizeValue :
    ∀ v : Json, onlyCountersRepaired v (sanitizeValue v) = true
  | .null => rfl
  | .bool _ => by simp [sanitizeValue, onlyCountersRepaired]
  | .num _ => by simp [sanitizeValue, onlyCountersRepaired]
  | .str _ => by simp [sanitizeValue, onlyCountersRepaired]
  | .arr items => by
    rw [sanitizeValue_arr, onlyCountersRepaired]
    exact itemsRepaired_map items
  | .obj props => by
    rw [sanitizeValue_obj, onlyCountersRepaired]
    exact propsRepaired_map props
theorem itemsRepaired_map :
    ∀ items : List Json, itemsRepaired items (items.map sanitizeValue) = true
  | [] => rfl
  | item :: rest => by
    rw [List.map_cons, itemsRepaired, onlyCountersRepaired_sanitizeValue item,
      itemsRepaired_map rest]
    rfl
theorem propsRepaired_map :
    ∀ props : List (String × Json),
      propsRepaired props (props.map (fun kv => (kv.1, afterBody kv.1 kv.2))) = true
  | [] => rfl
  | (key, value) :: rest => by
    rw [List.map_cons]
    show propsRepaired ((key, value) :: rest) ((key, afterBody key value) :: _) = true
    rw [propsRepaired, propsRepaired_map rest]
    by_cases hc : (arrayIncludes UNSIGNED_INT_FIELDS key && value.isNegativeNumber) = true
    · have h1 : afterBody key value = .num 0 := by unfold afterBody; rw [if_pos hc]
      rw [h1, hc]
      simp
    · have h1 : afterBody key value = sanitizeValue value := by
        unfold afterBody; rw [if_neg hc]
      rw [h1, onlyCountersRepaired_sanitizeValue value]
      simp
end

/-- The kind of the value at a position, and whether the position exists, is the same before
and after `sanitizeValue`. -/
theorem kind_getPath_sanitizeValue (D : Json) (p : List Step) :
    ((sanitizeValue D).getPath p).map Json.kind = (D.getPath p).map Json.kind := by
  rcases List.eq_nil_or_concat p with h | ⟨q, s, h⟩
  · subst h
    simp [Json.getPath, sanitizeValue_kind]
  · subst h
    rw [List.concat_eq_append, getPath_sanitizeValue]
    cases D.getPath (q ++ [s]) with
    | none => rfl
    | some v => simp [afterStep_kind]

/-- A scalar that differs after `sanitizeValue` was a negative number directly under a configured
name and has become `0`. -/
theorem changed_scalar_is_negative_counter (D : Json) (p : List Step) (v w : Json)
    (hv : D.getPath p = some v) (hw : (sanitizeValue D).getPath p = some w)
    (hscalar : v.isScalar = true) (hne : v ≠ w) :
    ∃ (q : List Step) (k : String) (n : ℚ),
      p = q ++ [.key k] ∧ k ∈ UNSIGNED_INT_FIELDS ∧ v = .num n ∧ n < 0 ∧ w = .num 0 := by
  rcases List.eq_nil_or_concat p with h | ⟨q, s, h⟩
  · subst h
    simp only [Json.getPath, Option.some.injEq] at hv hw
    subst hv
    rw [sanitizeValue_of_scalar D hscalar] at hw
    exact absurd hw hne
  · subst h
    rw [List.concat_eq_append] at hv hw ⊢
    rw [getPath_sanitizeValue, hv] at hw
    simp only [Option.map_some', Option.some.injEq] at hw
    cases s with
    | index i =>
      simp only [afterStep] at hw
      rw [sanitizeValue_of_scalar v hscalar] at hw
      exact absurd hw hne
    | key k =>
      simp only [afterStep] at hw
      by_cases hc : (arrayIncludes UNSIGNED_INT_FIELDS k && v.isNegativeNumber) = true
      · have h1 : afterBody k v = .num 0 := by unfold afterBody; rw [if_pos hc]
        rw [h1] at hw
        rw [Bool.and_eq_true] at hc
        cases v with
        | num n =>
          refine ⟨q, k, n, rfl, (arrayIncludes_iff_mem _ _).1 hc.1, rfl, ?_, hw.symm⟩
          simpa [Json.isNegativeNumber] using hc.2
        | null => simp [Json.isNegativeNumber] at hc
        | bool _ => simp [Json.isNegativeNumber] at hc
        | str _ => simp [Json.isNegativeNumber] at hc
        | arr _ => simp [Json.isNegativeNumber] at hc
        | obj _ => simp [Json.isNegativeNumber] at hc
      · have h1 : afterBody k v = sanitizeValue v := by unfold afterBody; rw [if_neg hc]
        rw [h1, sanitizeValue_of_scalar v hscalar] at hw
        exact absurd hw hne

end FixOtlpTraces

/-- C21: sanitization keeps the shape of a document: the sanitized document, for `sanitizeValue`
and for `fixNegativeValues`, is the document with nothing changed but negative numbers directly
under a configured name, replaced by `0`; every position exists before exactly when it exists
after and holds the same kind of value; and a number, string, boolean or null that differs was
such a negative number. -/
theorem sanitization_preserves_shape (D : Json) :
    FixOtlpTraces.onlyCountersRepaired D (FixOtlpTraces.sanitizeValue D) = true ∧
      FixOtlpTraces.onlyCountersRepaired D (AutoFixOtlp.fixNegativeValues D) = true ∧
      (∀ p : List Step,
        ((FixOtlpTraces.sanitizeValue D).getPath p).map Json.kind
          = (D.getPath p).map Json.kind) ∧
      (∀ (p : List Step) (v w : Json),
        D.getPath p = some v → (FixOtlpTraces.sanitizeValue D).getPath p = some w →
        v.isScalar = true → v ≠ w →
        ∃ (q : List Step) (k : String) (n : ℚ),
          p = q ++ [.key k] ∧ k ∈ FixOtlpTraces.UNSIGNED_INT_FIELDS ∧
            v = .num n ∧ n < 0 ∧ w = .num 0) :=
  ⟨FixOtlpTraces.onlyCountersRepaired_sanitizeValue D,
    by rw [AutoFixOtlp.fixNegativeValues_eq_sanitizeValue]
       exact FixOtlpTraces.onlyCountersRepaired_sanitizeValue D,
    FixOtlpTraces.kind_getPath_sanitizeValue D,
    FixOtlpTraces.changed_scalar_is_negative_counter D⟩

/-- Witness of C21: in Scenario B the only scalar that differs is the `droppedLinksCount` of the
first span. -/
theorem sanitization_preserves_shape_witness :
    ∃ (q : List Step) (k : String) (n : ℚ),
      [Step.index 0, Step.key "droppedLinksCount"] = q ++ [.key k] ∧
        k ∈ FixOtlpTraces.UNSIGNED_INT_FIELDS ∧
        Json.num (-1) = .num n ∧ n < 0 ∧ Json.num 0 = .num 0 :=
  (sanitization_preserves_shape Scenario.inputDocument).2.2.2
    [.index 0, .key "droppedLinksCount"] (.num (-1)) (.num 0) (by decide) (by decide)
    (by decide) (by decide)

/-- What the shape relation rejects: a changed name, a dropped item, a changed kind, a configured
field rewritten to something other than `0`, and a rewritten field that is not configured. -/
theorem onlyCountersRepaired_examples :
    FixOtlpTraces.onlyCountersRepaired (.obj [("a", .num 1)]) (.obj [("b", .num 1)]) = false ∧
      FixOtlpTraces.onlyCountersRepaired (.arr [.num 1, .num 2]) (.arr [.num 1]) = false ∧
      FixOtlpTraces.onlyCountersRepaired (.obj [("a", .str "1")]) (.obj [("a", .num 1)])
        = false ∧
      FixOtlpTraces.onlyCountersRepaired (.obj [("droppedLinksCount", .num (-1))])
        (.obj [("droppedLinksCount", .num 1)]) = false ∧
      FixOtlpTraces.onlyCountersRepaired (.obj [("count", .num (-1))])
        (.obj [("count", .num 0)]) = false ∧
      FixOtlpTraces.onlyCountersRepaired (.obj [("droppedLinksCount", .num (-1))])
        (.obj [("droppedLinksCount", .num 0)]) = true := by
  decide

/-! ## The diagnostics of the sanitizers -/

namespace FixOtlpTraces

theorem consoleOfForEach_eq_flatMap :
    ∀ items : List Json, consoleOfForEach items = items.flatMap consoleOfSanitizeValue
  | [] => rfl
  | item :: rest => by
    rw [consoleOfForEach, consoleOfForEach_eq_flatMap rest, List.flatMap_cons]

mutual
theorem consoleOfDescend_eq : ∀ v : Json, consoleOfDescend v = consoleOfSanitizeValue v
  | .null => rfl
  | .bool _ => rfl
  | .num _ => rfl
  | .str _ => rfl
  | .obj _ => by rw [consoleOfDescend, consoleOfSanitizeValue]
  | .arr items => by
    rw [consoleOfDescend, consoleOfSanitizeValue, consoleOfForEach_eq_flatMap,
      consoleOverIndices_eq_flatMap items]
theorem consoleOverIndices_eq_flatMap :
    ∀ items : List Json, consoleOverIndices items = items.flatMap consoleOfSanitizeValue
  | [] => rfl
  | value :: rest => by
    rw [consoleOverIndices, consoleOfDescend_eq value, consoleOverIndices_eq_flatMap rest,
      List.flatMap_cons]
end

theorem consoleOverKeys_eq_flatMap :
    ∀ props : List (String × Json),
      consoleOverKeys props
        = props.flatMap (fun entry => logOfField entry.1 entry.2 ++ consoleOfSanitizeValue entry.2)
  | [] => rfl
  | (key, value) :: rest => by
    rw [consoleOverKeys, consoleOverKeys_eq_flatMap rest, consoleOfDescend_eq,
      List.flatMap_cons, List.append_assoc]

theorem console_arr (items : List Json) :
    consoleOfSanitizeValue (.arr items) = items.flatMap consoleOfSanitizeValue := by
  rw [consoleOfSanitizeValue, consoleOverIndices_eq_flatMap]

theorem console_obj (props : List (String × Json)) :
    consoleOfSanitizeValue (.obj props)
      = props.flatMap
          (fun entry => logOfField entry.1 entry.2 ++ consoleOfSanitizeValue entry.2) := by
  rw [consoleOfSanitizeValue, consoleOverKeys_eq_flatMap]

theorem logOfField_length (key : String) (value : Json) :
    (logOfField key value).length
      = if arrayIncludes UNSIGNED_INT_FIELDS key && value.isNegativeNumber then 1 else 0 := by
  cases value with
  | num n =>
    simp only [logOfField, Json.isNegativeNumber]
    split <;> rfl
  | null => simp [logOfField, Json.isNegativeNumber]
  | bool _ => simp [logOfField, Json.isNegativeNumber]
  | str _ => simp [logOfField, Json.isNegativeNumber]
  | arr _ => simp [logOfField, Json.isNegativeNumber]
  | obj _ => simp [logOfField, Json.isNegativeNumber]

theorem mem_logOfField (key : String) (value : Json) (record : Record)
    (h : record ∈ logOfField key value) :
    record.1 = key ∧ value = .num record.2 ∧ key ∈ UNSIGNED_INT_FIELDS ∧ record.2 < 0 := by
  cases value with
  | num n =>
    simp only [logOfField] at h
    split at h
    · rename_i hc
      rw [Bool.and_eq_true] at hc
      have hr := List.mem_singleton.1 h
      subst hr
      exact ⟨rfl, rfl, (arrayIncludes_iff_mem _ _).1 hc.1, of_decide_eq_true hc.2⟩
    · cases h
  | null => cases h
  | bool _ => cases h
  | str _ => cases h
  | arr _ => cases h
  | obj _ => cases h

mutual
theorem console_length : ∀ v : Json, (consoleOfSanitizeValue v).length = countNegativeFields v
  | .null => rfl
  | .bool _ => rfl
  | .num _ => rfl
  | .str _ => rfl
  | .arr items => by
    rw [consoleOfSanitizeValue, countNegativeFields]
    exact consoleOverIndices_length items
  | .obj props => by
    rw [consoleOfSanitizeValue, countNegativeFields]
    exact consoleOverKeys_length props
theorem consoleOverIndices_length :
    ∀ items : List Json, (consoleOverIndices items).length = countInItems items
  | [] => rfl
  | value :: rest => by
    rw [consoleOverIndices, countInItems, List.length_append, consoleOfDescend_eq,
      console_length value, consoleOverIndices_length rest]
theorem consoleOverKeys_length :
    ∀ props : List (String × Json), (consoleOverKeys props).length = countInProps props
  | [] => rfl
  | (key, value) :: rest => by
    rw [consoleOverKeys, countInProps, List.length_append, List.length_append,
      consoleOfDescend_eq, console_length value, consoleOverKeys_length rest,
      logOfField_length]
end

mutual
theorem console_records : ∀ (v : Json) (record : Record),
    record ∈ consoleOfSanitizeValue v → record.1 ∈ UNSIGNED_INT_FIELDS ∧ record.2 < 0
  | .null, _, h => by cases h
  | .bool _, _, h => by cases h
  | .num _, _, h => by cases h
  | .str _, _, h => by cases h
  | .arr items, record, h => by
    rw [consoleOfSanitizeValue] at h
    exact consoleOverIndices_records items record h
  | .obj props, record, h => by
    rw [consoleOfSanitizeValue] at h
    exact consoleOverKeys_records props record h
theorem consoleOverIndices_records : ∀ (items : List Json) (record : Record),
    record ∈ consoleOverIndices items → record.1 ∈ UNSIGNED_INT_FIELDS ∧ record.2 < 0
  | [], _, h => by cases h
  | value :: rest, record, h => by
    rw [consoleOverIndices, consoleOfDescend_eq, List.mem_append] at h
    rcases h with h | h
    · exact console_records value record h
    · exact consoleOverIndices_records rest record h
theorem consoleOverKeys_records : ∀ (props : List (String × Json)) (record : Record),
    record ∈ consoleOverKeys props → record.1 ∈ UNSIGNED_INT_FIELDS ∧ record.2 < 0
  | [], _, h => by cases h
  | (key, value) :: rest, record, h => by
    rw [consoleOverKeys, consoleOfDescend_eq, List.mem_append, List.mem_append] at h
    rcases h with (h | h) | h
    · obtain ⟨h1, _, h3, h4⟩ := mem_logOfField key value record h
      exact ⟨h1 ▸ h3, h4⟩
    · exact console_records value record h
    · exact consoleOverKeys_records rest record h
end

end FixOtlpTraces

namespace JaegerOtlpFixer

theorem logOfField_agree (key : String) (value : Json) :
    logOfField key value = FixOtlpTraces.logOfField key value := rfl

mutual
theorem consoleOfSanitizeObject_eq :
    ∀ v : Json, consoleOfSanitizeObject v = FixOtlpTraces.consoleOfSanitizeValue v
  | .null => rfl
  | .bool _ => rfl
  | .num _ => rfl
  | .str _ => rfl
  | .arr items => by
    rw [consoleOfSanitizeObject, FixOtlpTraces.consoleOfSanitizeValue,
      consoleOverIndices_agree items]
  | .obj props => by
    rw [consoleOfSanitizeObject, FixOtlpTraces.consoleOfSanitizeValue,
      consoleOverKeys_agree props]
theorem consoleOverIndices_agree :
    ∀ items : List Json, consoleOverIndices items = FixOtlpTraces.consoleOverIndices items
  | [] => rfl
  | value :: rest => by
    rw [consoleOverIndices, FixOtlpTraces.consoleOverIndices, consoleOfDescend_agree value,
      consoleOverIndices_agree rest]
theorem consoleOverKeys_agree :
    ∀ props : List (String × Json), consoleOverKeys props = FixOtlpTraces.consoleOverKeys props
  | [] => rfl
  | (key, value) :: rest => by
    rw [consoleOverKeys, FixOtlpTraces.consoleOverKeys, consoleOfDescend_agree value,
      consoleOverKeys_agree rest, logOfField_agree]
theorem consoleOfDescend_agree :
    ∀ v : Json, consoleOfDescend v = FixOtlpTraces.consoleOfDescend v
  | .null => rfl
  | .bool _ => rfl
  | .num _ => rfl
  | .str _ => rfl
  | .arr items => by
    rw [consoleOfDescend, FixOtlpTraces.consoleOfDescend, consoleOfForEach_agree items]
  | .obj props => by
    rw [consoleOfDescend, FixOtlpTraces.consoleOfDescend, consoleOverKeys_agree props]
theorem consoleOfForEach_agree :
    ∀ items : List Json, consoleOfForEach items = FixOtlpTraces.consoleOfForEach items
  | [] => rfl
  | item :: rest => by
    rw [consoleOfForEach, FixOtlpTraces.consoleOfForEach, consoleOfSanitizeObject_eq item,
      consoleOfForEach_agree rest]
end

end JaegerOtlpFixer

namespace FixOtlpTraces

theorem logOfField_eq_changed (key : String) (value : Json) :
    logOfField key value
      = (match value with
          | .num n => if afterBody key value = Json.num n then [] else [(key, n)]
          | _ => []) := by
  cases value with
  | num n =>
    simp only [logOfField, afterBody, Json.isNegativeNumber]
    by_cases h : (arrayIncludes UNSIGNED_INT_FIELDS key && decide (n < 0)) = true
    · have hn : n < 0 := by
        simp only [Bool.and_eq_true, decide_eq_true_eq] at h
        exact h.2
      have hne : ¬ (Json.num 0 = Json.num n) := by
        intro e
        injection e with e
        rw [← e] at hn
        exact absurd hn (lt_irrefl 0)
      simp only [h, if_true, if_neg hne]
    · simp [h, sanitizeValue]
  | _ => rfl

mutual
theorem console_eq_changedFields :
    ∀ v : Json, consoleOfSanitizeValue v = changedFields v (sanitizeValue v)
  | .null => rfl
  | .bool _ => rfl
  | .num _ => rfl
  | .str _ => rfl
  | .arr items => by
    rw [console_arr, sanitizeValue_arr, changedFields]
    exact consoleOverItems_eq_changed items
  | .obj props => by
    rw [console_obj, sanitizeValue_obj, changedFields]
    exact consoleOverProps_eq_changed props
theorem consoleOverItems_eq_changed :
    ∀ items : List Json,
      items.flatMap consoleOfSanitizeValue = changedInItems items (items.map sanitizeValue)
  | [] => rfl
  | item :: rest => by
    rw [List.flatMap_cons, List.map_cons, changedInItems, console_eq_changedFields item,
      consoleOverItems_eq_changed rest]
theorem consoleOverProps_eq_changed :
    ∀ props : List (String × Json),
      props.flatMap (fun entry => logOfField entry.1 entry.2 ++ consoleOfSanitizeValue entry.2)
        = changedInProps props (props.map (fun kv => (kv.1, afterBody kv.1 kv.2)))
  | [] => rfl
  | (key, value) :: rest => by
    have hrest := consoleOverProps_eq_changed rest
    have hlog := logOfField_eq_changed key value
    have hbelow : consoleOfSanitizeValue value = changedFields value (afterBody key value) := by
      rcases afterBody_cases key value with ⟨hscalar, hafter⟩ | hsame
      · cases value <;> first | rfl | simp [Json.isScalar] at hscalar
      · rw [hsame]
        exact console_eq_changedFields value
    rw [List.flatMap_cons, List.map_cons, hrest]
    show logOfField key value ++ consoleOfSanitizeValue value ++ _ = _
    rw [hlog, hbelow]
    cases value <;> rfl
end

end FixOtlpTraces

/-- C22: `sanitizeValue` writes one diagnostic record, the key and the original value, for each
field it rewrites: the records are the (key, original value) pairs of the properties at which
the sanitized document differs from the document, in depth-first pre-order; a configured
property with a negative number gives the record of its key and that number, any other property
none; the number of records is the number of properties of the document, at any depth, with a
configured name and a negative number; the records come depth first, a property's own record
before the records of its value and all of these before the records of the next property or
item; a top-level value that is not an object or an array gives no record and is left as it is;
and `sanitizeObject` writes the same records. -/
theorem diagnostics_follow_rewrites (D : Json) :
    FixOtlpTraces.consoleOfSanitizeValue D
        = FixOtlpTraces.changedFields D (FixOtlpTraces.sanitizeValue D) ∧
      (∀ (key : String) (n : ℚ),
        FixOtlpTraces.logOfField key (.num n)
          = if key ∈ FixOtlpTraces.UNSIGNED_INT_FIELDS ∧ n < 0 then [(key, n)] else []) ∧
      (FixOtlpTraces.consoleOfSanitizeValue D).length = FixOtlpTraces.countNegativeFields D ∧
      (∀ record ∈ FixOtlpTraces.consoleOfSanitizeValue D,
        record.1 ∈ FixOtlpTraces.UNSIGNED_INT_FIELDS ∧ record.2 < 0) ∧
      (∀ items : List Json, D = .arr items →
        FixOtlpTraces.consoleOfSanitizeValue D
          = items.flatMap FixOtlpTraces.consoleOfSanitizeValue) ∧
      (∀ props : List (String × Json), D = .obj props →
        FixOtlpTraces.consoleOfSanitizeValue D
          = props.flatMap (fun entry =>
              FixOtlpTraces.logOfField entry.1 entry.2
                ++ FixOtlpTraces.consoleOfSanitizeValue entry.2)) ∧
      (∀ (key : String) (value : Json),
        (FixOtlpTraces.logOfField key value).length
          = if arrayIncludes FixOtlpTraces.UNSIGNED_INT_FIELDS key && value.isNegativeNumber
            then 1 else 0) ∧
      (D.isScalar = true →
        FixOtlpTraces.consoleOfSanitizeValue D = [] ∧ FixOtlpTraces.sanitizeValue D = D) ∧
      JaegerOtlpFixer.consoleOfSanitizeObject D = FixOtlpTraces.consoleOfSanitizeValue D ∧
      JaegerOtlpFixer.consoleOfSanitizeObject D
        = FixOtlpTraces.changedFields D (JaegerOtlpFixer.sanitizeObject D) := by
  refine ⟨FixOtlpTraces.console_eq_changedFields D, ?_, FixOtlpTraces.console_length D,
    FixOtlpTraces.console_records D, ?_, ?_, FixOtlpTraces.logOfField_length, ?_,
    JaegerOtlpFixer.consoleOfSanitizeObject_eq D, ?_⟩
  · intro key n
    unfold FixOtlpTraces.logOfField
    by_cases hkey : key ∈ FixOtlpTraces.UNSIGNED_INT_FIELDS
    · have hin := (arrayIncludes_iff_mem FixOtlpTraces.UNSIGNED_INT_FIELDS key).2 hkey
      by_cases hn : n < 0 <;> simp [hin, hkey, hn]
    · have hin : arrayIncludes FixOtlpTraces.UNSIGNED_INT_FIELDS key = false := by
        cases h : arrayIncludes FixOtlpTraces.UNSIGNED_INT_FIELDS key
        · rfl
        · exact absurd ((arrayIncludes_iff_mem _ _).1 h) hkey
      simp [hin, hkey]
  · intro items h
    rw [h, FixOtlpTraces.console_arr]
  · intro props h
    rw [h, FixOtlpTraces.console_obj]
  · intro h
    refine ⟨?_, FixOtlpTraces.sanitizeValue_of_scalar D h⟩
    cases D <;> first | rfl | simp [Json.isScalar] at h
  · rw [JaegerOtlpFixer.consoleOfSanitizeObject_eq, JaegerOtlpFixer.sanitizeObject_eq_sanitizeValue]
    exact FixOtlpTraces.console_eq_changedFields D

/-- Witness of C22: a document with three negative counters, one of them inside the value of a
property that precedes another, and a counter that is not negative; and a scalar at the top
level. -/
theorem diagnostics_follow_rewrites_witness :
    FixOtlpTraces.consoleOfSanitizeValue
        (.obj [("droppedAttributesCount", .num (-3)),
          ("events", .arr [.obj [("droppedEventsCount", .num (-2)), ("name", .str "e")]]),
          ("droppedLinksCount", .num (-1)), ("droppedLabelsCount", .num 4)])
      = [("droppedAttributesCount", -3), ("droppedEventsCount", -2), ("droppedLinksCount", -1)] ∧
    (FixOtlpTraces.consoleOfSanitizeValue (.num (-1)) = [] ∧
      FixOtlpTraces.sanitizeValue (.num (-1)) = .num (-1)) :=
  ⟨(diagnostics_follow_rewrites
      (.obj [("droppedAttributesCount", .num (-3)),
        ("events", .arr [.obj [("droppedEventsCount", .num (-2)), ("name", .str "e")]]),
        ("droppedLinksCount", .num (-1)), ("droppedLabelsCount", .num 4)])).1.trans (by decide),
    (diagnostics_follow_rewrites (.num (-1))).2.2.2.2.2.2.2.1 (by decide)⟩

/-- The records of a document with three negative counters, one of them inside the value of a
property that precedes another: they come in depth-first order. -/
theorem diagnostics_example :
    FixOtlpTraces.consoleOfSanitizeValue
        (.obj [("droppedAttributesCount", .num (-3)),
          ("events", .arr [.obj [("droppedEventsCount", .num (-2)), ("name", .str "e")]]),
          ("droppedLinksCount", .num (-1)), ("droppedLabelsCount", .num 4)])
      = [("droppedAttributesCount", -3), ("droppedEventsCount", -2), ("droppedLinksCount", -1)] ∧
    FixOtlpTraces.countNegativeFields
        (.obj [("droppedAttributesCount", .num (-3)),
          ("events", .arr [.obj [("droppedEventsCount", .num (-2)), ("name", .str "e")]]),
          ("droppedLinksCount", .num (-1)), ("droppedLabelsCount", .num 4)]) = 3 := by
  decide

/-! ## The recursion of `sanitizeValue` terminates -/

namespace FixOtlpTraces

theorem size_pos (v : Json) : 0 < size v := by
  cases v <;> simp [size]

theorem size_le_sizeOfItems :
    ∀ (items : List Json) (item : Json), item ∈ items → size item ≤ sizeOfItems items
  | [], _, h => by cases h
  | first :: rest, item, h => by
    rw [sizeOfItems]
    rcases List.mem_cons.1 h with h | h
    · rw [h]; exact Nat.le_add_right _ _
    · exact Nat.le_trans (size_le_sizeOfItems rest item h) (Nat.le_add_left _ _)

theorem size_le_sizeOfProps :
    ∀ (props : List (String × Json)) (entry : String × Json),
      entry ∈ props → size entry.2 ≤ sizeOfProps props
  | [], _, h => by cases h
  | (key, value) :: rest, entry, h => by
    rw [sizeOfProps]
    rcases List.mem_cons.1 h with h | h
    · rw [h]; exact Nat.le_add_right _ _
    · exact Nat.le_trans (size_le_sizeOfProps rest entry h) (Nat.le_add_left _ _)

theorem size_lt_of_mem_callsFor (value call : Json) (h : call ∈ callsFor value) :
    size call ≤ size value := by
  cases value with
  | arr items =>
    have h1 := size_le_sizeOfItems items call h
    rw [size]
    omega
  | obj props =>
    rw [List.mem_singleton.1 h]
  | null => cases h
  | bool _ => cases h
  | num _ => cases h
  | str _ => cases h

/-- Every recursive call of `sanitizeValue` is made on a strictly smaller value. -/
theorem size_lt_of_mem_directCalls (D call : Json) (h : call ∈ directCalls D) :
    size call < size D := by
  cases D with
  | arr items =>
    obtain ⟨value, hvalue, hcall⟩ := List.mem_flatMap.1 h
    have h1 := size_lt_of_mem_callsFor value call hcall
    have h2 := size_le_sizeOfItems items value hvalue
    rw [size]
    omega
  | obj props =>
    obtain ⟨entry, hentry, hcall⟩ := List.mem_flatMap.1 h
    have h1 := size_lt_of_mem_callsFor entry.2 call hcall
    have h2 := size_le_sizeOfProps props entry hentry
    rw [size]
    omega
  | null => cases h
  | bool _ => cases h
  | num _ => cases h
  | str _ => cases h

theorem directCalls_wellFounded : WellFounded (fun call D : Json => call ∈ directCalls D) :=
  Subrelation.wf (fun {call D} h => size_lt_of_mem_directCalls D call h)
    (InvImage.wf size Nat.lt_wfRel.wf)

theorem mapM_eq_some_map {α β : Type} (f : α → Option β) (g : α → β) :
    ∀ items : List α, (∀ item ∈ items, f item = some (g item)) →
      items.mapM f = some (items.map g)
  | [], _ => rfl
  | item :: rest, h => by
    rw [List.mapM_cons, h item (List.mem_cons_self _ _),
      mapM_eq_some_map f g rest (fun other hother => h other (List.mem_cons_of_mem _ hother))]
    rfl

theorem descendWith_eq (call : Json → Option Json) (value : Json)
    (h : ∀ argument ∈ callsFor value, call argument = some (sanitizeValue argument)) :
    descendWith call value = some (sanitizeValue value) := by
  cases value with
  | arr items =>
    rw [descendWith, mapM_eq_some_map call sanitizeValue items h, sanitizeValue_arr]
    rfl
  | obj props => exact h _ (List.mem_singleton_self _)
  | null => rfl
  | bool _ => rfl
  | num _ => rfl
  | str _ => rfl

theorem bodyWith_eq (call : Json → Option Json) (entry : String × Json)
    (h : ∀ argument ∈ callsFor entry.2, call argument = some (sanitizeValue argument)) :
    bodyWith call entry = some (entry.1, afterBody entry.1 entry.2) := by
  unfold bodyWith afterBody
  split
  · rfl
  · rw [descendWith_eq call entry.2 h]
    rfl

/-- With a bound on the depth of calls that is at least the size of the document, the bounded
run returns, and returns the sanitized document. -/
theorem sanitizeValueFuel_eq :
    ∀ (fuel : Nat) (D : Json), size D ≤ fuel → sanitizeValueFuel fuel D = some (sanitizeValue D)
  | 0, D, h => absurd (size_pos D) (by omega)
  | fuel + 1, .null, _ => rfl
  | fuel + 1, .bool _, _ => rfl
  | fuel + 1, .num _, _ => rfl
  | fuel + 1, .str _, _ => rfl
  | fuel + 1, .arr items, h => by
    rw [sanitizeValueFuel, sanitizeValue_arr,
      mapM_eq_some_map (descendWith (sanitizeValueFuel fuel)) sanitizeValue items]
    · rfl
    · intro value hvalue
      apply descendWith_eq
      intro argument hargument
      apply sanitizeValueFuel_eq fuel argument
      have h1 := size_lt_of_mem_directCalls (.arr items) argument
        (List.mem_flatMap.2 ⟨value, hvalue, hargument⟩)
      omega
  | fuel + 1, .obj props, h => by
    rw [sanitizeValueFuel, sanitizeValue_obj,
      mapM_eq_some_map (bodyWith (sanitizeValueFuel fuel))
        (fun kv => (kv.1, afterBody kv.1 kv.2)) props]
    · rfl
    · intro entry hentry
      apply bodyWith_eq
      intro argument hargument
      apply sanitizeValueFuel_eq fuel argument
      have h1 := size_lt_of_mem_directCalls (.obj props) argument
        (List.mem_flatMap.2 ⟨entry, hentry, hargument⟩)
      omega

end FixOtlpTraces

/-- C23: `sanitizeValue` terminates on every document: each of its recursive calls is made on
an item or a property value of its argument, or on an item of one of these, a value strictly
smaller than the argument; the relation between a call and the call that makes it is therefore
well founded; and run with a bound on the depth of calls that is at least the size of the
document, it returns the sanitized document. -/
theorem sanitizeValue_terminates (D : Json) :
    (∀ call ∈ FixOtlpTraces.directCalls D, FixOtlpTraces.size call < FixOtlpTraces.size D) ∧
      WellFounded (fun call argument : Json => call ∈ FixOtlpTraces.directCalls argument) ∧
      (∀ fuel : Nat, FixOtlpTraces.size D ≤ fuel →
        FixOtlpTraces.sanitizeValueFuel fuel D = some (FixOtlpTraces.sanitizeValue D)) :=
  ⟨fun call h => FixOtlpTraces.size_lt_of_mem_directCalls D call h,
    FixOtlpTraces.directCalls_wellFounded,
    fun fuel h => FixOtlpTraces.sanitizeValueFuel_eq fuel D h⟩

/-- Witness of C23: Scenario B, a document of five values, run with a bound of five. -/
theorem sanitizeValue_terminates_witness :
    FixOtlpTraces.sanitizeValueFuel 5 Scenario.inputDocument
      = some (FixOtlpTraces.sanitizeValue Scenario.inputDocument) :=
  (sanitizeValue_terminates Scenario.inputDocument).2.2 5 (by decide)

/-- The bounded run on Scenario B: two levels of calls are needed and enough. -/
theorem sanitizeValueFuel_example :
    FixOtlpTraces.sanitizeValueFuel 1 Scenario.inputDocument = none ∧
      FixOtlpTraces.sanitizeValueFuel 2 Scenario.inputDocument = some Scenario.outputDocument ∧
      FixOtlpTraces.directCalls Scenario.inputDocument
        = [.obj [("droppedLinksCount", .num (-1))], .obj [("droppedLinksCount", .num 2)]] := by
  decide

/-! ## The gateway has no limit on the size of a body -/

/-- Counterexample to C24 as stated: the body of this matched request has 49 bytes, more than
any maximum below 49, and the request is forwarded and answered with the upstream status 200;
the handler has no maximum buffering size and no answer 413. -/
theorem large_body_is_forwarded :
    Scenario.cleanRequest.method = "POST" ∧
      JaegerOtlpFixer.includes Scenario.cleanRequest.url "/api/transform" = true ∧
      (JaegerOtlpFixer.concat Scenario.cleanRequest.chunks).size = 49 ∧
      (JaegerOtlpFixer.handler Scenario.cleanRuntime Scenario.env Scenario.upstream
        Scenario.cleanRequest).sent.length = 1 ∧
      (JaegerOtlpFixer.handler Scenario.cleanRuntime Scenario.env Scenario.upstream
        Scenario.cleanRequest).response.map JaegerOtlpFixer.ClientResponse.statusCode
        = some 200 ∧
      (200 : Nat) ≠ 413 := by
  decide

/-- C24, amended: a matched request is buffered whole whatever the size of its body.  For a body
larger than any given maximum, the request is forwarded when the body decompresses and parses,
and the only answer the handler gives without contacting the upstream target is the 400 for a
body that does not parse: there is no PayloadTooLarge answer. -/
theorem body_of_any_size_is_buffered (rt : Runtime) (env : JaegerOtlpFixer.Env)
    (upstream : JaegerOtlpFixer.UpstreamRequest → JaegerOtlpFixer.UpstreamResult)
    (req : JaegerOtlpFixer.IncomingMessage) (maximum : Nat)
    (hroute : req.method = "POST" ∧ JaegerOtlpFixer.includes req.url "/api/transform" = true)
    (_hlarge : maximum < (JaegerOtlpFixer.concat req.chunks).size) :
    (∀ (body : ByteArray) (data : Json),
        JaegerOtlpFixer.decompress rt (JaegerOtlpFixer.contentEncoding req.headers)
          (JaegerOtlpFixer.concat req.chunks) = some body →
        rt.parse (rt.bufferToString body) = .ok data →
        (JaegerOtlpFixer.handler rt env upstream req).sent.length = 1) ∧
      (∀ response : JaegerOtlpFixer.ClientResponse,
        (JaegerOtlpFixer.handler rt env upstream req).sent = [] →
        (JaegerOtlpFixer.handler rt env upstream req).response = some response →
        response.statusCode = 400) := by
  constructor
  · intro body data hbody hparse
    rw [JaegerOtlpFixer.handler_matched rt env upstream req body data hroute hbody hparse]
    rfl
  · intro response hsent hresponse
    cases hd : JaegerOtlpFixer.decompress rt (JaegerOtlpFixer.contentEncoding req.headers)
        (JaegerOtlpFixer.concat req.chunks) with
    | none =>
      rw [JaegerOtlpFixer.decompression_failure_escapes rt env upstream req hroute hd]
        at hresponse
      cases hresponse
    | some body =>
      cases hp : rt.parse (rt.bufferToString body) with
      | error message =>
        rw [JaegerOtlpFixer.handler_parse_error rt env upstream req body message hroute hd hp]
          at hresponse
        simp only [Option.some.injEq] at hresponse
        rw [← hresponse]
      | ok data =>
        rw [JaegerOtlpFixer.handler_matched rt env upstream req body data hroute hd hp] at hsent
        cases hsent

/-- Witness of C24 as amended: the 49 bytes of the request above against a maximum of 16. -/
theorem body_of_any_size_is_buffered_witness :
    (∀ (body : ByteArray) (data : Json),
        JaegerOtlpFixer.decompress Scenario.cleanRuntime
          (JaegerOtlpFixer.contentEncoding Scenario.cleanRequest.headers)
          (JaegerOtlpFixer.concat Scenario.cleanRequest.chunks) = some body →
        Scenario.cleanRuntime.parse (Scenario.cleanRuntime.bufferToString body) = .ok data →
        (JaegerOtlpFixer.handler Scenario.cleanRuntime Scenario.env Scenario.upstream
          Scenario.cleanRequest).sent.length = 1) ∧
      (∀ response : JaegerOtlpFixer.ClientResponse,
        (JaegerOtlpFixer.handler Scenario.cleanRuntime Scenario.env Scenario.upstream
          Scenario.cleanRequest).sent = [] →
        (JaegerOtlpFixer.handler Scenario.cleanRuntime Scenario.env Scenario.upstream
          Scenario.cleanRequest).response = some response →
        response.statusCode = 400) :=
  body_of_any_size_is_buffered Scenario.cleanRuntime Scenario.env Scenario.upstream
    Scenario.cleanRequest 16 (by decide) (by decide)

/-! ## The cluster path prefix -/

namespace ClusterPaths

theorem head_slash_iff (path : String) :
    path.data.head? = some '/' ↔ ∃ rest : String, path = "/" ++ rest := by
  constructor
  · intro h
    cases hd : path.data with
    | nil => rw [hd] at h; cases h
    | cons c cs =>
      rw [hd] at h
      simp only [List.head?_cons, Option.some.injEq] at h
      refine ⟨String.mk cs, String.ext ?_⟩
      rw [String.data_append, hd, h]
      rfl
  · rintro ⟨rest, h⟩
    rw [h, String.data_append]
    rfl

theorem getClusterPrefixedPath_of_ne (path : String) (h : path ≠ "") :
    getClusterPrefixedPath (some path)
      = "/c/:cluster" ++ (if path.data.head? = some '/' then "" else "/") ++ path := by
  simp only [getClusterPrefixedPath, if_neg h]

end ClusterPaths

/-- C28: the function `getClusterPrefixedPath` returns `/c/:cluster` for a null, undefined or
empty path; for a non-empty path it returns `/c/:cluster` followed by the path, with one `/`
between them exactly when the path does not begin with `/`; hence a non-empty path that does not
begin with `/` gives the same result with and without a `/` put in front of it. -/
theorem getClusterPrefixedPath_spec (path : String) :
    ClusterPaths.getClusterPrefixedPath none = "/c/:cluster" ∧
      ClusterPaths.getClusterPrefixedPath (some "") = "/c/:cluster" ∧
      (path ≠ "" → (∃ rest : String, path = "/" ++ rest) →
        ClusterPaths.getClusterPrefixedPath (some path) = "/c/:cluster" ++ path) ∧
      (path ≠ "" → (¬ ∃ rest : String, path = "/" ++ rest) →
        ClusterPaths.getClusterPrefixedPath (some path) = "/c/:cluster" ++ "/" ++ path) ∧
      (path ≠ "" → (¬ ∃ rest : String, path = "/" ++ rest) →
        ClusterPaths.getClusterPrefixedPath (some ("/" ++ path))
          = ClusterPaths.getClusterPrefixedPath (some path)) := by
  refine ⟨rfl, rfl, ?_, ?_, ?_⟩
  · intro hne hslash
    rw [ClusterPaths.getClusterPrefixedPath_of_ne path hne,
      if_pos ((ClusterPaths.head_slash_iff path).2 hslash)]
    exact congrArg (· ++ path) (String.append_empty _)
  · intro hne hslash
    rw [ClusterPaths.getClusterPrefixedPath_of_ne path hne,
      if_neg (fun h => hslash ((ClusterPaths.head_slash_iff path).1 h))]
  · intro hne hslash
    have hne' : "/" ++ path ≠ "" := by
      intro h
      have := congrArg String.length h
      simp only [String.length_append] at this
      have hone : "/".length = 1 := by decide
      rw [hone] at this
      have hzero : "".length = 0 := by decide
      omega
    rw [ClusterPaths.getClusterPrefixedPath_of_ne path hne,
      ClusterPaths.getClusterPrefixedPath_of_ne _ hne',
      if_neg (fun h => hslash ((ClusterPaths.head_slash_iff path).1 h)),
      if_pos ((ClusterPaths.head_slash_iff _).2 ⟨path, rfl⟩)]
    apply String.ext
    simp only [String.data_append, List.append_assoc]
    rfl

/-- Witness of C28: the path `pods`. -/
theorem getClusterPrefixedPath_spec_witness :
    ClusterPaths.getClusterPrefixedPath (some "pods") = "/c/:cluster" ++ "/" ++ "pods" ∧
      ClusterPaths.getClusterPrefixedPath (some ("/" ++ "pods"))
        = ClusterPaths.getClusterPrefixedPath (some "pods") :=
  ⟨(getClusterPrefixedPath_spec "pods").2.2.2.1 (by decide)
      (fun h => absurd ((ClusterPaths.head_slash_iff "pods").2 h) (by decide)),
    (getClusterPrefixedPath_spec "pods").2.2.2.2 (by decide)
      (fun h => absurd ((ClusterPaths.head_slash_iff "pods").2 h) (by decide))⟩

/-- Values of `getClusterPrefixedPath`. -/
theorem getClusterPrefixedPath_examples :
    ClusterPaths.getClusterPrefixedPath (some "pods") = "/c/:cluster/pods" ∧
      ClusterPaths.getClusterPrefixedPath (some "/pods") = "/c/:cluster/pods" ∧
      ClusterPaths.getClusterPrefixedPath (some "//pods") = "/c/:cluster//pods" ∧
      ClusterPaths.getClusterPrefixedPath (some "/") = "/c/:cluster/" ∧
      ClusterPaths.getClusterPrefixedPath (some "") = "/c/:cluster" ∧
      ClusterPaths.getClusterPrefixedPath none = "/c/:cluster" := by
  decide

/-! ## The clusters shown on the home page -/

namespace RecentClusters

/-- The recent clusters that still exist, in recency order: the first `clusters` entry of each
of the first three recent names that has one. -/
theorem found_length_le (recentNames : List String) (clusters : List Cluster) :
    ((recentNames.take maxRecentClusters).filterMap
        (fun name => clusters.find? (fun cluster => decide (cluster.name = name)))).length
      ≤ maxRecentClusters :=
  Nat.le_trans (List.length_filterMap_le _ _)
    (by rw [List.length_take]; exact Nat.min_le_left _ _)

theorem found_subset (names : List String) (clusters : List Cluster) :
    ∀ cluster ∈ names.filterMap
        (fun name => clusters.find? (fun cluster => decide (cluster.name = name))),
      cluster ∈ clusters := by
  intro cluster h
  obtain ⟨name, _, hfind⟩ := List.mem_filterMap.1 h
  exact List.mem_of_find?_eq_some hfind

theorem recentClusters_of_many (recentNames : List String) (clusters : List Cluster)
    (hmany : clusters.length > maxRecentClusters) :
    recentClusters recentNames clusters =
      (recentNames.take maxRecentClusters).filterMap
          (fun name => clusters.find? (fun cluster => decide (cluster.name = name)))
        ++ (clusters.filter (fun item =>
              !((recentNames.take maxRecentClusters).filterMap
                (fun name => clusters.find? (fun cluster => decide (cluster.name = name)))).contains
                  item)).take
            (maxRecentClusters -
              ((recentNames.take maxRecentClusters).filterMap
                (fun name => clusters.find?
                  (fun cluster => decide (cluster.name = name)))).length) := by
  unfold recentClusters
  simp only [if_pos hmany]
  split
  · rfl
  · rename_i h
    have h0 : maxRecentClusters -
        ((recentNames.take maxRecentClusters).filterMap
          (fun name => clusters.find? (fun cluster => decide (cluster.name = name)))).length
        = 0 := by omega
    rw [h0, List.take_zero, List.append_nil]

theorem length_filter_not_contains (chosen clusters : List Cluster) (hnodup : clusters.Nodup) :
    clusters.length ≤ chosen.length
      + (clusters.filter (fun item => !chosen.contains item)).length := by
  have hsplit : (clusters.filter (fun item => chosen.contains item)).length
      + (clusters.filter (fun item => !chosen.contains item)).length = clusters.length := by
    induction clusters with
    | nil => rfl
    | cons c cs ih =>
      have ih' := ih (List.nodup_cons.1 hnodup).2
      by_cases hc : chosen.contains c = true
      · simp only [List.filter_cons, hc, if_true, Bool.not_true, List.length_cons] at ih' ⊢
        simp only [Bool.false_eq_true, if_false]
        omega
      · simp only [Bool.not_eq_true] at hc
        simp only [List.filter_cons, hc, Bool.not_false, if_true, List.length_cons] at ih' ⊢
        simp only [Bool.false_eq_true, if_false]
        omega
  have hle : (clusters.filter (fun item => chosen.contains item)).length ≤ chosen.length := by
    apply List.Subperm.length_le
    apply List.Nodup.subperm (hnodup.filter _)
    intro c hc
    have := (List.mem_filter.1 hc).2
    simpa using this
  omega

end RecentClusters

/-- C27: the clusters shown are the given list itself when it has at most 3 entries; when it has
more, they are the clusters found for the first three recent names, in recency order, followed
by the first given clusters not among these, in input order, as many as are needed to reach 3;
every cluster shown is one of the given ones; the given clusters being distinct objects, exactly
3 are shown; and when no recent name is found they are the first 3 given clusters. -/
theorem recentClusters_spec (recentNames : List String) (clusters : List RecentClusters.Cluster) :
    (clusters.length ≤ 3 → RecentClusters.recentClusters recentNames clusters = clusters) ∧
      (clusters.length > 3 →
        ∃ found : List RecentClusters.Cluster,
          found = (recentNames.take 3).filterMap
            (fun name => clusters.find? (fun cluster => decide (cluster.name = name))) ∧
          RecentClusters.recentClusters recentNames clusters
            = found ++ (clusters.filter (fun item => decide (item ∉ found))).take
                (3 - found.length) ∧
          (found = [] → RecentClusters.recentClusters recentNames clusters = clusters.take 3)) ∧
      (∀ cluster ∈ RecentClusters.recentClusters recentNames clusters, cluster ∈ clusters) ∧
      (clusters.length > 3 → clusters.Nodup →
        (RecentClusters.recentClusters recentNames clusters).length = 3) := by
  have hform : clusters.length > 3 →
      RecentClusters.recentClusters recentNames clusters
        = (recentNames.take 3).filterMap
            (fun name => clusters.find? (fun cluster => decide (cluster.name = name)))
          ++ (clusters.filter (fun item => decide (item ∉ (recentNames.take 3).filterMap
                (fun name => clusters.find?
                  (fun cluster => decide (cluster.name = name)))))).take
              (3 - ((recentNames.take 3).filterMap
                (fun name => clusters.find?
                  (fun cluster => decide (cluster.name = name)))).length) := by
    intro hmany
    have hfilter : ∀ found : List RecentClusters.Cluster,
        clusters.filter (fun item => !found.contains item)
          = clusters.filter (fun item => decide (item ∉ found)) := by
      intro found
      apply List.filter_congr
      intro item _
      by_cases hitem : item ∈ found
      · simp [hitem]
      · simp [hitem]
    rw [RecentClusters.recentClusters_of_many recentNames clusters hmany, hfilter]
    rfl
  refine ⟨?_, ?_, ?_, ?_⟩
  · intro hfew
    unfold RecentClusters.recentClusters
    have : ¬ clusters.length > RecentClusters.maxRecentClusters := by
      simp only [RecentClusters.maxRecentClusters]; omega
    simp only [if_neg this]
  · intro hmany
    refine ⟨_, rfl, hform hmany, ?_⟩
    intro hempty
    rw [hform hmany, hempty]
    simp
  · intro cluster h
    by_cases hmany : clusters.length > 3
    · rw [hform hmany] at h
      rcases List.mem_append.1 h with h | h
      · exact RecentClusters.found_subset _ clusters cluster h
      · exact (List.mem_filter.1 (List.mem_of_mem_take h)).1
    · have hfew : ¬ clusters.length > RecentClusters.maxRecentClusters := by
        simp only [RecentClusters.maxRecentClusters]; omega
      unfold RecentClusters.recentClusters at h
      simp only [if_neg hfew] at h
      exact h
  · intro hmany hnodup
    rw [RecentClusters.recentClusters_of_many recentNames clusters hmany, List.length_append,
      List.length_take]
    have h1 := RecentClusters.found_length_le recentNames clusters
    have h2 := RecentClusters.length_filter_not_contains
      ((recentNames.take RecentClusters.maxRecentClusters).filterMap
        (fun name => clusters.find? (fun cluster => decide (cluster.name = name))))
      clusters hnodup
    simp only [RecentClusters.maxRecentClusters] at h1 h2 hmany ⊢
    omega

/-- Witness of C27: five clusters, the recent names `d`, a name that no longer exists, and
`b`. -/
theorem recentClusters_spec_witness :
    (RecentClusters.recentClusters ["d", "gone", "b"]
        [⟨0, "a"⟩, ⟨1, "b"⟩, ⟨2, "c"⟩, ⟨3, "d"⟩, ⟨4, "e"⟩]).length = 3 :=
  (recentClusters_spec ["d", "gone", "b"]
    [⟨0, "a"⟩, ⟨1, "b"⟩, ⟨2, "c"⟩, ⟨3, "d"⟩, ⟨4, "e"⟩]).2.2.2 (by decide) (by decide)

/-- The clusters shown in a few cases: recent names of which one is gone, no recent names, more
than three recent names, and three clusters or fewer. -/
theorem recentClusters_examples :
    RecentClusters.recentClusters ["d", "gone", "b"]
        [⟨0, "a"⟩, ⟨1, "b"⟩, ⟨2, "c"⟩, ⟨3, "d"⟩, ⟨4, "e"⟩]
      = [⟨3, "d"⟩, ⟨1, "b"⟩, ⟨0, "a"⟩] ∧
    RecentClusters.recentClusters [] [⟨0, "a"⟩, ⟨1, "b"⟩, ⟨2, "c"⟩, ⟨3, "d"⟩]
      = [⟨0, "a"⟩, ⟨1, "b"⟩, ⟨2, "c"⟩] ∧
    RecentClusters.recentClusters ["e", "d", "c", "b"]
        [⟨0, "a"⟩, ⟨1, "b"⟩, ⟨2, "c"⟩, ⟨3, "d"⟩, ⟨4, "e"⟩]
      = [⟨4, "e"⟩, ⟨3, "d"⟩, ⟨2, "c"⟩] ∧
    RecentClusters.recentClusters ["c"] [⟨0, "a"⟩, ⟨1, "b"⟩, ⟨2, "c"⟩]
      = [⟨0, "a"⟩, ⟨1, "b"⟩, ⟨2, "c"⟩] := by
  decide

/-! ## The log lines shown by the pod log viewer -/

namespace PodLogViewer

theorem join_append : ∀ first rest : List String, join (first ++ rest) = join first ++ join rest
  | [], rest => by
    show join rest = "" ++ join rest
    exact (String.empty_append _).symm
  | line :: others, rest => by
    show line ++ join (others ++ rest) = line ++ join others ++ join rest
    rw [join_append others rest, String.append_assoc]

theorem replaceAll_append (first rest : String) :
    replaceAll (first ++ rest) = replaceAll first ++ replaceAll rest := by
  apply String.ext
  simp only [replaceAll, String.data_append, List.flatMap_append]

theorem replaceAll_empty : replaceAll "" = "" := rfl

theorem slice_length_append (logs appended : List String) :
    slice (logs ++ appended) (logs.length : Int) = appended := by
  unfold slice
  have h : ¬ ((logs.length : Int) < 0) := by omega
  rw [if_neg h, Int.toNat_ofNat, List.drop_left]

theorem updater_state (current : LogState) (terminal : Terminal) (logLines : List String) :
    (updater current terminal logLines).1
      = { logs := logLines, lastLineShown := (logLines.length : Int) - 1 } := rfl

theorem setLogsDebounced_state (follow : Bool) (rendered : LogState) (paused : String)
    (eager : Bool) (view : LogState × Terminal) (logLines : List String) :
    (setLogsDebounced follow rendered paused eager view logLines).1
      = { logs := logLines, lastLineShown := (logLines.length : Int) - 1 } := by
  unfold setLogsDebounced
  cases eager <;> rfl

theorem setLogsDebounced_follow (rendered : LogState) (paused : String) (eager : Bool)
    (view : LogState × Terminal) (logLines : List String) :
    setLogsDebounced true rendered paused eager view logLines
      = updater view.1 view.2 logLines := by
  unfold setLogsDebounced pausedNotice
  cases eager <;> rfl

theorem updater_of_extension (current : LogState) (terminal : Terminal)
    (appended : List String)
    (hlast : current.lastLineShown = (current.logs.length : Int) - 1) :
    (updater current terminal (current.logs ++ appended)).2
      = { cleared := terminal.cleared,
          written := terminal.written ++ replaceAll (join appended) } := by
  unfold updater
  have hnot : ¬ current.lastLineShown ≥ ((current.logs ++ appended).length : Int) := by
    rw [hlast, List.length_append]
    push_cast
    omega
  simp only [if_neg hnot]
  have hstart : current.lastLineShown + 1 = (current.logs.length : Int) := by
    rw [hlast]; omega
  rw [hstart, slice_length_append]

theorem updater_of_shorter (current : LogState) (terminal : Terminal) (logLines : List String)
    (hlast : current.lastLineShown = (current.logs.length : Int) - 1)
    (hshorter : logLines.length < current.logs.length) :
    (updater current terminal logLines).2
      = { cleared := terminal.cleared + 1, written := replaceAll (join logLines) } := by
  unfold updater
  have hge : current.lastLineShown ≥ (logLines.length : Int) := by
    rw [hlast]; omega
  simp only [if_pos hge]

theorem synced_step (paused : String) (eager : Bool) (rendered : LogState)
    (view : LogState × Terminal) (logLines : List String) (hsynced : Synced view)
    (hnext : (∃ appended : List String, logLines = view.1.logs ++ appended)
      ∨ logLines.length < view.1.logs.length) :
    Synced (setLogsDebounced true rendered paused eager view logLines) := by
  rw [setLogsDebounced_follow]
  refine ⟨rfl, ?_⟩
  rcases hnext with ⟨appended, happended⟩ | hshorter
  · rw [happended, updater_of_extension view.1 view.2 appended hsynced.1]
    show view.2.written ++ replaceAll (join appended)
      = replaceAll (join (view.1.logs ++ appended))
    rw [join_append, replaceAll_append, hsynced.2]
  · rw [updater_of_shorter view.1 view.2 logLines hsynced.1 hshorter]
    rfl

theorem synced_run (paused : String) (eager : Bool) :
    ∀ (updates : List (List String)) (view : LogState × Terminal),
      Synced view → Admissible view.1.logs updates →
      Synced (followRun paused eager view updates)
  | [], _, hsynced, _ => hsynced
  | logLines :: rest, view, hsynced, hadmissible => by
    rw [followRun]
    apply synced_run paused eager rest
    · exact synced_step paused eager view.1 view logLines hsynced hadmissible.1
    · rw [setLogsDebounced_state]
      exact hadmissible.2

end PodLogViewer

/-- C29: every state `setLogsDebounced` sets has `lastLineShown = logs.length - 1`, as the
initial state has.  While the logs are followed, if the terminal shows the current lines and the
new list of lines extends the current one by appended lines or is strictly shorter, the terminal
shows the new lines afterwards: on an extension only the appended lines are written, on an
unchanged list nothing, on a shorter list the terminal is cleared and everything is written;
and so after any series of such updates from the initial state the text written since the last
clear is the current lines joined with every line feed replaced by carriage return and line
feed. -/
theorem terminal_shows_log_lines (paused : String) (eager : Bool) (rendered : PodLogViewer.LogState)
    (view : PodLogViewer.LogState × PodLogViewer.Terminal) (logLines : List String) :
    PodLogViewer.initialState.lastLineShown
        = (PodLogViewer.initialState.logs.length : Int) - 1 ∧
      (∀ follow : Bool,
        (PodLogViewer.setLogsDebounced follow rendered paused eager view logLines).1.logs
            = logLines ∧
          (PodLogViewer.setLogsDebounced follow rendered paused eager view logLines).1.lastLineShown
            = ((PodLogViewer.setLogsDebounced follow rendered paused eager view
                logLines).1.logs.length : Int) - 1) ∧
      (PodLogViewer.Synced view →
        (∀ appended : List String, logLines = view.1.logs ++ appended →
          (PodLogViewer.setLogsDebounced true rendered paused eager view logLines).2
            = { cleared := view.2.cleared,
                written := view.2.written
                  ++ PodLogViewer.replaceAll (PodLogViewer.join appended) }) ∧
        (logLines = view.1.logs →
          (PodLogViewer.setLogsDebounced true rendered paused eager view logLines).2 = view.2) ∧
        (logLines.length < view.1.logs.length →
          (PodLogViewer.setLogsDebounced true rendered paused eager view logLines).2
            = { cleared := view.2.cleared + 1,
                written := PodLogViewer.replaceAll (PodLogViewer.join logLines) }) ∧
        (((∃ appended : List String, logLines = view.1.logs ++ appended)
            ∨ logLines.length < view.1.logs.length) →
          PodLogViewer.Synced
            (PodLogViewer.setLogsDebounced true rendered paused eager view logLines))) ∧
      (∀ (terminal : PodLogViewer.Terminal) (updates : List (List String)),
        terminal.written = "" → PodLogViewer.Admissible [] updates →
        PodLogViewer.Synced
          (PodLogViewer.followRun paused eager (PodLogViewer.initialState, terminal) updates)) := by
  refine ⟨rfl, ?_, ?_, ?_⟩
  · intro follow
    rw [PodLogViewer.setLogsDebounced_state]
    exact ⟨rfl, rfl⟩
  · intro hsynced
    refine ⟨?_, ?_, ?_, ?_⟩
    · intro appended happended
      rw [PodLogViewer.setLogsDebounced_follow, happended,
        PodLogViewer.updater_of_extension view.1 view.2 appended hsynced.1]
    · intro hsame
      have happended : logLines = view.1.logs ++ [] := by rw [List.append_nil]; exact hsame
      rw [PodLogViewer.setLogsDebounced_follow, happended,
        PodLogViewer.updater_of_extension view.1 view.2 [] hsynced.1]
      show ({ cleared := view.2.cleared, written := view.2.written ++ "" } :
        PodLogViewer.Terminal) = view.2
      rw [String.append_empty]
    · intro hshorter
      rw [PodLogViewer.setLogsDebounced_follow,
        PodLogViewer.updater_of_shorter view.1 view.2 logLines hsynced.1 hshorter]
    · intro hnext
      exact PodLogViewer.synced_step paused eager rendered view logLines hsynced hnext
  · intro terminal updates hempty hadmissible
    exact PodLogViewer.synced_run paused eager updates (PodLogViewer.initialState, terminal)
      ⟨rfl, hempty⟩ hadmissible

/-- Witness of C29: two lines, then a third appended, then a restart with one line. -/
theorem terminal_shows_log_lines_witness :
    PodLogViewer.Synced
      (PodLogViewer.followRun "paused" true
        (PodLogViewer.initialState, { cleared := 1, written := "" })
        [["a\n", "b\n"], ["a\n", "b\n", "c\n"], ["d\n"]]) :=
  (terminal_shows_log_lines "paused" true PodLogViewer.initialState
    (PodLogViewer.initialState, { cleared := 1, written := "" }) []).2.2.2
    { cleared := 1, written := "" } [["a\n", "b\n"], ["a\n", "b\n", "c\n"], ["d\n"]] rfl
    ⟨Or.inl ⟨_, rfl⟩, Or.inl ⟨["c\n"], rfl⟩, Or.inr (by decide), trivial⟩

/-- The terminal after each step of that series: what is written and when it is cleared. -/
theorem terminal_examples :
    (PodLogViewer.followRun "paused" true
        (PodLogViewer.initialState, { cleared := 1, written := "" })
        [["a\n", "b\n"]]).2 = { cleared := 1, written := "a\r\nb\r\n" } ∧
      (PodLogViewer.followRun "paused" true
        (PodLogViewer.initialState, { cleared := 1, written := "" })
        [["a\n", "b\n"], ["a\n", "b\n", "c\n"]]).2
        = { cleared := 1, written := "a\r\nb\r\nc\r\n" } ∧
      (PodLogViewer.followRun "paused" true
        (PodLogViewer.initialState, { cleared := 1, written := "" })
        [["a\n", "b\n"], ["a\n", "b\n", "c\n"], ["d\n"]])
        = ({ logs := ["d\n"], lastLineShown := 0 }, { cleared := 2, written := "d\r\n" }) := by
  decide

/-! ## The generated `generate-checksum.js` -/

theorem Json.prop_setProp (key : String) (value : Json) (other : String) :
    ∀ props : List (String × Json),
      Json.prop (Json.setProp props key value) other
        = if other = key then some value else Json.prop props other
  | [] => by
    by_cases h : other = key
    · simp [Json.setProp, Json.prop, h]
    · have h' : ¬ key = other := fun e => h e.symm
      simp [Json.setProp, Json.prop, h, h']
  | (k, v) :: rest => by
    have ih := Json.prop_setProp key value other rest
    by_cases hk : k = key
    · by_cases h : other = key
      · simp [Json.setProp, Json.prop, hk, h]
      · have h' : ¬ key = other := fun e => h e.symm
        simp [Json.setProp, Json.prop, hk, h, h']
    · by_cases ho : k = other
      · have h : ¬ other = key := fun e => hk (ho.trans e)
        simp [Json.setProp, Json.prop, hk, ho, h]
      · simp [Json.setProp, Json.prop, hk, ho, ih]

theorem Json.keys_setProp (key : String) (value : Json) :
    ∀ props : List (String × Json),
      (Json.setProp props key value).map Prod.fst
        = if key ∈ props.map Prod.fst then props.map Prod.fst else props.map Prod.fst ++ [key]
  | [] => by simp [Json.setProp]
  | (k, v) :: rest => by
    have ih := Json.keys_setProp key value rest
    by_cases hk : k = key
    · simp [Json.setProp, hk]
    · have hk' : ¬ key = k := fun e => hk e.symm
      by_cases hmem : key ∈ rest.map Prod.fst
      · simp only [Json.setProp, if_neg hk, List.map_cons, ih, if_pos hmem, List.mem_cons,
          hmem, or_true, if_true]
      · simp only [Json.setProp, if_neg hk, List.map_cons, ih, if_neg hmem, List.mem_cons,
          hk', hmem, or_self, if_false, List.cons_append]

namespace GenerateChecksum

theorem isMatch_eq_none_iff (pluginName pluginVersion : String) (plugin : Json) :
    isMatch pluginName pluginVersion plugin = none ↔ plugin = Json.null := by
  cases plugin with
  | obj props =>
    simp only [isMatch, Json.read]
    split <;> simp
  | _ => simp [isMatch, Json.read]

theorem isObject_of_isMatch (pluginName pluginVersion : String) (plugin : Json)
    (h : isMatch pluginName pluginVersion plugin = some true) :
    ∃ props, plugin = Json.obj props
      ∧ Json.prop props "name" = some (Json.str pluginName)
      ∧ Json.prop props "version" = some (Json.str pluginVersion) := by
  cases plugin with
  | obj props =>
    refine ⟨props, rfl, ?_⟩
    simp only [isMatch, Json.read] at h
    by_cases hname : Json.prop props "name" = some (Json.str pluginName)
    · simp only [hname, if_true, Option.some.injEq, decide_eq_true_eq] at h
      exact ⟨hname, h⟩
    · simp [hname] at h
  | _ => simp [isMatch, Json.read] at h

theorem updateLoop_of_match (pluginName pluginVersion checksum : String) (plugin : Json)
    (after : List Json) (hmatch : isMatch pluginName pluginVersion plugin = some true) :
    ∀ before : List Json,
      (∀ entry ∈ before, isMatch pluginName pluginVersion entry = some false) →
      updateLoop pluginName pluginVersion checksum (before ++ plugin :: after)
        = some (before ++ plugin.assign "checksum" (Json.str checksum) :: after, true)
  | [], _ => by simp [updateLoop, hmatch]
  | entry :: before, hbefore => by
    have hentry := hbefore entry (List.mem_cons_self _ _)
    have ih := updateLoop_of_match pluginName pluginVersion checksum plugin after hmatch before
      (fun e he => hbefore e (List.mem_cons_of_mem _ he))
    simp [updateLoop, hentry, ih]

theorem updateLoop_of_null (pluginName pluginVersion checksum : String) (after : List Json) :
    ∀ before : List Json,
      (∀ entry ∈ before, isMatch pluginName pluginVersion entry = some false) →
      updateLoop pluginName pluginVersion checksum (before ++ Json.null :: after) = none
  | [], _ => rfl
  | entry :: before, hbefore => by
    have hentry := hbefore entry (List.mem_cons_self _ _)
    have ih := updateLoop_of_null pluginName pluginVersion checksum after before
      (fun e he => hbefore e (List.mem_cons_of_mem _ he))
    simp [updateLoop, hentry, ih]

theorem updateLoop_without_match (pluginName pluginVersion checksum : String) :
    ∀ entries : List Json,
      (∀ entry ∈ entries, isMatch pluginName pluginVersion entry ≠ some true) →
      ∀ result, updateLoop pluginName pluginVersion checksum entries = some result →
        result.2 = false
  | [], _, result, h => by
    simp [updateLoop] at h
    rw [← h]
  | entry :: rest, hnone, result, h => by
    have hentry := hnone entry (List.mem_cons_self _ _)
    have ih := updateLoop_without_match pluginName pluginVersion checksum rest
      (fun e he => hnone e (List.mem_cons_of_mem _ he))
    cases hm : isMatch pluginName pluginVersion entry with
    | none => simp [updateLoop, hm] at h
    | some b =>
      cases b with
      | true => exact absurd hm hentry
      | false =>
        cases hrest : updateLoop pluginName pluginVersion checksum rest with
        | none => simp [updateLoop, hm, hrest] at h
        | some pair =>
          simp [updateLoop, hm, hrest] at h
          rw [← h]
          exact ih pair hrest

theorem updateManifestFile_of_array (rt : Runtime) (fs : FixOtlpTraces.FileSystem)
    (manifestPath pluginName pluginVersion checksum text : String) (manifest : Json)
    (entries : List Json) (hread : fs.readFileSync manifestPath = some text)
    (hparse : rt.parse text = .ok manifest)
    (hplugins : manifest.read "plugins" = some (some (Json.arr entries))) :
    updateManifestFile rt fs manifestPath pluginName pluginVersion checksum
      = match updateLoop pluginName pluginVersion checksum entries with
        | none => (false, none)
        | some (updatedEntries, updated) =>
          if !updated then (false, none)
          else if fs.writable manifestPath then
            (true, some (rt.stringifyIndent (manifest.assign "plugins" (.arr updatedEntries))))
          else (false, none) := by
  simp [updateManifestFile, hread, hparse, hplugins, truthy, Json.isArray]

end GenerateChecksum

/-- C26, as the code has it: a `null` entry ahead of the matching one makes the read of its
`name` throw, so `updateManifestFile` returns `false` and writes nothing although the manifest
has a plugins array and an entry whose name and version match. -/
theorem null_entry_prevents_update :
    Scenario.manifestFileSystem.readFileSync "broken.json" = some Scenario.nullEntryText ∧
      Scenario.manifestRuntime.parse Scenario.nullEntryText
        = .ok (.obj [("plugins", .arr [.null, Scenario.pluginB])]) ∧
      GenerateChecksum.isMatch "b" "2" Scenario.pluginB = some true ∧
      GenerateChecksum.updateManifestFile Scenario.manifestRuntime Scenario.manifestFileSystem
        "broken.json" "b" "2" "c0ffee" = (false, none) :=
  ⟨rfl, rfl, rfl, rfl⟩

/-- C26, amended: for a manifest that is read and parsed, when `plugins` is an array, the
entries ahead of the first one whose name and version both match are not `null` and the file
can be written, `updateManifestFile` returns `true` and writes the manifest in which that entry
has `checksum` set to the given one, every other entry, every other property of the entry and
every other property of the manifest being as before; when no entry matches, or `plugins` is
not an array, or a `null` entry comes before the first match, it returns `false` and writes
nothing. -/
theorem updateManifestFile_first_match (rt : Runtime) (fs : FixOtlpTraces.FileSystem)
    (manifestPath pluginName pluginVersion checksum text : String) (manifest : Json)
    (hread : fs.readFileSync manifestPath = some text) (hparse : rt.parse text = .ok manifest) :
    (∀ before plugin after,
      manifest.read "plugins" = some (some (Json.arr (before ++ plugin :: after))) →
      (∀ entry ∈ before,
        GenerateChecksum.isMatch pluginName pluginVersion entry = some false) →
      GenerateChecksum.isMatch pluginName pluginVersion plugin = some true →
      fs.writable manifestPath = true →
      GenerateChecksum.updateManifestFile rt fs manifestPath pluginName pluginVersion checksum
          = (true, some (rt.stringifyIndent (manifest.assign "plugins"
              (.arr (before ++ plugin.assign "checksum" (Json.str checksum) :: after))))) ∧
        (plugin.assign "checksum" (Json.str checksum)).read "checksum"
          = some (some (Json.str checksum)) ∧
        (∀ key, key ≠ "checksum" →
          (plugin.assign "checksum" (Json.str checksum)).read key = plugin.read key) ∧
        (∀ key value, key ≠ "plugins" →
          (manifest.assign "plugins" value).read key = manifest.read key)) ∧
      (∀ entries, manifest.read "plugins" = some (some (Json.arr entries)) →
        (∀ entry ∈ entries,
          GenerateChecksum.isMatch pluginName pluginVersion entry ≠ some true) →
        GenerateChecksum.updateManifestFile rt fs manifestPath pluginName pluginVersion checksum
          = (false, none)) ∧
      ((∀ entries, manifest.read "plugins" ≠ some (some (Json.arr entries))) →
        GenerateChecksum.updateManifestFile rt fs manifestPath pluginName pluginVersion checksum
          = (false, none)) ∧
      (∀ before after,
        manifest.read "plugins" = some (some (Json.arr (before ++ Json.null :: after))) →
        (∀ entry ∈ before,
          GenerateChecksum.isMatch pluginName pluginVersion entry = some false) →
        GenerateChecksum.updateManifestFile rt fs manifestPath pluginName pluginVersion checksum
          = (false, none)) := by
  refine ⟨?_, ?_, ?_, ?_⟩
  · intro before plugin after hplugins hbefore hmatch hwritable
    refine ⟨?_, ?_, ?_, ?_⟩
    · rw [GenerateChecksum.updateManifestFile_of_array rt fs manifestPath pluginName
        pluginVersion checksum text manifest _ hread hparse hplugins,
        GenerateChecksum.updateLoop_of_match pluginName pluginVersion checksum plugin after
          hmatch before hbefore]
      simp [hwritable]
    · obtain ⟨props, hprops, -, -⟩ :=
        GenerateChecksum.isObject_of_isMatch pluginName pluginVersion plugin hmatch
      subst hprops
      simp [Json.assign, Json.read, Json.prop_setProp]
    · intro key hkey
      obtain ⟨props, hprops, -, -⟩ :=
        GenerateChecksum.isObject_of_isMatch pluginName pluginVersion plugin hmatch
      subst hprops
      simp [Json.assign, Json.read, Json.prop_setProp, hkey]
    · intro key value hkey
      cases manifest <;> simp [Json.assign, Json.read, Json.prop_setProp, hkey]
  · intro entries hplugins hnone
    rw [GenerateChecksum.updateManifestFile_of_array rt fs manifestPath pluginName
      pluginVersion checksum text manifest _ hread hparse hplugins]
    cases hloop : GenerateChecksum.updateLoop pluginName pluginVersion checksum entries with
    | none => rfl
    | some result =>
      have hfalse := GenerateChecksum.updateLoop_without_match pluginName pluginVersion
        checksum entries hnone result hloop
      obtain ⟨updatedEntries, updated⟩ := result
      simp only at hfalse
      subst hfalse
      rfl
  · intro hnot
    unfold GenerateChecksum.updateManifestFile
    rw [hread]
    simp only [hparse]
    cases hplugins : manifest.read "plugins" with
    | none => rfl
    | some found =>
      cases found with
      | none => rfl
      | some plugins =>
        cases plugins with
        | arr entries => exact absurd hplugins (hnot entries)
        | _ => simp [truthy, Json.isArray]
  · intro before after hplugins hbefore
    rw [GenerateChecksum.updateManifestFile_of_array rt fs manifestPath pluginName
      pluginVersion checksum text manifest _ hread hparse hplugins,
      GenerateChecksum.updateLoop_of_null pluginName pluginVersion checksum after before
        hbefore]

/-- Witness of C26: the second entry of the manifest matches and gets the checksum. -/
theorem updateManifestFile_first_match_witness :
    GenerateChecksum.updateManifestFile Scenario.manifestRuntime Scenario.manifestFileSystem
        "manifest.json" "b" "2" "c0ffee" = (true, some "a,b=c0ffee") :=
  ((updateManifestFile_first_match Scenario.manifestRuntime Scenario.manifestFileSystem
    "manifest.json" "b" "2" "c0ffee" Scenario.manifestText Scenario.manifestDocument
    rfl rfl).1 [Scenario.pluginA] Scenario.pluginB [] rfl (by decide) rfl rfl).1

/-- Two more runs on that manifest: no entry matches, and the file is not there. -/
theorem updateManifestFile_examples :
    GenerateChecksum.updateManifestFile Scenario.manifestRuntime Scenario.manifestFileSystem
        "manifest.json" "b" "1" "c0ffee" = (false, none) ∧
      GenerateChecksum.updateManifestFile Scenario.manifestRuntime Scenario.manifestFileSystem
        "missing.json" "b" "2" "c0ffee" = (false, none) ∧
      GenerateChecksum.updateManifestFile Scenario.manifestRuntime Scenario.manifestFileSystem
        "manifest.json" "a" "1" "c0ffee" = (true, some "a=c0ffee,b") :=
  ⟨rfl, rfl, rfl⟩

/-! ## The manifest updater -/

theorem Json.read_assign_of_ne (target : Json) (key other : String) (value : Json)
    (hne : other ≠ key) : (target.assign key value).read other = target.read other := by
  cases target <;> simp [Json.assign, Json.read, Json.prop_setProp, hne]

namespace ManifestUpdater

theorem frame_refl (host : Host) (fuel : Nat) (plugin : Json) (name version url checksum : Option Json)
    (hname : plugin.read "name" = some name) (hversion : plugin.read "version" = some version)
    (hurl : plugin.read "url" = some url) (hchecksum : plugin.read "checksum" = some checksum) :
    Frame host fuel plugin plugin :=
  ⟨name, version, url, checksum, hname, hversion, hurl, hchecksum, Or.inl rfl,
    fun _ => rfl, fun _ => rfl, fun _ => rfl, fun _ _ _ => rfl, fun _ _ => rfl⟩

theorem processPlugin_frame (host : Host) (fuel : Nat) (plugin updated : Json)
    (h : processPlugin host fuel plugin = some (some updated)) :
    Frame host fuel plugin updated := by
  unfold processPlugin at h
  cases hname : plugin.read "name" with
  | none => simp [hname] at h
  | some name =>
  cases hversion : plugin.read "version" with
  | none => simp [hname, hversion] at h
  | some version =>
  cases hurl : plugin.read "url" with
  | none => simp [hname, hversion, hurl] at h
  | some url =>
  cases hchecksum : plugin.read "checksum" with
  | none => simp [hname, hversion, hurl, hchecksum] at h
  | some checksum =>
  simp only [hname, hversion, hurl, hchecksum] at h
  by_cases hlacks : (!truthy name || !truthy version || !truthy url) = true
  · rw [if_pos hlacks] at h
    simp only [Option.some.injEq] at h
    subst h
    exact frame_refl host fuel plugin name version url checksum hname hversion hurl hchecksum
  · rw [if_neg hlacks] at h
    by_cases hhas : truthy checksum = true
    · rw [if_pos hhas] at h
      simp only [Option.some.injEq] at h
      subst h
      exact frame_refl host fuel plugin name version url checksum hname hversion hurl hchecksum
    · rw [if_neg hhas] at h
      cases hdownload : downloadFile host fuel url with
      | none => simp [hdownload] at h
      | some outcome =>
        cases outcome with
        | none =>
          simp only [hdownload, Option.some.injEq] at h
          subst h
          exact frame_refl host fuel plugin name version url checksum hname hversion hurl
            hchecksum
        | some bytes =>
          cases hdigest : host.digest bytes with
          | none =>
            simp only [hdownload, hdigest, Option.some.injEq] at h
            subst h
            exact frame_refl host fuel plugin name version url checksum hname hversion hurl
              hchecksum
          | some digest =>
            simp only [hdownload, hdigest, Option.some.injEq] at h
            subst h
            refine ⟨name, version, url, checksum, hname, hversion, hurl, hchecksum,
              Or.inr ⟨bytes, digest, hdownload, hdigest, rfl⟩, ?_, ?_, ?_, ?_, ?_⟩
            · intro hc
              exact absurd hc hhas
            · intro hl
              exfalso
              apply hlacks
              rcases hl with hl | hl | hl <;> simp [hl]
            · intro hd
              rw [hdownload] at hd
              cases hd
            · intro other hother hnone
              rw [hdownload] at hother
              simp only [Option.some.injEq] at hother
              subst hother
              rw [hdigest] at hnone
              cases hnone
            · intro key hkey
              exact Json.read_assign_of_ne plugin "checksum" key _ hkey

theorem processPlugins_frame (host : Host) (fuel : Nat) :
    ∀ entries updatedEntries : List Json,
      processPlugins host fuel entries = some (some updatedEntries) →
      List.Forall₂ (Frame host fuel) entries updatedEntries
  | [], updatedEntries, h => by
    simp only [processPlugins, Option.some.injEq] at h
    subst h
    exact List.Forall₂.nil
  | plugin :: rest, updatedEntries, h => by
    cases hplugin : processPlugin host fuel plugin with
    | none => simp [processPlugins, hplugin] at h
    | some outcome =>
      cases outcome with
      | none => simp [processPlugins, hplugin] at h
      | some updated =>
        cases hrest : processPlugins host fuel rest with
        | none => simp [processPlugins, hplugin, hrest] at h
        | some others =>
          cases others with
          | none => simp [processPlugins, hplugin, hrest] at h
          | some others =>
            simp only [processPlugins, hplugin, hrest, Option.some.injEq] at h
            subst h
            exact List.Forall₂.cons (processPlugin_frame host fuel plugin updated hplugin)
              (processPlugins_frame host fuel rest others hrest)

theorem downloadFile_settles (host : Host)
    (hdirect : ∀ address response, host.get address = some response →
      response.statusCode ≠ 301 ∧ response.statusCode ≠ 302)
    (fuel : Nat) (url : Option Json) :
    ∃ outcome, downloadFile host (fuel + 1) url = some outcome := by
  unfold downloadFile
  cases url with
  | none => exact ⟨none, rfl⟩
  | some value =>
    cases value with
    | str address =>
      cases hget : host.get address with
      | none => exact ⟨none, by simp [hget]⟩
      | some response =>
        have hnot := hdirect address response hget
        have hcond : ¬ (response.statusCode = 301 ∨ response.statusCode = 302) := by
          intro hor
          rcases hor with h | h
          · exact hnot.1 h
          · exact hnot.2 h
        simp only [hget, if_neg hcond]
        by_cases hok : response.statusCode ≠ 200
        · exact ⟨none, by rw [if_pos hok]⟩
        · exact ⟨some response.body, by rw [if_neg hok]⟩
    | _ => exact ⟨none, rfl⟩

theorem processPlugin_settles (host : Host)
    (hdirect : ∀ address response, host.get address = some response →
      response.statusCode ≠ 301 ∧ response.statusCode ≠ 302)
    (fuel : Nat) (plugin : Json) :
    ∃ outcome, processPlugin host (fuel + 1) plugin = some outcome := by
  unfold processPlugin
  cases hname : plugin.read "name" with
  | none => exact ⟨none, rfl⟩
  | some name =>
  cases hversion : plugin.read "version" with
  | none => exact ⟨none, rfl⟩
  | some version =>
  cases hurl : plugin.read "url" with
  | none => exact ⟨none, rfl⟩
  | some url =>
  cases hchecksum : plugin.read "checksum" with
  | none => exact ⟨none, rfl⟩
  | some checksum =>
  simp only
  split
  · exact ⟨_, rfl⟩
  · split
    · exact ⟨_, rfl⟩
    · obtain ⟨outcome, houtcome⟩ := downloadFile_settles host hdirect fuel url
      rw [houtcome]
      cases outcome with
      | none => exact ⟨_, rfl⟩
      | some bytes =>
        simp only
        cases host.digest bytes <;> exact ⟨_, rfl⟩

theorem processPlugins_settles (host : Host)
    (hdirect : ∀ address response, host.get address = some response →
      response.statusCode ≠ 301 ∧ response.statusCode ≠ 302)
    (fuel : Nat) :
    ∀ entries : List Json, ∃ outcome, processPlugins host (fuel + 1) entries = some outcome
  | [] => ⟨some [], rfl⟩
  | plugin :: rest => by
    obtain ⟨outcome, houtcome⟩ := processPlugin_settles host hdirect fuel plugin
    obtain ⟨others, hothers⟩ := processPlugins_settles host hdirect fuel rest
    unfold processPlugins
    rw [houtcome, hothers]
    cases outcome with
    | none => exact ⟨_, rfl⟩
    | some updated =>
      cases others with
      | none => exact ⟨_, rfl⟩
      | some others => exact ⟨_, rfl⟩

end ManifestUpdater

/-- C30: when `updateManifest` writes, it has returned `true` and the text is the manifest read
with its `plugins` replaced by a list that pairs off with the entries read, one for one and in
order, each entry being written back as it was or with only `checksum` set to the digest of its
download, and as it was when it already had a truthy checksum, lacked a name, version or url,
or its download or hashing failed; every other property of the manifest is as before.  When the
manifest file is missing, or `plugins` is not an array, it returns `false` and writes nothing.
The function returns whenever no response is a redirect. -/
theorem updateManifest_frame (rt : Runtime) (host : ManifestUpdater.Host) (fuel : Nat)
    (manifestPath : String) :
    (∀ returned text,
      ManifestUpdater.updateManifest rt host fuel manifestPath = some (returned, some text) →
      returned = true ∧
        ∃ source manifest entries updatedEntries,
          host.readFileSync manifestPath = some source ∧ rt.parse source = .ok manifest ∧
          manifest.read "plugins" = some (some (Json.arr entries)) ∧
          text = rt.stringifyIndent (manifest.assign "plugins" (.arr updatedEntries)) ∧
          List.Forall₂ (ManifestUpdater.Frame host fuel) entries updatedEntries ∧
          updatedEntries.length = entries.length ∧
          ∀ key value, key ≠ "plugins" →
            (manifest.assign "plugins" value).read key = manifest.read key) ∧
      (host.existsSync manifestPath = false →
        ManifestUpdater.updateManifest rt host fuel manifestPath = some (false, none)) ∧
      (∀ source manifest, host.readFileSync manifestPath = some source →
        rt.parse source = .ok manifest →
        (∀ entries, manifest.read "plugins" ≠ some (some (Json.arr entries))) →
        ManifestUpdater.updateManifest rt host fuel manifestPath = some (false, none)) ∧
      ((∀ address response, host.get address = some response →
          response.statusCode ≠ 301 ∧ response.statusCode ≠ 302) →
        ∃ result, ManifestUpdater.updateManifest rt host (fuel + 1) manifestPath
          = some result) := by
  refine ⟨?_, ?_, ?_, ?_⟩
  · intro returned text h
    unfold ManifestUpdater.updateManifest at h
    by_cases hexists : (!host.existsSync manifestPath) = true
    · rw [if_pos hexists] at h
      simp at h
    rw [if_neg hexists] at h
    cases hread : host.readFileSync manifestPath with
    | none => simp [hread] at h
    | some source =>
    cases hparse : rt.parse source with
    | error message => simp [hread, hparse] at h
    | ok manifest =>
    cases hplugins : manifest.read "plugins" with
    | none => simp [hread, hparse, hplugins] at h
    | some found =>
    cases found with
    | none => simp [hread, hparse, hplugins] at h
    | some plugins =>
    cases plugins with
    | arr entries =>
      simp only [hread, hparse, hplugins, truthy, Json.isArray, Bool.not_true, Bool.or_self,
        Bool.false_eq_true, if_false] at h
      cases hloop : ManifestUpdater.processPlugins host fuel entries with
      | none => simp [hloop] at h
      | some outcome =>
        cases outcome with
        | none => simp [hloop] at h
        | some updatedEntries =>
          simp only [hloop] at h
          by_cases hwritable : host.writable manifestPath = true
          · rw [if_pos hwritable] at h
            simp only [Option.some.injEq, Prod.mk.injEq] at h
            have hframe :=
              ManifestUpdater.processPlugins_frame host fuel entries updatedEntries hloop
            exact ⟨h.1.symm, source, manifest, entries, updatedEntries, rfl, hparse, hplugins,
              h.2.symm, hframe, hframe.length_eq.symm,
              fun key value hkey => Json.read_assign_of_ne manifest "plugins" key value hkey⟩
          · rw [if_neg hwritable] at h
            simp at h
    | null => simp [hread, hparse, hplugins, truthy] at h
    | bool b => cases b <;> simp [hread, hparse, hplugins, truthy, Json.isArray] at h
    | num n => simp [hread, hparse, hplugins, Json.isArray] at h
    | str s => simp [hread, hparse, hplugins, Json.isArray] at h
    | obj props => simp [hread, hparse, hplugins, Json.isArray] at h
  · intro hmissing
    unfold ManifestUpdater.updateManifest
    simp [hmissing]
  · intro source manifest hread hparse hnot
    unfold ManifestUpdater.updateManifest
    by_cases hexists : (!host.existsSync manifestPath) = true
    · rw [if_pos hexists]
    rw [if_neg hexists, hread]
    simp only [hparse]
    cases hplugins : manifest.read "plugins" with
    | none => rfl
    | some found =>
      cases found with
      | none => rfl
      | some plugins =>
        cases plugins with
        | arr entries => exact absurd hplugins (hnot entries)
        | _ => simp [truthy, Json.isArray]
  · intro hdirect
    rw [← Option.isSome_iff_exists]
    by_cases hexists : host.existsSync manifestPath = true
    swap
    · simp [ManifestUpdater.updateManifest, hexists]
    cases hread : host.readFileSync manifestPath with
    | none => simp [ManifestUpdater.updateManifest, hexists, hread]
    | some source =>
    cases hparse : rt.parse source with
    | error message => simp [ManifestUpdater.updateManifest, hexists, hread, hparse]
    | ok manifest =>
    cases hplugins : manifest.read "plugins" with
    | none => simp [ManifestUpdater.updateManifest, hexists, hread, hparse, hplugins]
    | some found =>
    cases found with
    | none => simp [ManifestUpdater.updateManifest, hexists, hread, hparse, hplugins]
    | some plugins =>
    cases plugins with
    | arr entries =>
      obtain ⟨outcome, houtcome⟩ :=
        ManifestUpdater.processPlugins_settles host hdirect fuel entries
      cases outcome with
      | none =>
        simp [ManifestUpdater.updateManifest, hexists, hread, hparse, hplugins, houtcome,
          truthy, Json.isArray]
      | some updatedEntries =>
        by_cases hwritable : host.writable manifestPath = true <;>
          simp [ManifestUpdater.updateManifest, hexists, hread, hparse, hplugins, houtcome,
            truthy, Json.isArray, hwritable]
    | null =>
      simp [ManifestUpdater.updateManifest, hexists, hread, hparse, hplugins, truthy]
    | bool b =>
      simp [ManifestUpdater.updateManifest, hexists, hread, hparse, hplugins, Json.isArray]
    | num n =>
      simp [ManifestUpdater.updateManifest, hexists, hread, hparse, hplugins, Json.isArray]
    | str text =>
      simp [ManifestUpdater.updateManifest, hexists, hread, hparse, hplugins, Json.isArray]
    | obj props =>
      simp [ManifestUpdater.updateManifest, hexists, hread, hparse, hplugins, Json.isArray]

/-- Witness of C30: the first plugin is downloaded and gets its digest, the second cannot be
reached and stays as it was. -/
theorem updateManifest_frame_witness :
    ManifestUpdater.updateManifest Scenario.manifestRuntime Scenario.manifestHost 1
        "manifest.json" = some (true, some "a=abc,b") ∧
      ∃ source manifest entries updatedEntries,
        Scenario.manifestHost.readFileSync "manifest.json" = some source ∧
        Scenario.manifestRuntime.parse source = .ok manifest ∧
        manifest.read "plugins" = some (some (Json.arr entries)) ∧
        "a=abc,b" = Scenario.manifestRuntime.stringifyIndent
          (manifest.assign "plugins" (.arr updatedEntries)) ∧
        List.Forall₂ (ManifestUpdater.Frame Scenario.manifestHost 1) entries updatedEntries ∧
        updatedEntries.length = entries.length ∧
        ∀ key value, key ≠ "plugins" →
          (manifest.assign "plugins" value).read key = manifest.read key :=
  ⟨rfl, ((updateManifest_frame Scenario.manifestRuntime Scenario.manifestHost 1
    "manifest.json").1 true "a=abc,b" rfl).2⟩

/-- Further runs on that host: a missing manifest, a manifest with a `null` entry, and a
redirect that leads back to itself. -/
theorem updateManifest_examples :
    ManifestUpdater.updateManifest Scenario.manifestRuntime Scenario.manifestHost 1
        "missing.json" = some (false, none) ∧
      ManifestUpdater.updateManifest Scenario.manifestRuntime Scenario.manifestHost 1
        "broken.json" = some (false, none) ∧
      ManifestUpdater.processPlugins Scenario.manifestHost 1
        [Scenario.pluginA, Scenario.pluginB]
        = some (some [Scenario.pluginA.assign "checksum" (.str "abc"), Scenario.pluginB]) ∧
      ManifestUpdater.downloadFile Scenario.manifestHost 5 (some (.str "https://x/moved"))
        = none :=
  ⟨rfl, rfl, rfl, rfl⟩

/-! ## The generated `setup-plugins.js` -/

namespace SetupPlugins

theorem downloadFile_resolves_iff (host : Host) (url : Option Json) (filePath : String)
    (files : Files) :
    (downloadFile host url filePath files).1 = true ↔ ∃ body, host.get url = .response 200 body := by
  unfold downloadFile
  cases hget : host.get url with
  | thrown => simp
  | error => simp
  | response statusCode body =>
    by_cases hstatus : statusCode = 200
    · subst hstatus
      simp
    · simp [hstatus]

theorem downloadFile_of_ok (host : Host) (url : Option Json) (filePath : String)
    (files : Files) (body : List UInt8) (hget : host.get url = .response 200 body) :
    downloadFile host url filePath files
      = (true, writeFile (writeFile files filePath []) filePath body) := by
  simp [downloadFile, hget]

theorem calculateChecksum_of_ok (host : Host) (url : Option Json) (filePath : String)
    (files : Files) (body : List UInt8) (hget : host.get url = .response 200 body) :
    calculateChecksum host filePath (downloadFile host url filePath files).2
      = host.digest body := by
  rw [downloadFile_of_ok host url filePath files body hget]
  simp [calculateChecksum, writeFile]

theorem downloadAll_results (host : Host) :
    ∀ (entries : List Json) (files after : Files) (results : List Bool),
      downloadAll host entries files = some (results, after) →
      List.Forall₂
        (fun plugin result => ∃ name version url checksum before,
          plugin.read "name" = some name ∧ plugin.read "version" = some version
            ∧ plugin.read "url" = some url ∧ plugin.read "checksum" = some checksum
            ∧ result = (downloadAndVerifyPlugin host name version url checksum before).1)
        entries results
  | [], files, after, results, h => by
    simp only [downloadAll, Option.some.injEq, Prod.mk.injEq] at h
    rw [← h.1]
    exact List.Forall₂.nil
  | plugin :: rest, files, after, results, h => by
    unfold downloadAll at h
    cases hname : plugin.read "name" with
    | none => simp [hname] at h
    | some name =>
    cases hversion : plugin.read "version" with
    | none => simp [hname, hversion] at h
    | some version =>
    cases hurl : plugin.read "url" with
    | none => simp [hname, hversion, hurl] at h
    | some url =>
    cases hchecksum : plugin.read "checksum" with
    | none => simp [hname, hversion, hurl, hchecksum] at h
    | some checksum =>
    simp only [hname, hversion, hurl, hchecksum] at h
    cases hrest : downloadAll host rest
        (downloadAndVerifyPlugin host name version url checksum files).2 with
    | none => simp [hrest] at h
    | some pair =>
      obtain ⟨others, final⟩ := pair
      simp only [hrest, Option.some.injEq, Prod.mk.injEq] at h
      rw [← h.1]
      exact List.Forall₂.cons ⟨name, version, url, checksum, files, hname, hversion, hurl, hchecksum, rfl⟩
        (downloadAll_results host rest _ final others hrest)

theorem main_of_results (rt : Runtime) (host : Host) (files after : Files) (text : String)
    (manifest : Json) (entries : List Json) (results : List Bool)
    (hexists : host.existsSync host.manifestPath = true)
    (hread : host.readFileSync host.manifestPath = some text)
    (hparse : rt.parse text = .ok manifest)
    (hplugins : manifest.read "plugins" = some (some (Json.arr entries)))
    (hresults : downloadAll host entries files = some (results, after)) :
    main rt host files = if results.all (fun result => result) then 0 else 1 := by
  simp [main, hexists, hread, hparse, hplugins, hresults, truthy, Json.isArray]

end SetupPlugins

/-- C25: for an entry that carries a checksum, `downloadAndVerifyPlugin` of the generated
`setup-plugins.js` resolves with `true` exactly when the download succeeds, with status 200, and
the digest of the downloaded file is the expected checksum; when the digest differs it resolves
with `false` and the output file is removed.  In `main`, once the manifest is read and its
plugins are an array whose entries can be read, every result is what `downloadAndVerifyPlugin`
gives for its entry, and the process ends with status 1 when a result is `false` and with
status 0 when all are `true`. -/
theorem downloadAndVerifyPlugin_verdict (host : SetupPlugins.Host)
    (name version url expectedChecksum : Option Json) (files : SetupPlugins.Files)
    (hcarries : truthy expectedChecksum = true) :
    ((SetupPlugins.downloadAndVerifyPlugin host name version url expectedChecksum files).1
        = true ↔
      ∃ body digest, host.get url = .response 200 body ∧ host.digest body = some digest
        ∧ expectedChecksum = some (Json.str digest)) ∧
      (∀ body digest, host.get url = .response 200 body → host.digest body = some digest →
        expectedChecksum ≠ some (Json.str digest) →
        (SetupPlugins.downloadAndVerifyPlugin host name version url expectedChecksum files).1
            = false ∧
          (SetupPlugins.downloadAndVerifyPlugin host name version url expectedChecksum files).2
            (SetupPlugins.outputFile host name version) = none) ∧
      (∀ (rt : Runtime) (text : String) (manifest : Json) (entries : List Json)
        (results : List Bool) (after : SetupPlugins.Files),
        host.existsSync host.manifestPath = true →
        host.readFileSync host.manifestPath = some text →
        rt.parse text = .ok manifest →
        manifest.read "plugins" = some (some (Json.arr entries)) →
        SetupPlugins.downloadAll host entries files = some (results, after) →
        List.Forall₂
            (fun plugin result => ∃ name version url checksum before,
              plugin.read "name" = some name ∧ plugin.read "version" = some version
                ∧ plugin.read "url" = some url ∧ plugin.read "checksum" = some checksum
                ∧ result
                  = (SetupPlugins.downloadAndVerifyPlugin host name version url checksum
                      before).1)
            entries results ∧
          (false ∈ results → SetupPlugins.main rt host files = 1) ∧
          ((∀ result ∈ results, result = true) → SetupPlugins.main rt host files = 0)) := by
  refine ⟨?_, ?_, ?_⟩
  · constructor
    · intro htrue
      unfold SetupPlugins.downloadAndVerifyPlugin at htrue
      by_cases hdownloaded :
          (SetupPlugins.downloadFile host url (SetupPlugins.outputFile host name version)
            files).1 = true
      · obtain ⟨body, hget⟩ :=
          (SetupPlugins.downloadFile_resolves_iff host url _ files).1 hdownloaded
        refine ⟨body, ?_⟩
        simp only [hdownloaded, Bool.not_true, Bool.false_eq_true, if_false, hcarries, if_true,
          SetupPlugins.calculateChecksum_of_ok host url _ files body hget] at htrue
        cases hdigest : host.digest body with
        | none => simp [hdigest] at htrue
        | some digest =>
          refine ⟨digest, hget, rfl, ?_⟩
          simp only [hdigest] at htrue
          by_cases hsame : some (Json.str digest) = expectedChecksum
          · exact hsame.symm
          · rw [if_pos hsame] at htrue
            cases htrue
      · simp [hdownloaded] at htrue
    · rintro ⟨body, digest, hget, hdigest, hexpected⟩
      unfold SetupPlugins.downloadAndVerifyPlugin
      have hdownloaded :=
        (SetupPlugins.downloadFile_resolves_iff host url
          (SetupPlugins.outputFile host name version) files).2 ⟨body, hget⟩
      simp [hdownloaded, hcarries,
        SetupPlugins.calculateChecksum_of_ok host url _ files body hget, hdigest, hexpected]
  · intro body digest hget hdigest hdiffers
    have hdiffers' : ¬ some (Json.str digest) = expectedChecksum := fun e => hdiffers e.symm
    have hdownloaded :=
      (SetupPlugins.downloadFile_resolves_iff host url
        (SetupPlugins.outputFile host name version) files).2 ⟨body, hget⟩
    unfold SetupPlugins.downloadAndVerifyPlugin
    simp [hdownloaded, hcarries,
      SetupPlugins.calculateChecksum_of_ok host url _ files body hget, hdigest, hdiffers',
      SetupPlugins.unlink]
  · intro rt text manifest entries results after hexists hread hparse hplugins hresults
    have hmain := SetupPlugins.main_of_results rt host files after text manifest entries
      results hexists hread hparse hplugins hresults
    refine ⟨SetupPlugins.downloadAll_results host entries files after results hresults, ?_, ?_⟩
    · intro hfalse
      rw [hmain]
      have hnot : ¬ results.all (fun result => result) = true := by
        intro hall
        have := List.all_eq_true.1 hall false hfalse
        cases this
      rw [if_neg hnot]
    · intro hall
      rw [hmain, if_pos (List.all_eq_true.2 hall)]

/-- Witness of C25: the verified plugin is served the bytes its checksum belongs to. -/
theorem downloadAndVerifyPlugin_verdict_witness :
    (SetupPlugins.downloadAndVerifyPlugin (Scenario.pluginHost Scenario.verifiedText)
      (some (.str "a")) (some (.str "1")) (some (.str "https://x/a")) (some (.str "abc"))
      Scenario.noFiles).1 = true :=
  (downloadAndVerifyPlugin_verdict (Scenario.pluginHost Scenario.verifiedText)
    (some (.str "a")) (some (.str "1")) (some (.str "https://x/a")) (some (.str "abc"))
    Scenario.noFiles rfl).1.2 ⟨[1, 2, 3], "abc", rfl, rfl, rfl⟩

/-- Runs of the generated script: a verified plugin is kept and `main` ends with 0; a plugin
with another checksum is removed and `main` ends with 1, as it does on a manifest with a `null`
entry and without a manifest. -/
theorem setupPlugins_examples :
    (SetupPlugins.downloadAndVerifyPlugin (Scenario.pluginHost Scenario.verifiedText)
        (some (.str "a")) (some (.str "1")) (some (.str "https://x/a")) (some (.str "abc"))
        Scenario.noFiles).2 "plugins/a-1.tgz" = some [1, 2, 3] ∧
      (SetupPlugins.downloadAndVerifyPlugin (Scenario.pluginHost Scenario.verifiedText)
        (some (.str "a")) (some (.str "1")) (some (.str "https://x/a")) (some (.str "abd"))
        Scenario.noFiles).1 = false ∧
      (SetupPlugins.downloadAndVerifyPlugin (Scenario.pluginHost Scenario.verifiedText)
        (some (.str "a")) (some (.str "1")) (some (.str "https://x/a")) (some (.str "abd"))
        Scenario.noFiles).2 "plugins/a-1.tgz" = none ∧
      SetupPlugins.main Scenario.pluginRuntime (Scenario.pluginHost Scenario.verifiedText)
        Scenario.noFiles = 0 ∧
      SetupPlugins.main Scenario.pluginRuntime (Scenario.pluginHost Scenario.tamperedText)
        Scenario.noFiles = 1 ∧
      SetupPlugins.main Scenario.pluginRuntime (Scenario.pluginHost Scenario.nullEntryText)
        Scenario.noFiles = 1 ∧
      SetupPlugins.main Scenario.pluginRuntime
        { Scenario.pluginHost Scenario.verifiedText with existsSync := fun _ => false }
        Scenario.noFiles = 1 :=
  ⟨rfl, rfl, rfl, rfl, rfl, rfl, rfl⟩
